import Mathlib

/-!
# Affine image transformations (`bob/ip/base/cpp/Affine.h`)

A shallow embedding of the bilinear resampler `transform`, of the `scale` and
`rotate` front ends (2D and 3D, with and without masks) and of the shape
predictors `getScaledShape` and `getRotatedShape`.

Conventions of the embedding.

* `double` is an arbitrary linearly ordered field `K` with a floor function
  (exact arithmetic).  Every definition is computable; at `K = ℚ` it can be
  evaluated, at `K = ℝ` it is the reading over the real numbers.
* `sin`, `cos` and `M_PI` come from `<cmath>`; they are the fields of a `Libm`
  record that every function using them receives.
* A `blitz::Array<T,2>` is its two extents together with the element access
  function `(y, x) ↦ a(y, x)`.  Source samples of every element type are taken
  as already converted to `double`.  Source and target never alias.
* `int` is `Int` and extents are `Nat`; the conversion of `std::floor(x)` to
  `int` is exact (no overflow), and `0.5` is `1 / 2`.
* A `for (int i = 0; i < n; ++i)` loop is `forLoop n body`, a left fold of the
  loop body over the counter values `0, …, n - 1`.
* A call that may throw returns an `Outcome`: the final state of its output
  buffers together with the information whether it returned or threw.

* The binding `PyBobIpBase_scale` of `affine.cpp` is embedded on parsed
  arguments: an array object is its `type_num`, `ndim`, `shape` and elements;
  the allocator of `bob.blitz` is a parameter.
* The body of `maxRectInMask` is not among the sources; it is modelled from
  the specification as an exhaustive search.
* The unmasked resampler and `scale` are embedded a second time, in the
  namespace `Binary64`, with every operation rounded as IEEE 754 binary64
  arithmetic rounds it; there a `double` is a `Double`, a significand and a
  power of two.  This second reading shows where a statement about exact
  arithmetic stops being true of the rounded arithmetic.

The theorems about `scale` assume `sin 0 = 0` and `cos 0 = 1` of the `Libm`
record; `real_libm_at_zero` shows that the exact real functions satisfy both.
-/

namespace Affine

/-! ## Data model -/

/-- The part of `<cmath>` used by the header: the constant `M_PI` and the
functions `sin` and `cos`. -/
structure Libm (K : Type) where
  /-- The constant `M_PI`. -/
  M_PI : K
  /-- The function `sin` (argument in radians). -/
  sin : K → K
  /-- The function `cos` (argument in radians). -/
  cos : K → K

/-- A two-dimensional `blitz::Array`: `extent(0)`, `extent(1)` and the access
function `a(y, x)`. -/
structure Array2 (α : Type) where
  /-- Number of rows, `extent(0)`. -/
  extent0 : Nat
  /-- Number of columns, `extent(1)`. -/
  extent1 : Nat
  /-- Element access `a(y, x)`. -/
  get : Int → Int → α

/-- The assignment `a(y, x) = v`. -/
def Array2.set {α : Type} (a : Array2 α) (y x : Int) (v : α) : Array2 α :=
  { a with get := fun i j => if i = y ∧ j = x then v else a.get i j }

/-- The member `shape()` of a two-dimensional array. -/
def Array2.shape {α : Type} (a : Array2 α) : Int × Int :=
  ((a.extent0 : Int), (a.extent1 : Int))

/-- A default-constructed `blitz::Array<bool,2>` (no elements). -/
def Array2.emptyMask : Array2 Bool :=
  { extent0 := 0, extent1 := 0, get := fun _ _ => false }

/-- A three-dimensional `blitz::Array`: plane, row and column extents and the
access function `a(p, y, x)`. -/
structure Array3 (α : Type) where
  /-- Number of planes, `extent(0)`. -/
  extent0 : Nat
  /-- Number of rows, `extent(1)`. -/
  extent1 : Nat
  /-- Number of columns, `extent(2)`. -/
  extent2 : Nat
  /-- Element access `a(p, y, x)`. -/
  get : Int → Int → Int → α

/-- The view `a(p, Range::all(), Range::all())`. -/
def Array3.slice {α : Type} (a : Array3 α) (p : Int) : Array2 α :=
  { extent0 := a.extent1, extent1 := a.extent2, get := a.get p }

/-- The effect on `a` of the writes made through the view
`a(p, Range::all(), Range::all())` when the view ends up holding `s`. -/
def Array3.setSlice {α : Type} (a : Array3 α) (p : Int) (s : Array2 α) : Array3 α :=
  { a with get := fun q => if q = p then s.get else a.get q }

/-- A counted loop `for (int i = 0; i < n; ++i) body`, as a fold of the body
over the successive counter values. -/
def forLoop {σ : Type} (n : Nat) (body : σ → Nat → σ) (s : σ) : σ :=
  (List.range n).foldl body s

/-- How a call that may throw ends: it returns, or it throws, in both cases
leaving the output buffers in some state. -/
inductive Outcome (ε σ : Type) where
  /-- Normal return with the final state of the outputs. -/
  | returned (state : σ) : Outcome ε σ
  /-- An exception propagated to the caller, with the state of the outputs
  at the moment of the throw. -/
  | threw (error : ε) (state : σ) : Outcome ε σ

/-- The exception raised by the dimension check. -/
inductive ShapeError where
  /-- Two dimension lengths that had to agree differ. -/
  | mismatch (d1 d2 : Int) : ShapeError

/-- Modelled from the spec: `bob::core::array::assertSameDimensionLength`
(declared in `bob/core/check.h`, not part of these sources) raises the
shape-mismatch condition when the two lengths differ and does nothing
otherwise. -/
def assertSameDimensionLength (d1 d2 : Int) : Except ShapeError Unit :=
  if d1 ≠ d2 then Except.error (ShapeError.mismatch d1 d2) else Except.ok ()

section Resampler

variable {K : Type} [LinearOrderedField K] [FloorRing K]

/-! ## The resampler `transform` -/

/-- The quantities `transform` derives before its loops: the source-image
displacement for one step along a target row (`col_dy`, `col_dx`), for one
step to the next target row (`row_dy`, `row_dx`), and the source position of
target pixel `(0,0)`. -/
structure Steps (K : Type) where
  /-- Source `y` displacement per target column. -/
  col_dy : K
  /-- Source `x` displacement per target column. -/
  col_dx : K
  /-- Source `y` displacement per target row. -/
  row_dy : K
  /-- Source `x` displacement per target row. -/
  row_dx : K
  /-- Source `y` of target pixel `(0,0)`. -/
  origin_y : K
  /-- Source `x` of target pixel `(0,0)`. -/
  origin_x : K

/-- Lines 36-57 of `transform`: the mapping from the new image to the
original image. -/
def steps (m : Libm K) (source_center target_center scaling_factor : K × K)
    (rotation_angle : K) : Steps K :=
  let original_center_y := source_center.1
  let original_center_x := source_center.2
  let new_center_y := target_center.1
  let new_center_x := target_center.2
  let sin_angle := -m.sin (rotation_angle * m.M_PI / 180)
  let cos_angle := m.cos (rotation_angle * m.M_PI / 180)
  { col_dy := -sin_angle / scaling_factor.1
    col_dx := cos_angle / scaling_factor.2
    row_dy := cos_angle / scaling_factor.1
    row_dx := sin_angle / scaling_factor.2
    origin_y := original_center_y
      - (new_center_y * cos_angle - new_center_x * sin_angle) / scaling_factor.1
    origin_x := original_center_x
      - (new_center_x * cos_angle + new_center_y * sin_angle) / scaling_factor.2 }

/-- Lines 83-86 and 112-126: the value accumulated in `res` for one target
pixel in the unmasked instantiation (`mask == false`). -/
def interpolate (source : Array2 K) (source_y source_x : K) : K :=
  let h : Int := (source.extent0 : Int) - 1
  let w : Int := (source.extent1 : Int) - 1
  let ox : Int := ⌊source_x⌋
  let oy : Int := ⌊source_y⌋
  let mx : K := source_x - (ox : K)
  let my : K := source_y - (oy : K)
  let res : K := 0
  -- upper left
  let res := if ox ≥ 0 ∧ oy ≥ 0 ∧ ox ≤ w ∧ oy ≤ h
    then res + (1 - mx) * (1 - my) * source.get oy ox else res
  -- upper right
  let res := if ox ≥ -1 ∧ oy ≥ 0 ∧ ox < w ∧ oy ≤ h
    then res + mx * (1 - my) * source.get oy (ox + 1) else res
  -- lower left
  let res := if ox ≥ 0 ∧ oy ≥ -1 ∧ ox ≤ w ∧ oy < h
    then res + (1 - mx) * my * source.get (oy + 1) ox else res
  -- lower right
  let res := if ox ≥ -1 ∧ oy ≥ -1 ∧ ox < w ∧ oy < h
    then res + mx * my * source.get (oy + 1) (ox + 1) else res
  res

/-- Lines 83-86 and 90-110: the pair (`res`, `new_mask`) accumulated for one
target pixel in the masked instantiation (`mask == true`). -/
def interpolateMasked (source : Array2 K) (source_mask : Array2 Bool)
    (source_y source_x : K) : K × Bool :=
  let h : Int := (source.extent0 : Int) - 1
  let w : Int := (source.extent1 : Int) - 1
  let ox : Int := ⌊source_x⌋
  let oy : Int := ⌊source_y⌋
  let mx : K := source_x - (ox : K)
  let my : K := source_y - (oy : K)
  let acc : K × Bool := (0, false)
  -- upper left
  let acc := if ox ≥ 0 ∧ oy ≥ 0 ∧ ox ≤ w ∧ oy ≤ h ∧ source_mask.get oy ox = true
    then (acc.1 + (1 - mx) * (1 - my) * source.get oy ox, true) else acc
  -- upper right
  let acc := if ox ≥ -1 ∧ oy ≥ 0 ∧ ox < w ∧ oy ≤ h ∧ source_mask.get oy (ox + 1) = true
    then (acc.1 + mx * (1 - my) * source.get oy (ox + 1), true) else acc
  -- lower left
  let acc := if ox ≥ 0 ∧ oy ≥ -1 ∧ ox ≤ w ∧ oy < h ∧ source_mask.get (oy + 1) ox = true
    then (acc.1 + (1 - mx) * my * source.get (oy + 1) ox, true) else acc
  -- lower right
  let acc := if ox ≥ -1 ∧ oy ≥ -1 ∧ ox < w ∧ oy < h
      ∧ source_mask.get (oy + 1) (ox + 1) = true
    then (acc.1 + mx * my * source.get (oy + 1) (ox + 1), true) else acc
  acc

/-- The variables live inside the loop over `x`: the two output buffers and
the running source position. -/
structure RowState (K : Type) where
  /-- The buffer `target`. -/
  target : Array2 K
  /-- The buffer `target_mask`. -/
  target_mask : Array2 Bool
  /-- The running variable `source_y`. -/
  source_y : K
  /-- The running variable `source_x`. -/
  source_x : K

/-- The variables live across the loop over `y`: the two output buffers and
the source position of the first pixel of the current row. -/
structure LoopState (K : Type) where
  /-- The buffer `target`. -/
  target : Array2 K
  /-- The buffer `target_mask`. -/
  target_mask : Array2 Bool
  /-- The variable `origin_y`. -/
  origin_y : K
  /-- The variable `origin_x`. -/
  origin_x : K

/-- Body of the loop over `x` (lines 77-133) for row `y`: interpolate at the
running position, store into `target(y,x)` (and `target_mask(y,x)` when
`mask`), then advance the running position by one column step. -/
def pixelBody (mask : Bool) (source : Array2 K) (source_mask : Array2 Bool)
    (s : Steps K) (y : Nat) (st : RowState K) (x : Nat) : RowState K :=
  if mask then
    let r := interpolateMasked source source_mask st.source_y st.source_x
    { target := st.target.set y x r.1
      target_mask := st.target_mask.set y x r.2
      source_y := st.source_y + s.col_dy
      source_x := st.source_x + s.col_dx }
  else
    { target := st.target.set y x (interpolate source st.source_y st.source_x)
      target_mask := st.target_mask
      source_y := st.source_y + s.col_dy
      source_x := st.source_x + s.col_dx }

/-- The state in which the loop over `x` is entered: the running position is
set to the origin of the current row (line 75). -/
def rowStart (st : LoopState K) : RowState K :=
  { target := st.target, target_mask := st.target_mask
    source_y := st.origin_y, source_x := st.origin_x }

/-- Body of the loop over `y` (lines 73-137): run the loop over `x`, then
shift the origin to the next line. -/
def rowBody (mask : Bool) (source : Array2 K) (source_mask : Array2 Bool)
    (s : Steps K) (size_x : Nat) (st : LoopState K) (y : Nat) : LoopState K :=
  let r := forLoop size_x (pixelBody mask source source_mask s y) (rowStart st)
  { target := r.target, target_mask := r.target_mask
    origin_y := st.origin_y + s.row_dy
    origin_x := st.origin_x + s.row_dx }

/-- The state in which the loop over `y` is entered. -/
def loopStart (s : Steps K) (target : Array2 K) (target_mask : Array2 Bool) : LoopState K :=
  { target := target, target_mask := target_mask
    origin_y := s.origin_y, origin_x := s.origin_x }

/-- The function template `transform<T, mask>`: bilinear interpolation of
`source` into `target`.  The result is the final content of the two output
buffers `target` and `target_mask`. -/
def transform (m : Libm K) (mask : Bool) (source : Array2 K) (source_mask : Array2 Bool)
    (source_center : K × K) (target : Array2 K) (target_mask : Array2 Bool)
    (target_center : K × K) (scaling_factor : K × K) (rotation_angle : K) :
    Array2 K × Array2 Bool :=
  let s := steps m source_center target_center scaling_factor rotation_angle
  let size_y := target.extent0
  let size_x := target.extent1
  let out := forLoop size_y (rowBody mask source source_mask s size_x)
    (loopStart s target target_mask)
  (out.target, out.target_mask)

/-- The variables of `transform` at the moment target pixel `(y, x)` is about
to be interpolated: `y` complete rows and `x` pixels of row `y` have been
processed. -/
def cursor (m : Libm K) (mask : Bool) (source : Array2 K) (source_mask : Array2 Bool)
    (source_center : K × K) (target : Array2 K) (target_mask : Array2 Bool)
    (target_center : K × K) (scaling_factor : K × K) (rotation_angle : K)
    (y x : Nat) : RowState K :=
  let s := steps m source_center target_center scaling_factor rotation_angle
  let rows := forLoop y (rowBody mask source source_mask s target.extent1)
    (loopStart s target target_mask)
  forLoop x (pixelBody mask source source_mask s y) (rowStart rows)

/-! ## Scaling -/

/-- The helper `_get_scale_factor`. -/
def _get_scale_factor (src_shape dst_shape : Int × Int) : K × K :=
  let y_scale : K := ((dst_shape.1 : K) - 1) / ((src_shape.1 : K) - 1)
  let x_scale : K := ((dst_shape.2 : K) - 1) / ((src_shape.2 : K) - 1)
  (y_scale, x_scale)

/-- The overload `scale(src, dst)` on two-dimensional arrays; the result is the
final content of `dst`. -/
def scale (m : Libm K) (src : Array2 K) (dst : Array2 K) : Array2 K :=
  let offset : K × K := (0, 0)
  let src_mask := Array2.emptyMask
  let dst_mask := Array2.emptyMask
  (transform m false src src_mask offset dst dst_mask offset
    (_get_scale_factor src.shape dst.shape) 0).1

/-- The overload `scale(src, src_mask, dst, dst_mask)` on two-dimensional
arrays; the result is the final content of `dst` and `dst_mask`. -/
def scaleMasked (m : Libm K) (src : Array2 K) (src_mask : Array2 Bool) (dst : Array2 K)
    (dst_mask : Array2 Bool) : Array2 K × Array2 Bool :=
  let offset : K × K := (0, 0)
  transform m true src src_mask offset dst dst_mask offset
    (_get_scale_factor src.shape dst.shape) 0

/-- The overload `scale(src, dst)` on three-dimensional arrays. -/
def scale3D (m : Libm K) (src : Array3 K) (dst : Array3 K) : Outcome ShapeError (Array3 K) :=
  match assertSameDimensionLength src.extent0 dst.extent0 with
  | Except.error e => Outcome.threw e dst
  | Except.ok _ =>
    Outcome.returned (forLoop dst.extent0
      (fun d p => d.setSlice p (scale m (src.slice p) (d.slice p))) dst)

/-- The overload `scale(src, src_mask, dst, dst_mask)` on three-dimensional
arrays. -/
def scale3DMasked (m : Libm K) (src : Array3 K) (src_mask : Array3 Bool) (dst : Array3 K)
    (dst_mask : Array3 Bool) : Outcome ShapeError (Array3 K × Array3 Bool) :=
  match assertSameDimensionLength src.extent0 dst.extent0 with
  | Except.error e => Outcome.threw e (dst, dst_mask)
  | Except.ok _ =>
  match assertSameDimensionLength src.extent0 src_mask.extent0 with
  | Except.error e => Outcome.threw e (dst, dst_mask)
  | Except.ok _ =>
  match assertSameDimensionLength src_mask.extent0 dst_mask.extent0 with
  | Except.error e => Outcome.threw e (dst, dst_mask)
  | Except.ok _ =>
    Outcome.returned (forLoop dst.extent0
      (fun d p =>
        let r := scaleMasked m (src.slice p) (src_mask.slice p) (d.1.slice p) (d.2.slice p)
        (d.1.setSlice p r.1, d.2.setSlice p r.2)) (dst, dst_mask))

/-- The function template `getScaledShape<D>`; `D` is the length of the shape
vector. -/
def getScaledShape (src_shape : List Int) (scale_factor : K) : List Int :=
  let D := src_shape.length
  let dst_shape := src_shape
  let dst_shape := dst_shape.set (D - 2)
    ⌊((dst_shape.getD (D - 2) 0 : Int) : K) * scale_factor + 1 / 2⌋
  let dst_shape := dst_shape.set (D - 1)
    ⌊((dst_shape.getD (D - 1) 0 : Int) : K) * scale_factor + 1 / 2⌋
  dst_shape

/-! ## Rotating -/

/-- The overload `rotate(src, dst, rotation_angle)` on two-dimensional arrays;
the result is the final content of `dst`. -/
def rotate (m : Libm K) (src : Array2 K) (dst : Array2 K) (rotation_angle : K) : Array2 K :=
  let src_offset : K × K := (((src.extent0 : K) - 1) / 2, ((src.extent1 : K) - 1) / 2)
  let dst_offset : K × K := (((dst.extent0 : K) - 1) / 2, ((dst.extent1 : K) - 1) / 2)
  let src_mask := Array2.emptyMask
  let dst_mask := Array2.emptyMask
  (transform m false src src_mask src_offset dst dst_mask dst_offset (1, 1) rotation_angle).1

/-- The overload `rotate(src, src_mask, dst, dst_mask, rotation_angle)` on
two-dimensional arrays. -/
def rotateMasked (m : Libm K) (src : Array2 K) (src_mask : Array2 Bool) (dst : Array2 K)
    (dst_mask : Array2 Bool) (rotation_angle : K) : Array2 K × Array2 Bool :=
  let src_offset : K × K := (((src.extent0 : K) - 1) / 2, ((src.extent1 : K) - 1) / 2)
  let dst_offset : K × K := (((dst.extent0 : K) - 1) / 2, ((dst.extent1 : K) - 1) / 2)
  transform m true src src_mask src_offset dst dst_mask dst_offset (1, 1) rotation_angle

/-- The overload `rotate(src, dst, rotation_angle)` on three-dimensional
arrays. -/
def rotate3D (m : Libm K) (src : Array3 K) (dst : Array3 K) (rotation_angle : K) :
    Outcome ShapeError (Array3 K) :=
  match assertSameDimensionLength src.extent0 dst.extent0 with
  | Except.error e => Outcome.threw e dst
  | Except.ok _ =>
    Outcome.returned (forLoop dst.extent0
      (fun d p => d.setSlice p (rotate m (src.slice p) (d.slice p) rotation_angle)) dst)

/-- The overload `rotate(src, src_mask, dst, dst_mask, rotation_angle)` on
three-dimensional arrays. -/
def rotate3DMasked (m : Libm K) (src : Array3 K) (src_mask : Array3 Bool) (dst : Array3 K)
    (dst_mask : Array3 Bool) (rotation_angle : K) :
    Outcome ShapeError (Array3 K × Array3 Bool) :=
  match assertSameDimensionLength src.extent0 dst.extent0 with
  | Except.error e => Outcome.threw e (dst, dst_mask)
  | Except.ok _ =>
  match assertSameDimensionLength src.extent0 src_mask.extent0 with
  | Except.error e => Outcome.threw e (dst, dst_mask)
  | Except.ok _ =>
  match assertSameDimensionLength src_mask.extent0 dst_mask.extent0 with
  | Except.error e => Outcome.threw e (dst, dst_mask)
  | Except.ok _ =>
    Outcome.returned (forLoop dst.extent0
      (fun d p =>
        let r := rotateMasked m (src.slice p) (src_mask.slice p) (d.1.slice p) (d.2.slice p)
          rotation_angle
        (d.1.setSlice p r.1, d.2.setSlice p r.2)) (dst, dst_mask))

/-- The function template `getRotatedShape<D>`; `D` is the length of the shape
vector. -/
def getRotatedShape (m : Libm K) (src_shape : List Int) (rotation_angle : K) : List Int :=
  let D := src_shape.length
  let dst_shape := src_shape
  let rad_angle := rotation_angle * m.M_PI / 180
  let absCos := |m.cos rad_angle|
  let absSin := |m.sin rad_angle|
  let dst_shape := dst_shape.set (D - 2)
    ⌊((src_shape.getD (D - 2) 0 : Int) : K) * absCos
      + ((src_shape.getD (D - 1) 0 : Int) : K) * absSin + 1 / 2⌋
  let dst_shape := dst_shape.set (D - 1)
    ⌊((src_shape.getD (D - 1) 0 : Int) : K) * absCos
      + ((src_shape.getD (D - 2) 0 : Int) : K) * absSin + 1 / 2⌋
  dst_shape

/-! ## Specification-side definitions -/

/-- The value the body of the loop over `x` stores into `target(y,x)`, for
either instantiation of the template. -/
def pixelValue (mask : Bool) (source : Array2 K) (source_mask : Array2 Bool)
    (source_y source_x : K) : K :=
  if mask then (interpolateMasked source source_mask source_y source_x).1
  else interpolate source source_y source_x

/-- The source position of target position `(y, x)` as an affine function:
the origin plus `y` row steps plus `x` column steps. -/
def sourceCoordinate (s : Steps K) (y x : K) : K × K :=
  (s.origin_y + y * s.row_dy + x * s.col_dy, s.origin_x + y * s.row_dx + x * s.col_dx)

/-- The four integer neighbours `(oy,ox)`, `(oy,ox+1)`, `(oy+1,ox)`,
`(oy+1,ox+1)` of a source position, each with its bilinear weight
`(1-mx)(1-my)`, `mx(1-my)`, `(1-mx)my`, `mx*my`. -/
def neighbours (source_y source_x : K) : List ((Int × Int) × K) :=
  let oy : Int := ⌊source_y⌋
  let ox : Int := ⌊source_x⌋
  let my : K := source_y - (oy : K)
  let mx : K := source_x - (ox : K)
  [((oy, ox), (1 - mx) * (1 - my)), ((oy, ox + 1), mx * (1 - my)),
   ((oy + 1, ox), (1 - mx) * my), ((oy + 1, ox + 1), mx * my)]

end Resampler

/-- The index `(i, j)` lies in `[0,h] × [0,w]`, with `h`, `w` the extents of
`a` minus one. -/
def Array2.inBounds {α : Type} (a : Array2 α) (i j : Int) : Prop :=
  0 ≤ i ∧ i ≤ (a.extent0 : Int) - 1 ∧ 0 ≤ j ∧ j ≤ (a.extent1 : Int) - 1

instance Array2.decidableInBounds {α : Type} (a : Array2 α) (i j : Int) :
    Decidable (a.inBounds i j) := by
  unfold Array2.inBounds; infer_instance

/-- A neighbour index that contributes in masked mode: in-bounds and with a
true source mask bit. -/
def validNeighbour {α : Type} (source : Array2 α) (source_mask : Array2 Bool)
    (i j : Int) : Prop :=
  source.inBounds i j ∧ source_mask.get i j = true

instance decidableValidNeighbour {α : Type} (source : Array2 α) (source_mask : Array2 Bool)
    (i j : Int) : Decidable (validNeighbour source source_mask i j) := by
  unfold validNeighbour; infer_instance

section Specification

variable {K : Type} [LinearOrderedField K] [FloorRing K]

/-- Bilinear interpolation as specified for the unmasked mode: the sum of
weight times sample over the in-bounds neighbours, nothing for the others,
no renormalisation. -/
def bilinearSum (source : Array2 K) (source_y source_x : K) : K :=
  (((neighbours source_y source_x).filter
      (fun n => decide (source.inBounds n.1.1 n.1.2))).map
    (fun n => n.2 * source.get n.1.1 n.1.2)).sum

/-- Bilinear interpolation as specified for the masked mode: the sum of
weight times sample over the neighbours that are in-bounds and valid in the
source mask. -/
def maskedBilinearSum (source : Array2 K) (source_mask : Array2 Bool)
    (source_y source_x : K) : K :=
  (((neighbours source_y source_x).filter
      (fun n => decide (validNeighbour source source_mask n.1.1 n.1.2))).map
    (fun n => n.2 * source.get n.1.1 n.1.2)).sum

end Specification

/-- Whether a call ended by throwing. -/
def Outcome.failed {ε σ : Type} : Outcome ε σ → Bool
  | Outcome.returned _ => false
  | Outcome.threw _ _ => true

/-! ## Concrete data for evaluating the model over `ℚ` -/

/-- A rational instance of `Libm`: `355/113` for `M_PI` and the first two
terms of the Taylor series for `sin` and `cos`, exact at angle `0`. -/
def taylorLibm : Libm ℚ :=
  { M_PI := 355 / 113, sin := fun t => t - t ^ 3 / 6, cos := fun t => 1 - t ^ 2 / 2 }

/-- A `2 × 3` image with sample `10 y + x + 1` at `(y, x)`. -/
def sampleSource : Array2 ℚ :=
  { extent0 := 2, extent1 := 3, get := fun y x => ((10 * y + x + 1 : Int) : ℚ) }

/-- A `2 × 3` mask that is false exactly in column `0`. -/
def sampleMask : Array2 Bool :=
  { extent0 := 2, extent1 := 3, get := fun _ x => decide (x ≠ 0) }

/-- A `rows × cols` output buffer filled with `0`. -/
def blankTarget (rows cols : Nat) : Array2 ℚ :=
  { extent0 := rows, extent1 := cols, get := fun _ _ => 0 }

/-- A `rows × cols` output mask filled with `false`. -/
def blankMask (rows cols : Nat) : Array2 Bool :=
  { extent0 := rows, extent1 := cols, get := fun _ _ => false }

/-- A `2 × 2 × 3` image with sample `100 p + 10 y + x` at `(p, y, x)`. -/
def sampleSource3 : Array3 ℚ :=
  { extent0 := 2, extent1 := 2, extent2 := 3
    get := fun p y x => ((100 * p + 10 * y + x : Int) : ℚ) }

/-- A `planes × rows × cols` output buffer filled with `0`. -/
def blankTarget3 (planes rows cols : Nat) : Array3 ℚ :=
  { extent0 := planes, extent1 := rows, extent2 := cols, get := fun _ _ _ => 0 }

/-- A `2 × 2 × 3` mask that is false exactly in column `0` of every plane. -/
def sampleMask3 : Array3 Bool :=
  { extent0 := 2, extent1 := 2, extent2 := 3, get := fun _ _ x => decide (x ≠ 0) }

/-- A `planes × rows × cols` output mask filled with `false`. -/
def blankMask3 (planes rows cols : Nat) : Array3 Bool :=
  { extent0 := planes, extent1 := rows, extent2 := cols, get := fun _ _ _ => false }

/-! ## Geometry of the rotated rectangle -/

section Geometry

variable {K : Type} [LinearOrderedField K]

/-- Rotation of the point `p = (y, x)` about the origin by `rotation_angle`
degrees: the map that `transform` (with unit scale factors) inverts. -/
def rotatePoint (m : Libm K) (rotation_angle : K) (p : K × K) : K × K :=
  let rad_angle := rotation_angle * m.M_PI / 180
  (p.1 * m.cos rad_angle - p.2 * m.sin rad_angle,
   p.2 * m.cos rad_angle + p.1 * m.sin rad_angle)

/-- The point `p = (y, x)` lies in the rectangle of height `rows` and width
`cols` centred at the origin. -/
def inRectangle (rows cols : K) (p : K × K) : Prop :=
  |p.1| ≤ rows / 2 ∧ |p.2| ≤ cols / 2

/-- The coordinate `f` takes on the region `S` exactly the range of an interval
of length `extent`: all its values lie between two bounds `extent` apart and
both bounds are attained.  For `f` a coordinate of the plane this says that the
smallest axis-aligned box containing `S` has side `extent` along `f`. -/
def boundingExtent (S : K × K → Prop) (f : K × K → K) (extent : K) : Prop :=
  ∃ lo hi : K, hi - lo = extent ∧ (∀ p, S p → lo ≤ f p ∧ f p ≤ hi) ∧
    (∃ p, S p ∧ f p = lo) ∧ (∃ p, S p ∧ f p = hi)

end Geometry

/-! ## Bounds-checked element access -/

/-- Element access with the index check of a debug build: `none` when the
index is outside the extents. -/
def Array2.checkedGet {α : Type} (a : Array2 α) (i j : Int) : Option α :=
  if 0 ≤ i ∧ i < (a.extent0 : Int) ∧ 0 ≤ j ∧ j < (a.extent1 : Int) then some (a.get i j)
  else none

section Checked

variable {K : Type} [LinearOrderedField K] [FloorRing K]

/-- Lines 83-86 and 112-126 with every read `source(i,j)` bounds-checked: the
result is `none` as soon as one read is out of range. -/
def interpolateChecked (source : Array2 K) (source_y source_x : K) : Option K :=
  let h : Int := (source.extent0 : Int) - 1
  let w : Int := (source.extent1 : Int) - 1
  let ox : Int := ⌊source_x⌋
  let oy : Int := ⌊source_y⌋
  let mx : K := source_x - (ox : K)
  let my : K := source_y - (oy : K)
  let res : K := 0
  -- upper left
  (if ox ≥ 0 ∧ oy ≥ 0 ∧ ox ≤ w ∧ oy ≤ h
    then (source.checkedGet oy ox).map (fun v => res + (1 - mx) * (1 - my) * v)
    else some res).bind fun res =>
  -- upper right
  (if ox ≥ -1 ∧ oy ≥ 0 ∧ ox < w ∧ oy ≤ h
    then (source.checkedGet oy (ox + 1)).map (fun v => res + mx * (1 - my) * v)
    else some res).bind fun res =>
  -- lower left
  (if ox ≥ 0 ∧ oy ≥ -1 ∧ ox ≤ w ∧ oy < h
    then (source.checkedGet (oy + 1) ox).map (fun v => res + (1 - mx) * my * v)
    else some res).bind fun res =>
  -- lower right
  (if ox ≥ -1 ∧ oy ≥ -1 ∧ ox < w ∧ oy < h
    then (source.checkedGet (oy + 1) (ox + 1)).map (fun v => res + mx * my * v)
    else some res)

/-- One guarded accumulation of the masked branch with bounds-checked reads:
`source_mask(i,j)` is read only when the bounds part of the guard holds (the
`&&` chain short-circuits), `source(i,j)` only when the mask bit is true. -/
def maskedTermChecked (source : Array2 K) (source_mask : Array2 Bool) (bounds : Prop)
    [Decidable bounds] (i j : Int) (weight : K) (acc : K × Bool) : Option (K × Bool) :=
  if bounds then
    (source_mask.checkedGet i j).bind fun bit =>
      if bit = true then (source.checkedGet i j).map (fun v => (acc.1 + weight * v, true))
      else some acc
  else some acc

/-- Lines 83-86 and 90-110 with every read of `source` and `source_mask`
bounds-checked. -/
def interpolateMaskedChecked (source : Array2 K) (source_mask : Array2 Bool)
    (source_y source_x : K) : Option (K × Bool) :=
  let h : Int := (source.extent0 : Int) - 1
  let w : Int := (source.extent1 : Int) - 1
  let ox : Int := ⌊source_x⌋
  let oy : Int := ⌊source_y⌋
  let mx : K := source_x - (ox : K)
  let my : K := source_y - (oy : K)
  let acc : K × Bool := (0, false)
  -- upper left
  (maskedTermChecked source source_mask (ox ≥ 0 ∧ oy ≥ 0 ∧ ox ≤ w ∧ oy ≤ h)
    oy ox ((1 - mx) * (1 - my)) acc).bind fun acc =>
  -- upper right
  (maskedTermChecked source source_mask (ox ≥ -1 ∧ oy ≥ 0 ∧ ox < w ∧ oy ≤ h)
    oy (ox + 1) (mx * (1 - my)) acc).bind fun acc =>
  -- lower left
  (maskedTermChecked source source_mask (ox ≥ 0 ∧ oy ≥ -1 ∧ ox ≤ w ∧ oy < h)
    (oy + 1) ox ((1 - mx) * my) acc).bind fun acc =>
  -- lower right
  maskedTermChecked source source_mask (ox ≥ -1 ∧ oy ≥ -1 ∧ ox < w ∧ oy < h)
    (oy + 1) (ox + 1) (mx * my) acc

end Checked

/-- A `rows × cols` image whose samples are all `1`. -/
def allOnes (rows cols : Nat) : Array2 ℚ :=
  { extent0 := rows, extent1 := cols, get := fun _ _ => 1 }

/-! ## The largest rectangle in a mask -/

/-- A candidate rectangle of the search: top-left corner, height and width. -/
structure Rect where
  /-- The y-coordinate of the top left corner. -/
  top : Nat
  /-- The x-coordinate of the top left corner. -/
  left : Nat
  /-- The height of the rectangle. -/
  height : Nat
  /-- The width of the rectangle. -/
  width : Nat

/-- Number of pixels of a rectangle. -/
def Rect.area (r : Rect) : Nat := r.height * r.width

/-- The result vector `(top, left, height, width)` of `maxRectInMask`. -/
def Rect.toVector (r : Rect) : Int × Int × Int × Int :=
  ((r.top : Int), (r.left : Int), (r.height : Int), (r.width : Int))

/-- All rectangles that lie within a mask of the given extents, enumerated by
top-left corner and, for each corner, from the largest height and width
down. -/
def Rect.candidates (height width : Nat) : List Rect :=
  (List.range (height + 1)).flatMap fun top =>
    (List.range (width + 1)).flatMap fun left =>
      (List.range (height - top + 1)).reverse.flatMap fun h =>
        (List.range (width - left + 1)).reverse.map fun w =>
          { top := top, left := left, height := h, width := w }

/-- Whether every mask value inside the rectangle is `true`. -/
def Rect.onlyTrue (mask : Array2 Bool) (r : Rect) : Bool :=
  (List.range r.height).all fun dy =>
    (List.range r.width).all fun dx => mask.get ((r.top + dy : Nat) : Int) ((r.left + dx : Nat) : Int)

/-- Keep the rectangle found so far unless the new one has a strictly larger
area. -/
def Rect.larger (best r : Rect) : Rect :=
  if best.area < r.area then r else best

/-- Modelled from the spec: `maxRectInMask` is declared in `Affine.h` but its
body is not part of these sources.  Following section 4.5 it returns, as
`(top, left, height, width)`, a largest-area axis-aligned rectangle among those
that lie within the mask bounds and contain only `true` values (the first such
in the order of `Rect.candidates`); a mask without `true` pixel yields a
rectangle of zero area. -/
def maxRectInMask (mask : Array2 Bool) : Int × Int × Int × Int :=
  let found := (Rect.candidates mask.extent0 mask.extent1).filter (Rect.onlyTrue mask)
  (found.foldl Rect.larger (found.headD { top := 0, left := 0, height := 0, width := 0 })).toVector

/-- The rectangle `v = (top, left, height, width)` lies within the bounds of
`mask`. -/
def withinMaskBounds (mask : Array2 Bool) (v : Int × Int × Int × Int) : Prop :=
  0 ≤ v.1 ∧ 0 ≤ v.2.1 ∧ 0 ≤ v.2.2.1 ∧ 0 ≤ v.2.2.2 ∧
    v.1 + v.2.2.1 ≤ (mask.extent0 : Int) ∧ v.2.1 + v.2.2.2 ≤ (mask.extent1 : Int)

/-- The rectangle `v = (top, left, height, width)` contains only `true` values
of `mask`. -/
def containsOnlyTrue (mask : Array2 Bool) (v : Int × Int × Int × Int) : Prop :=
  ∀ y x : Int, v.1 ≤ y → y < v.1 + v.2.2.1 → v.2.1 ≤ x → x < v.2.1 + v.2.2.2 →
    mask.get y x = true

/-- A `rows × cols` mask that is `true` everywhere. -/
def fullMask (rows cols : Nat) : Array2 Bool :=
  { extent0 := rows, extent1 := cols, get := fun _ _ => true }

/-! ## The Python binding of `scale` (`affine.cpp`) -/

/-- The numpy type numbers the binding distinguishes; `NPY_OTHER` stands for
every other type number. -/
inductive TypeNum where
  /-- Boolean elements. -/
  | NPY_BOOL
  /-- Unsigned 8-bit elements. -/
  | NPY_UINT8
  /-- Unsigned 16-bit elements. -/
  | NPY_UINT16
  /-- 64-bit floating point elements. -/
  | NPY_FLOAT64
  /-- Any other element type. -/
  | NPY_OTHER
deriving DecidableEq

/-- A `PyBlitzArrayObject`: element type number, number of dimensions, shape
and the elements, indexed by index vectors. -/
structure PyBlitzArrayObject (α : Type) where
  /-- The field `type_num`. -/
  type_num : TypeNum
  /-- The field `ndim`. -/
  ndim : Nat
  /-- The field `shape`. -/
  shape : List Int
  /-- The elements. -/
  data : List Int → α

/-- The view `*PyBlitzArrayCxx_AsBlitz<T,2>(o)`. -/
def PyBlitzArrayObject.asBlitz2 {α : Type} (o : PyBlitzArrayObject α) : Array2 α :=
  { extent0 := (o.shape.getD 0 0).toNat, extent1 := (o.shape.getD 1 0).toNat
    get := fun y x => o.data [y, x] }

/-- The view `*PyBlitzArrayCxx_AsBlitz<T,3>(o)`. -/
def PyBlitzArrayObject.asBlitz3 {α : Type} (o : PyBlitzArrayObject α) : Array3 α :=
  { extent0 := (o.shape.getD 0 0).toNat, extent1 := (o.shape.getD 1 0).toNat
    extent2 := (o.shape.getD 2 0).toNat, get := fun p y x => o.data [p, y, x] }

/-- The object `o` after the writes made through its two-dimensional view,
when the view ends up holding `a`. -/
def PyBlitzArrayObject.written2 {α : Type} (o : PyBlitzArrayObject α) (a : Array2 α) :
    PyBlitzArrayObject α :=
  { o with data := fun index => match index with
      | [y, x] => a.get y x
      | _ => o.data index }

/-- The object `o` after the writes made through its three-dimensional view,
when the view ends up holding `a`. -/
def PyBlitzArrayObject.written3 {α : Type} (o : PyBlitzArrayObject α) (a : Array3 α) :
    PyBlitzArrayObject α :=
  { o with data := fun index => match index with
      | [p, y, x] => a.get p y x
      | _ => o.data index }

/-- The Python exception a binding sets before returning `0`. -/
inductive PyExc where
  /-- `PyExc_TypeError`. -/
  | TypeError
  /-- `PyExc_ValueError`. -/
  | ValueError
  /-- `PyExc_RuntimeError`, set by `CATCH_` for a C++ exception. -/
  | RuntimeError
deriving DecidableEq

/-- How a call of the binding ends. -/
inductive PyReturn (K : Type) where
  /-- Return `0` with an exception set. -/
  | raised (exc : PyExc) : PyReturn K
  /-- `Py_RETURN_NONE`; the arguments are the final contents of the caller's
  `dst` and (when passed) `dst_mask`. -/
  | returnedNone (dst : PyBlitzArrayObject K) (dst_mask : Option (PyBlitzArrayObject Bool)) :
      PyReturn K
  /-- Return of the freshly created `dst`. -/
  | returnedArray (dst : PyBlitzArrayObject K) : PyReturn K

/-- The three call forms of `scale` after argument parsing, and a call with
any other number of arguments. -/
inductive ScaleArgs (K : Type) where
  /-- The form `scale(src, scaling_factor)`. -/
  | factor (src : PyBlitzArrayObject K) (scaling_factor : K) : ScaleArgs K
  /-- The form `scale(src, dst)`. -/
  | pair (src dst : PyBlitzArrayObject K) : ScaleArgs K
  /-- The form `scale(src, src_mask, dst, dst_mask)`. -/
  | masked (src : PyBlitzArrayObject K) (src_mask : PyBlitzArrayObject Bool)
      (dst : PyBlitzArrayObject K) (dst_mask : PyBlitzArrayObject Bool) : ScaleArgs K
  /-- A number of arguments other than `2` or `4`. -/
  | wrongCount : ScaleArgs K

section Binding

variable {K : Type} [LinearOrderedField K] [FloorRing K]

/-- The function template `scale_inner<T,D>` of `affine.cpp`: the masked
overload of `scale` when both masks are given, the unmasked one otherwise. -/
def scale_inner (m : Libm K) (D : Nat) (input : PyBlitzArrayObject K)
    (input_mask : Option (PyBlitzArrayObject Bool)) (output : PyBlitzArrayObject K)
    (output_mask : Option (PyBlitzArrayObject Bool)) :
    Outcome ShapeError (PyBlitzArrayObject K × Option (PyBlitzArrayObject Bool)) :=
  match input_mask, output_mask with
  | some im, some om =>
    if D = 2 then
      let r := scaleMasked m input.asBlitz2 im.asBlitz2 output.asBlitz2 om.asBlitz2
      Outcome.returned (output.written2 r.1, some (om.written2 r.2))
    else
      match scale3DMasked m input.asBlitz3 im.asBlitz3 output.asBlitz3 om.asBlitz3 with
      | Outcome.threw e st => Outcome.threw e (output.written3 st.1, some (om.written3 st.2))
      | Outcome.returned st =>
        Outcome.returned (output.written3 st.1, some (om.written3 st.2))
  | _, _ =>
    if D = 2 then
      Outcome.returned (output.written2 (scale m input.asBlitz2 output.asBlitz2), output_mask)
    else
      match scale3D m input.asBlitz3 output.asBlitz3 with
      | Outcome.threw e st => Outcome.threw e (output.written3 st, output_mask)
      | Outcome.returned st => Outcome.returned (output.written3 st, output_mask)

/-- Lines 121-139 of `PyBobIpBase_scale`, entered once `dst` exists: the check
of the masks, the dispatch on the element type of `src` and on its rank, and
the return.  A C++ exception is turned into a `RuntimeError` by `CATCH_`.
`return_dst` is the test `!isnan(scale_factor)`. -/
def scaleDispatch (m : Libm K) (src : PyBlitzArrayObject K)
    (src_mask : Option (PyBlitzArrayObject Bool)) (dst : PyBlitzArrayObject K)
    (dst_mask : Option (PyBlitzArrayObject Bool)) (return_dst : Bool) : PyReturn K :=
  if (match src_mask, dst_mask with
      | some sm, some dm =>
        decide ((sm.ndim ≠ src.ndim ∨ sm.type_num ≠ TypeNum.NPY_BOOL)
          ∨ dm.ndim ≠ dst.ndim ∨ dm.type_num ≠ TypeNum.NPY_BOOL)
      | _, _ => false) = true
  then PyReturn.raised PyExc.TypeError
  else
    if src.type_num = TypeNum.NPY_UINT8 ∨ src.type_num = TypeNum.NPY_UINT16
        ∨ src.type_num = TypeNum.NPY_FLOAT64 then
      match (if src.ndim = 2 then scale_inner m 2 src src_mask dst dst_mask
             else scale_inner m 3 src src_mask dst dst_mask) with
      | Outcome.threw _ _ => PyReturn.raised PyExc.RuntimeError
      | Outcome.returned st =>
        if return_dst = true then PyReturn.returnedArray st.1
        else PyReturn.returnedNone st.1 st.2
    else PyReturn.raised PyExc.TypeError

/-- The binding `PyBobIpBase_scale`.  `PyBlitzArray_SimpleNew` is the allocator
of `bob.blitz` for `NPY_FLOAT64` arrays, given the number of dimensions and the
shape; it is not part of these sources and is a parameter. -/
def PyBobIpBase_scale (m : Libm K)
    (PyBlitzArray_SimpleNew : Nat → List Int → PyBlitzArrayObject K) :
    ScaleArgs K → PyReturn K
  | ScaleArgs.wrongCount => PyReturn.raised PyExc.ValueError
  | ScaleArgs.factor src scale_factor =>
    if src.ndim ≠ 2 ∧ src.ndim ≠ 3 then PyReturn.raised PyExc.TypeError
    else
      -- create output in the same dimensions as input
      let dst :=
        if src.ndim = 2 then
          PyBlitzArray_SimpleNew 2
            (getScaledShape [src.shape.getD 0 0, src.shape.getD 1 0] scale_factor)
        else
          PyBlitzArray_SimpleNew 3
            (getScaledShape [src.shape.getD 0 0, src.shape.getD 1 0, src.shape.getD 2 0]
              scale_factor)
      scaleDispatch m src none dst none true
  | ScaleArgs.pair src dst =>
    if src.ndim ≠ 2 ∧ src.ndim ≠ 3 then PyReturn.raised PyExc.TypeError
    else if dst.ndim ≠ src.ndim then PyReturn.raised PyExc.TypeError
    else if dst.type_num ≠ TypeNum.NPY_FLOAT64 then PyReturn.raised PyExc.TypeError
    else scaleDispatch m src none dst none false
  | ScaleArgs.masked src src_mask dst dst_mask =>
    if src.ndim ≠ 2 ∧ src.ndim ≠ 3 then PyReturn.raised PyExc.TypeError
    else if dst.ndim ≠ src.ndim then PyReturn.raised PyExc.TypeError
    else if dst.type_num ≠ TypeNum.NPY_FLOAT64 then PyReturn.raised PyExc.TypeError
    else scaleDispatch m src (some src_mask) dst (some dst_mask) false

end Binding

/-- An allocator that returns zero-filled `NPY_FLOAT64` arrays of the requested
shape. -/
def zeroAlloc (nd : Nat) (shape : List Int) : PyBlitzArrayObject ℚ :=
  { type_num := TypeNum.NPY_FLOAT64, ndim := nd, shape := shape, data := fun _ => 0 }

/-- The `2 × 3` sample image as a `float64` array object. -/
def sampleImage : PyBlitzArrayObject ℚ :=
  { type_num := TypeNum.NPY_FLOAT64, ndim := 2, shape := [2, 3]
    data := fun index => match index with
      | [y, x] => ((10 * y + x + 1 : Int) : ℚ)
      | _ => 0 }

/-- A boolean array object of the given two-dimensional shape, `true`
everywhere. -/
def trueMask (rows cols : Int) : PyBlitzArrayObject Bool :=
  { type_num := TypeNum.NPY_BOOL, ndim := 2, shape := [rows, cols], data := fun _ => true }

/-- A `2 × 1 × 1` mask, `true` everywhere. -/
def smallMask3 : Array3 Bool :=
  { extent0 := 2, extent1 := 1, extent2 := 1, get := fun _ _ _ => true }

/-! ## The alternate origin formula -/

/-- The origin `(origin_y, origin_x)` as the commented-out lines 59-60 of
`transform` would compute it: each product is divided by the scale factor of
its own axis before the two are combined. -/
def alternateOrigin {K : Type} [LinearOrderedField K] (m : Libm K)
    (source_center target_center scaling_factor : K × K) (rotation_angle : K) : K × K :=
  let original_center_y := source_center.1
  let original_center_x := source_center.2
  let new_center_y := target_center.1
  let new_center_x := target_center.2
  let sin_angle := -m.sin (rotation_angle * m.M_PI / 180)
  let cos_angle := m.cos (rotation_angle * m.M_PI / 180)
  (original_center_y
      - (new_center_y * cos_angle / scaling_factor.1
          - new_center_x * sin_angle / scaling_factor.2),
   original_center_x
      - (new_center_x * cos_angle / scaling_factor.2
          + new_center_y * sin_angle / scaling_factor.1))

/-- A rational instance of `Libm` that is exact at the right angle: with
`M_PI = 355/113` the angle of `90` degrees is `355/226` radians, where `sin`
is `1` and `cos` is `0`; elsewhere the two Taylor polynomials of `taylorLibm`
are used. -/
def rightAngleLibm : Libm ℚ :=
  { M_PI := 355 / 113
    sin := fun t => if t = 355 / 226 then 1 else t - t ^ 3 / 6
    cos := fun t => if t = 355 / 226 then 0 else 1 - t ^ 2 / 2 }

/-! ## Data for the full turn with the binary64 constant -/

/-- The value of the macro `M_PI` of `<cmath>` as a `double`: the binary64
number nearest to `3.14159265358979323846`, which is
`884279719003555 / 2 ^ 48`. -/
def M_PI_binary64 : ℚ := 884279719003555 / 281474976710656

/-- A `rows × cols` image with the same sample `c` everywhere. -/
def constantImage {K : Type} (c : K) (rows cols : Nat) : Array2 K :=
  { extent0 := rows, extent1 := cols, get := fun _ _ => c }

/-! ## Binary64 arithmetic

The resampler once more, this time with every arithmetic operation rounded as
IEEE 754 binary64 arithmetic rounds it (round to nearest, ties to even), each
operation of the C++ expression rounded on its own, in the order of
evaluation of the source.  Only finite values are represented: overflow to an
infinity, division by zero and NaN are outside this model, and the sign of
zero is not recorded. -/

/-- A finite binary64 number, held as the exact value
`mantissa * 2 ^ exponent`. -/
structure Double where
  /-- The signed integer significand. -/
  mantissa : Int
  /-- The power of two by which the significand is scaled. -/
  exponent : Int
  deriving DecidableEq

namespace Double

/-- The rational number a binary64 value stands for. -/
def toRat (d : Double) : ℚ := (d.mantissa : ℚ) * (2 : ℚ) ^ d.exponent

/-- Number of binary digits of `n`, by halving at most `fuel` times. -/
def bitLengthAux : Nat → Nat → Nat
  | 0, _ => 0
  | fuel + 1, n => if n = 0 then 0 else bitLengthAux fuel (n / 2) + 1

/-- Number of binary digits of `n` (`0` for `0`). -/
def bitLength (n : Nat) : Nat := bitLengthAux n n

/-- The binary64 number nearest to `num / den * 2 ^ scale`, ties going to the
even significand: the quotient is first computed to at least `55` binary
digits with a remainder, then cut to `53` digits (fewer below the smallest
normal number, whose spacing `2 ^ -1074` is kept) and rounded up when the
part cut off exceeds one half, or equals one half with an odd significand. -/
def roundNearestEven (num : Int) (den : Nat) (scale : Int) : Double :=
  if num = 0 then { mantissa := 0, exponent := 0 } else
  let a : Nat := num.natAbs
  let s : Int := 55 + (bitLength den : Int) - (bitLength a : Int)
  let A : Nat := a * 2 ^ s.toNat
  let D : Nat := den * 2 ^ (-s).toNat
  let Q : Nat := A / D
  let R : Nat := A % D
  let x : Int := max (scale - s + ((bitLength Q : Int) - 53)) (-1074)
  let drop : Nat := (x - (scale - s)).toNat
  let q : Nat := Q / 2 ^ drop
  let rem : Nat := Q % 2 ^ drop
  let half : Nat := 2 ^ (drop - 1)
  let up : Bool := decide (half < rem)
    || (decide (rem = half) && (decide (R ≠ 0) || decide (q % 2 = 1)))
  let q1 : Nat := if up then q + 1 else q
  { mantissa := if num < 0 then -(q1 : Int) else (q1 : Int), exponent := x }

/-- Conversion of an `int` to `double`. -/
def ofInt (n : Int) : Double := roundNearestEven n 1 0

/-- The operation `x + y` on doubles. -/
def add (x y : Double) : Double :=
  let e : Int := min x.exponent y.exponent
  roundNearestEven
    (x.mantissa * 2 ^ (x.exponent - e).toNat + y.mantissa * 2 ^ (y.exponent - e).toNat) 1 e

/-- The operation `-x` on doubles. -/
def neg (x : Double) : Double := { mantissa := -x.mantissa, exponent := x.exponent }

/-- The operation `x - y` on doubles. -/
def sub (x y : Double) : Double := add x (neg y)

/-- The operation `x * y` on doubles. -/
def mul (x y : Double) : Double :=
  roundNearestEven (x.mantissa * y.mantissa) 1 (x.exponent + y.exponent)

/-- The operation `x / y` on doubles, for `y` other than zero. -/
def div (x y : Double) : Double :=
  roundNearestEven (if y.mantissa < 0 then -x.mantissa else x.mantissa) y.mantissa.natAbs
    (x.exponent - y.exponent)

/-- The function `std::floor` followed by the conversion to `int`. -/
def floor (x : Double) : Int :=
  if 0 ≤ x.exponent then x.mantissa * 2 ^ x.exponent.toNat
  else Int.fdiv x.mantissa (2 ^ (-x.exponent).toNat)

instance : Add Double := ⟨add⟩

instance : Sub Double := ⟨sub⟩

instance : Mul Double := ⟨mul⟩

instance : Div Double := ⟨div⟩

instance : Neg Double := ⟨neg⟩

instance (n : Nat) : OfNat Double n := ⟨ofInt (n : Int)⟩

end Double

namespace Binary64

/-- Lines 36-57 of `transform` in binary64 arithmetic. -/
def steps (m : Libm Double) (source_center target_center scaling_factor : Double × Double)
    (rotation_angle : Double) : Steps Double :=
  let original_center_y := source_center.1
  let original_center_x := source_center.2
  let new_center_y := target_center.1
  let new_center_x := target_center.2
  let sin_angle := -m.sin (rotation_angle * m.M_PI / 180)
  let cos_angle := m.cos (rotation_angle * m.M_PI / 180)
  { col_dy := -sin_angle / scaling_factor.1
    col_dx := cos_angle / scaling_factor.2
    row_dy := cos_angle / scaling_factor.1
    row_dx := sin_angle / scaling_factor.2
    origin_y := original_center_y
      - (new_center_y * cos_angle - new_center_x * sin_angle) / scaling_factor.1
    origin_x := original_center_x
      - (new_center_x * cos_angle + new_center_y * sin_angle) / scaling_factor.2 }

/-- Lines 83-86 and 112-126 in binary64 arithmetic: the value accumulated in
`res` for one target pixel in the unmasked instantiation. -/
def interpolate (source : Array2 Double) (source_y source_x : Double) : Double :=
  let h : Int := (source.extent0 : Int) - 1
  let w : Int := (source.extent1 : Int) - 1
  let ox : Int := Double.floor source_x
  let oy : Int := Double.floor source_y
  let mx : Double := source_x - Double.ofInt ox
  let my : Double := source_y - Double.ofInt oy
  let res : Double := 0
  -- upper left
  let res := if ox ≥ 0 ∧ oy ≥ 0 ∧ ox ≤ w ∧ oy ≤ h
    then res + (1 - mx) * (1 - my) * source.get oy ox else res
  -- upper right
  let res := if ox ≥ -1 ∧ oy ≥ 0 ∧ ox < w ∧ oy ≤ h
    then res + mx * (1 - my) * source.get oy (ox + 1) else res
  -- lower left
  let res := if ox ≥ 0 ∧ oy ≥ -1 ∧ ox ≤ w ∧ oy < h
    then res + (1 - mx) * my * source.get (oy + 1) ox else res
  -- lower right
  let res := if ox ≥ -1 ∧ oy ≥ -1 ∧ ox < w ∧ oy < h
    then res + mx * my * source.get (oy + 1) (ox + 1) else res
  res

/-- Body of the loop over `x` (lines 77-133) of the unmasked instantiation,
in binary64 arithmetic. -/
def pixelBody (source : Array2 Double) (s : Steps Double) (y : Nat) (st : RowState Double)
    (x : Nat) : RowState Double :=
  { target := st.target.set y x (interpolate source st.source_y st.source_x)
    target_mask := st.target_mask
    source_y := st.source_y + s.col_dy
    source_x := st.source_x + s.col_dx }

/-- Body of the loop over `y` (lines 73-137) of the unmasked instantiation,
in binary64 arithmetic. -/
def rowBody (source : Array2 Double) (s : Steps Double) (size_x : Nat) (st : LoopState Double)
    (y : Nat) : LoopState Double :=
  let r := forLoop size_x (pixelBody source s y)
    { target := st.target, target_mask := st.target_mask
      source_y := st.origin_y, source_x := st.origin_x }
  { target := r.target, target_mask := r.target_mask
    origin_y := st.origin_y + s.row_dy
    origin_x := st.origin_x + s.row_dx }

/-- The instantiation `transform<T, false>` in binary64 arithmetic; the
result is the final content of `target`. -/
def transform (m : Libm Double) (source : Array2 Double) (source_center : Double × Double)
    (target : Array2 Double) (target_center : Double × Double)
    (scaling_factor : Double × Double) (rotation_angle : Double) : Array2 Double :=
  let s := steps m source_center target_center scaling_factor rotation_angle
  let size_y := target.extent0
  let size_x := target.extent1
  let out := forLoop size_y (rowBody source s size_x)
    { target := target, target_mask := Array2.emptyMask
      origin_y := s.origin_y, origin_x := s.origin_x }
  out.target

/-- The helper `_get_scale_factor` in binary64 arithmetic. -/
def _get_scale_factor (src_shape dst_shape : Int × Int) : Double × Double :=
  let y_scale : Double := (Double.ofInt dst_shape.1 - 1) / (Double.ofInt src_shape.1 - 1)
  let x_scale : Double := (Double.ofInt dst_shape.2 - 1) / (Double.ofInt src_shape.2 - 1)
  (y_scale, x_scale)

/-- The overload `scale(src, dst)` on two-dimensional arrays in binary64
arithmetic. -/
def scale (m : Libm Double) (src : Array2 Double) (dst : Array2 Double) : Array2 Double :=
  let offset : Double × Double := (0, 0)
  transform m src offset dst offset (_get_scale_factor src.shape dst.shape) 0

/-- A binary64 instance of `Libm`: `M_PI` is the binary64 constant; `sin` and
`cos` are the polynomials `t - t³/6` and `1 - t²/2` evaluated in binary64,
which return exactly `0` and `1` at `0` as the C library does. -/
def taylorLibm : Libm Double :=
  { M_PI := { mantissa := 884279719003555, exponent := -48 }
    sin := fun t => t - t * t * t / 6
    cos := fun t => 1 - t * t / 2 }

end Binary64

/-! ## Loops in closed form -/

theorem forLoop_zero {σ : Type} (body : σ → Nat → σ) (s : σ) : forLoop 0 body s = s := rfl

theorem forLoop_succ {σ : Type} (n : Nat) (body : σ → Nat → σ) (s : σ) :
    forLoop (n + 1) body s = body (forLoop n body s) n := by
  simp [forLoop, List.range_succ, List.foldl_append]

theorem not_in_empty_range (j : Int) : ¬ (0 ≤ j ∧ j < 0) := by omega

theorem row_range_succ (i j : Int) (y n : Nat) (hj : ¬ (i = (y : Int) ∧ j = (n : Int))) :
    (i = (y : Int) ∧ 0 ≤ j ∧ j < ((n + 1 : Nat) : Int)) ↔
      (i = (y : Int) ∧ 0 ≤ j ∧ j < (n : Int)) := by
  push_cast; omega

theorem range_succ_of_ne (i : Int) (n : Nat) (hi : i ≠ (n : Int)) :
    (0 ≤ i ∧ i < ((n + 1 : Nat) : Int)) ↔ (0 ≤ i ∧ i < (n : Int)) := by
  push_cast; omega

theorem range_succ_self (n : Nat) :
    (0 : Int) ≤ (n : Int) ∧ (n : Int) < ((n + 1 : Nat) : Int) := by
  push_cast; omega

theorem not_range_self (n : Nat) : ¬ ((0 : Int) ≤ (n : Int) ∧ (n : Int) < (n : Int)) := by
  omega

theorem Array2.eq_of_fields {α : Type} {a b : Array2 α} (h0 : a.extent0 = b.extent0)
    (h1 : a.extent1 = b.extent1) (hg : a.get = b.get) : a = b := by
  cases a; cases b; simp_all

section LoopLemmas

variable {K : Type} [LinearOrderedField K] [FloorRing K]

/-- State of the loop over `x` after `n` iterations, in closed form: columns
`0 … n-1` of row `y` hold the interpolated values, everything else is
untouched, and the running position has advanced by `n` column steps. -/
theorem row_loop_state (mask : Bool) (source : Array2 K) (source_mask : Array2 Bool)
    (s : Steps K) (y : Nat) (st : RowState K) (n : Nat) :
    forLoop n (pixelBody mask source source_mask s y) st =
      { target :=
          { extent0 := st.target.extent0, extent1 := st.target.extent1
            get := fun i j => if i = (y : Int) ∧ 0 ≤ j ∧ j < (n : Int) then
                pixelValue mask source source_mask
                  (st.source_y + (j : K) * s.col_dy) (st.source_x + (j : K) * s.col_dx)
              else st.target.get i j }
        target_mask :=
          { extent0 := st.target_mask.extent0, extent1 := st.target_mask.extent1
            get := fun i j => if mask = true ∧ i = (y : Int) ∧ 0 ≤ j ∧ j < (n : Int) then
                (interpolateMasked source source_mask
                  (st.source_y + (j : K) * s.col_dy) (st.source_x + (j : K) * s.col_dx)).2
              else st.target_mask.get i j }
        source_y := st.source_y + (n : K) * s.col_dy
        source_x := st.source_x + (n : K) * s.col_dx } := by
  induction n with
  | zero =>
    obtain ⟨⟨t0, t1, tg⟩, ⟨m0, m1, mg⟩, sy, sx⟩ := st
    simp [forLoop_zero, not_in_empty_range]
  | succ n ih =>
    rw [forLoop_succ, ih]
    cases mask
    · simp only [pixelBody, Array2.set, pixelValue, Bool.false_eq_true, if_false, false_and]
      congr 1
      · congr 1
        funext i j
        by_cases hj : i = (y : Int) ∧ j = (n : Int)
        · obtain ⟨rfl, rfl⟩ := hj
          simp
        · simp only [hj, if_false, row_range_succ i j y n hj]
      · push_cast; ring
      · push_cast; ring
    · simp only [pixelBody, Array2.set, pixelValue, if_true, true_and]
      congr 1
      · congr 1
        funext i j
        by_cases hj : i = (y : Int) ∧ j = (n : Int)
        · obtain ⟨rfl, rfl⟩ := hj
          simp
        · simp only [hj, if_false, row_range_succ i j y n hj]
      · congr 1
        funext i j
        by_cases hj : i = (y : Int) ∧ j = (n : Int)
        · obtain ⟨rfl, rfl⟩ := hj
          simp
        · simp only [hj, if_false, row_range_succ i j y n hj]
      · push_cast; ring
      · push_cast; ring

/-- State of the loop over `y` after `n` iterations, in closed form: rows
`0 … n-1` hold the interpolated values, everything else is untouched, and the
origin has advanced by `n` row steps. -/
theorem loop_state (mask : Bool) (source : Array2 K) (source_mask : Array2 Bool)
    (s : Steps K) (size_x : Nat) (st : LoopState K) (n : Nat) :
    forLoop n (rowBody mask source source_mask s size_x) st =
      { target :=
          { extent0 := st.target.extent0, extent1 := st.target.extent1
            get := fun i j =>
              if (0 ≤ i ∧ i < (n : Int)) ∧ 0 ≤ j ∧ j < (size_x : Int) then
                pixelValue mask source source_mask
                  (st.origin_y + (i : K) * s.row_dy + (j : K) * s.col_dy)
                  (st.origin_x + (i : K) * s.row_dx + (j : K) * s.col_dx)
              else st.target.get i j }
        target_mask :=
          { extent0 := st.target_mask.extent0, extent1 := st.target_mask.extent1
            get := fun i j =>
              if mask = true ∧ (0 ≤ i ∧ i < (n : Int)) ∧ 0 ≤ j ∧ j < (size_x : Int) then
                (interpolateMasked source source_mask
                  (st.origin_y + (i : K) * s.row_dy + (j : K) * s.col_dy)
                  (st.origin_x + (i : K) * s.row_dx + (j : K) * s.col_dx)).2
              else st.target_mask.get i j }
        origin_y := st.origin_y + (n : K) * s.row_dy
        origin_x := st.origin_x + (n : K) * s.row_dx } := by
  induction n with
  | zero =>
    obtain ⟨⟨t0, t1, tg⟩, ⟨m0, m1, mg⟩, sy, sx⟩ := st
    simp [forLoop_zero, not_in_empty_range]
  | succ n ih =>
    rw [forLoop_succ, ih]
    simp only [rowBody, rowStart, row_loop_state]
    congr 1
    · congr 1
      funext i j
      by_cases hi : i = (n : Int)
      · subst hi
        simp [not_range_self n, range_succ_self n]
      · simp only [hi, false_and, if_false, range_succ_of_ne i n hi]
    · congr 1
      funext i j
      by_cases hi : i = (n : Int)
      · subst hi
        simp [not_range_self n, range_succ_self n]
      · simp only [hi, false_and, and_false, if_false, range_succ_of_ne i n hi]
    · push_cast; ring
    · push_cast; ring

/-- The value `transform` leaves in `target(y,x)`. -/
theorem transform_get (m : Libm K) (mask : Bool) (source : Array2 K)
    (source_mask : Array2 Bool) (source_center : K × K) (target : Array2 K)
    (target_mask : Array2 Bool) (target_center scaling_factor : K × K) (rotation_angle : K)
    (y x : Nat) (hy : y < target.extent0) (hx : x < target.extent1) :
    (transform m mask source source_mask source_center target target_mask target_center
        scaling_factor rotation_angle).1.get y x
      = pixelValue mask source source_mask
          (sourceCoordinate (steps m source_center target_center scaling_factor rotation_angle)
            y x).1
          (sourceCoordinate (steps m source_center target_center scaling_factor rotation_angle)
            y x).2 := by
  have h : ((0 : Int) ≤ (y : Int) ∧ (y : Int) < (target.extent0 : Int)) ∧
      (0 : Int) ≤ (x : Int) ∧ (x : Int) < (target.extent1 : Int) := by omega
  simp [transform, loop_state, loopStart, sourceCoordinate, h]

/-- The bit `transform<T,true>` leaves in `target_mask(y,x)`. -/
theorem transform_mask_get (m : Libm K) (source : Array2 K)
    (source_mask : Array2 Bool) (source_center : K × K) (target : Array2 K)
    (target_mask : Array2 Bool) (target_center scaling_factor : K × K) (rotation_angle : K)
    (y x : Nat) (hy : y < target.extent0) (hx : x < target.extent1) :
    (transform m true source source_mask source_center target target_mask target_center
        scaling_factor rotation_angle).2.get y x
      = (interpolateMasked source source_mask
          (sourceCoordinate (steps m source_center target_center scaling_factor rotation_angle)
            y x).1
          (sourceCoordinate (steps m source_center target_center scaling_factor rotation_angle)
            y x).2).2 := by
  have h : ((0 : Int) ≤ (y : Int) ∧ (y : Int) < (target.extent0 : Int)) ∧
      (0 : Int) ≤ (x : Int) ∧ (x : Int) < (target.extent1 : Int) := by omega
  simp [transform, loop_state, loopStart, sourceCoordinate, h]

/-- The running source position when pixel `(y,x)` is reached is the affine
image of `(y,x)`. -/
theorem cursor_source (m : Libm K) (mask : Bool) (source : Array2 K)
    (source_mask : Array2 Bool) (source_center : K × K) (target : Array2 K)
    (target_mask : Array2 Bool) (target_center scaling_factor : K × K) (rotation_angle : K)
    (y x : Nat) :
    ((cursor m mask source source_mask source_center target target_mask target_center
        scaling_factor rotation_angle y x).source_y,
     (cursor m mask source source_mask source_center target target_mask target_center
        scaling_factor rotation_angle y x).source_x)
      = sourceCoordinate (steps m source_center target_center scaling_factor rotation_angle)
          y x := by
  simp [cursor, loop_state, row_loop_state, rowStart, loopStart, sourceCoordinate]

/-- `transform` keeps the extents of both output buffers. -/
theorem transform_extents (m : Libm K) (mask : Bool) (source : Array2 K)
    (source_mask : Array2 Bool) (source_center : K × K) (target : Array2 K)
    (target_mask : Array2 Bool) (target_center scaling_factor : K × K) (rotation_angle : K) :
    ((transform m mask source source_mask source_center target target_mask target_center
        scaling_factor rotation_angle).1.extent0 = target.extent0 ∧
     (transform m mask source source_mask source_center target target_mask target_center
        scaling_factor rotation_angle).1.extent1 = target.extent1) ∧
    ((transform m mask source source_mask source_center target target_mask target_center
        scaling_factor rotation_angle).2.extent0 = target_mask.extent0 ∧
     (transform m mask source source_mask source_center target target_mask target_center
        scaling_factor rotation_angle).2.extent1 = target_mask.extent1) := by
  simp [transform, loop_state, loopStart]

end LoopLemmas

/-! ## The four guards -/

theorem guard_upper_left {α : Type} (a : Array2 α) (oy ox : Int) :
    (ox ≥ 0 ∧ oy ≥ 0 ∧ ox ≤ (a.extent1 : Int) - 1 ∧ oy ≤ (a.extent0 : Int) - 1) ↔
      a.inBounds oy ox := by
  unfold Array2.inBounds; omega

theorem guard_upper_right {α : Type} (a : Array2 α) (oy ox : Int) :
    (ox ≥ -1 ∧ oy ≥ 0 ∧ ox < (a.extent1 : Int) - 1 ∧ oy ≤ (a.extent0 : Int) - 1) ↔
      a.inBounds oy (ox + 1) := by
  unfold Array2.inBounds; omega

theorem guard_lower_left {α : Type} (a : Array2 α) (oy ox : Int) :
    (ox ≥ 0 ∧ oy ≥ -1 ∧ ox ≤ (a.extent1 : Int) - 1 ∧ oy < (a.extent0 : Int) - 1) ↔
      a.inBounds (oy + 1) ox := by
  unfold Array2.inBounds; omega

theorem guard_lower_right {α : Type} (a : Array2 α) (oy ox : Int) :
    (ox ≥ -1 ∧ oy ≥ -1 ∧ ox < (a.extent1 : Int) - 1 ∧ oy < (a.extent0 : Int) - 1) ↔
      a.inBounds (oy + 1) (ox + 1) := by
  unfold Array2.inBounds; omega

theorem masked_guard_upper_left {α : Type} (a : Array2 α) (b : Array2 Bool) (oy ox : Int) :
    (ox ≥ 0 ∧ oy ≥ 0 ∧ ox ≤ (a.extent1 : Int) - 1 ∧ oy ≤ (a.extent0 : Int) - 1
      ∧ b.get oy ox = true) ↔ validNeighbour a b oy ox := by
  rw [validNeighbour, ← guard_upper_left]; tauto

theorem masked_guard_upper_right {α : Type} (a : Array2 α) (b : Array2 Bool) (oy ox : Int) :
    (ox ≥ -1 ∧ oy ≥ 0 ∧ ox < (a.extent1 : Int) - 1 ∧ oy ≤ (a.extent0 : Int) - 1
      ∧ b.get oy (ox + 1) = true) ↔ validNeighbour a b oy (ox + 1) := by
  rw [validNeighbour, ← guard_upper_right]; tauto

theorem masked_guard_lower_left {α : Type} (a : Array2 α) (b : Array2 Bool) (oy ox : Int) :
    (ox ≥ 0 ∧ oy ≥ -1 ∧ ox ≤ (a.extent1 : Int) - 1 ∧ oy < (a.extent0 : Int) - 1
      ∧ b.get (oy + 1) ox = true) ↔ validNeighbour a b (oy + 1) ox := by
  rw [validNeighbour, ← guard_lower_left]; tauto

theorem masked_guard_lower_right {α : Type} (a : Array2 α) (b : Array2 Bool) (oy ox : Int) :
    (ox ≥ -1 ∧ oy ≥ -1 ∧ ox < (a.extent1 : Int) - 1 ∧ oy < (a.extent0 : Int) - 1
      ∧ b.get (oy + 1) (ox + 1) = true) ↔ validNeighbour a b (oy + 1) (ox + 1) := by
  rw [validNeighbour, ← guard_lower_right]; tauto

section Interpolation

variable {K : Type} [LinearOrderedField K] [FloorRing K]

/-- The unmasked accumulation is the specified sum over in-bounds
neighbours. -/
theorem interpolate_eq_bilinearSum (source : Array2 K) (source_y source_x : K) :
    interpolate source source_y source_x = bilinearSum source source_y source_x := by
  simp only [interpolate, bilinearSum, neighbours, guard_upper_left, guard_upper_right,
    guard_lower_left, guard_lower_right]
  by_cases h1 : source.inBounds ⌊source_y⌋ ⌊source_x⌋ <;>
  by_cases h2 : source.inBounds ⌊source_y⌋ (⌊source_x⌋ + 1) <;>
  by_cases h3 : source.inBounds (⌊source_y⌋ + 1) ⌊source_x⌋ <;>
  by_cases h4 : source.inBounds (⌊source_y⌋ + 1) (⌊source_x⌋ + 1) <;>
  simp [h1, h2, h3, h4, List.filter_cons, add_assoc]

/-- The masked accumulation is the specified sum over valid neighbours. -/
theorem interpolateMasked_fst (source : Array2 K) (source_mask : Array2 Bool)
    (source_y source_x : K) :
    (interpolateMasked source source_mask source_y source_x).1
      = maskedBilinearSum source source_mask source_y source_x := by
  simp only [interpolateMasked, maskedBilinearSum, neighbours, masked_guard_upper_left,
    masked_guard_upper_right, masked_guard_lower_left, masked_guard_lower_right]
  by_cases h1 : validNeighbour source source_mask ⌊source_y⌋ ⌊source_x⌋ <;>
  by_cases h2 : validNeighbour source source_mask ⌊source_y⌋ (⌊source_x⌋ + 1) <;>
  by_cases h3 : validNeighbour source source_mask (⌊source_y⌋ + 1) ⌊source_x⌋ <;>
  by_cases h4 : validNeighbour source source_mask (⌊source_y⌋ + 1) (⌊source_x⌋ + 1) <;>
  simp [h1, h2, h3, h4, List.filter_cons, add_assoc]

/-- The flag `new_mask` ends up true exactly when some neighbour is valid. -/
theorem interpolateMasked_snd (source : Array2 K) (source_mask : Array2 Bool)
    (source_y source_x : K) :
    (interpolateMasked source source_mask source_y source_x).2 = true ↔
      ∃ n ∈ neighbours source_y source_x, validNeighbour source source_mask n.1.1 n.1.2 := by
  simp only [interpolateMasked, neighbours, masked_guard_upper_left,
    masked_guard_upper_right, masked_guard_lower_left, masked_guard_lower_right]
  by_cases h1 : validNeighbour source source_mask ⌊source_y⌋ ⌊source_x⌋ <;>
  by_cases h2 : validNeighbour source source_mask ⌊source_y⌋ (⌊source_x⌋ + 1) <;>
  by_cases h3 : validNeighbour source source_mask (⌊source_y⌋ + 1) ⌊source_x⌋ <;>
  by_cases h4 : validNeighbour source source_mask (⌊source_y⌋ + 1) (⌊source_x⌋ + 1) <;>
  simp [h1, h2, h3, h4]

/-- At an integer source position inside the image only the upper-left
neighbour has a non-zero weight. -/
theorem interpolate_at_pixel (source : Array2 K) (y x : Nat) (hy : y < source.extent0)
    (hx : x < source.extent1) :
    interpolate source (y : K) (x : K) = source.get y x := by
  have g1 : ((x : Int) ≥ 0 ∧ (y : Int) ≥ 0 ∧ (x : Int) ≤ (source.extent1 : Int) - 1
      ∧ (y : Int) ≤ (source.extent0 : Int) - 1) := by omega
  simp [interpolate, g1]

end Interpolation

/-- What `transform` derives when called as `scale` calls it. -/
theorem steps_scale {K : Type} [LinearOrderedField K] (m : Libm K) (hsin : m.sin 0 = 0)
    (hcos : m.cos 0 = 1) (src_shape dst_shape : Int × Int) :
    steps m (0, 0) (0, 0) (_get_scale_factor src_shape dst_shape) 0 =
      { col_dy := 0
        col_dx := ((src_shape.2 : K) - 1) / ((dst_shape.2 : K) - 1)
        row_dy := ((src_shape.1 : K) - 1) / ((dst_shape.1 : K) - 1)
        row_dx := 0
        origin_y := 0
        origin_x := 0 } := by
  simp [steps, _get_scale_factor, hsin, hcos]

/-! ## The loop over planes -/

/-- The loop over the planes of an unmasked 3D call, in closed form. -/
theorem plane_loop {α : Type} (F : Nat → Array2 α → Array2 α) (dst : Array3 α) (n : Nat) :
    forLoop n (fun d p => d.setSlice (p : Int) (F p (d.slice (p : Int)))) dst =
      { extent0 := dst.extent0, extent1 := dst.extent1, extent2 := dst.extent2
        get := fun q => if 0 ≤ q ∧ q < (n : Int) then (F q.toNat (dst.slice q)).get
          else dst.get q } := by
  induction n with
  | zero =>
    cases dst
    simp [forLoop_zero, not_in_empty_range]
  | succ n ih =>
    rw [forLoop_succ, ih]
    simp only [Array3.setSlice, Array3.slice, not_range_self n, if_false]
    congr 1
    funext q
    by_cases hq : q = (n : Int)
    · subst hq
      simp [range_succ_self n]
    · simp only [hq, if_false, range_succ_of_ne q n hq]

/-- The loop over the planes of a masked 3D call, in closed form. -/
theorem plane_loop_masked {α β : Type} (G : Nat → Array2 α → Array2 β → Array2 α × Array2 β)
    (dst : Array3 α) (dst_mask : Array3 β) (n : Nat) :
    forLoop n (fun d p =>
        ((d.1.setSlice (p : Int) (G p (d.1.slice (p : Int)) (d.2.slice (p : Int))).1,
          d.2.setSlice (p : Int) (G p (d.1.slice (p : Int)) (d.2.slice (p : Int))).2) :
          Array3 α × Array3 β)) (dst, dst_mask) =
      ({ extent0 := dst.extent0, extent1 := dst.extent1, extent2 := dst.extent2
         get := fun q => if 0 ≤ q ∧ q < (n : Int) then
            (G q.toNat (dst.slice q) (dst_mask.slice q)).1.get else dst.get q },
       { extent0 := dst_mask.extent0, extent1 := dst_mask.extent1, extent2 := dst_mask.extent2
         get := fun q => if 0 ≤ q ∧ q < (n : Int) then
            (G q.toNat (dst.slice q) (dst_mask.slice q)).2.get else dst_mask.get q }) := by
  induction n with
  | zero =>
    cases dst; cases dst_mask
    simp [forLoop_zero, not_in_empty_range]
  | succ n ih =>
    rw [forLoop_succ, ih]
    simp only [Array3.setSlice, Array3.slice, not_range_self n, if_false]
    congr 1
    · congr 1
      funext q
      by_cases hq : q = (n : Int)
      · subst hq
        simp [range_succ_self n]
      · simp only [hq, if_false, range_succ_of_ne q n hq]
    · congr 1
      funext q
      by_cases hq : q = (n : Int)
      · subst hq
        simp [range_succ_self n]
      · simp only [hq, if_false, range_succ_of_ne q n hq]

/-- After the plane loop, plane `p` holds what the per-plane operation makes
of the initial plane `p`. -/
theorem plane_loop_slice {α : Type} (F : Nat → Array2 α → Array2 α)
    (hF : ∀ p s, (F p s).extent0 = s.extent0 ∧ (F p s).extent1 = s.extent1)
    (dst : Array3 α) (n p : Nat) (hp : p < n) :
    (forLoop n (fun d p => d.setSlice (p : Int) (F p (d.slice (p : Int)))) dst).slice p
      = F p (dst.slice p) := by
  rw [plane_loop]
  have h : ((0 : Int) ≤ (p : Int) ∧ (p : Int) < (n : Int)) := by omega
  apply Array2.eq_of_fields
  · simp [Array3.slice, (hF p _).1]
  · simp [Array3.slice, (hF p _).2]
  · simp [Array3.slice, h]

/-- After the masked plane loop, plane `p` of both outputs holds what the
per-plane operation makes of the initial planes `p`. -/
theorem plane_loop_masked_slice {α β : Type}
    (G : Nat → Array2 α → Array2 β → Array2 α × Array2 β)
    (hG : ∀ p s t, ((G p s t).1.extent0 = s.extent0 ∧ (G p s t).1.extent1 = s.extent1) ∧
      ((G p s t).2.extent0 = t.extent0 ∧ (G p s t).2.extent1 = t.extent1))
    (dst : Array3 α) (dst_mask : Array3 β) (n p : Nat) (hp : p < n) :
    (((forLoop n (fun d p =>
        ((d.1.setSlice (p : Int) (G p (d.1.slice (p : Int)) (d.2.slice (p : Int))).1,
          d.2.setSlice (p : Int) (G p (d.1.slice (p : Int)) (d.2.slice (p : Int))).2) :
          Array3 α × Array3 β)) (dst, dst_mask)).1.slice p),
     ((forLoop n (fun d p =>
        ((d.1.setSlice (p : Int) (G p (d.1.slice (p : Int)) (d.2.slice (p : Int))).1,
          d.2.setSlice (p : Int) (G p (d.1.slice (p : Int)) (d.2.slice (p : Int))).2) :
          Array3 α × Array3 β)) (dst, dst_mask)).2.slice p))
      = G p (dst.slice p) (dst_mask.slice p) := by
  rw [plane_loop_masked]
  have h : ((0 : Int) ≤ (p : Int) ∧ (p : Int) < (n : Int)) := by omega
  apply Prod.ext
  · apply Array2.eq_of_fields
    · simp [Array3.slice, (hG p _ _).1.1]
    · simp [Array3.slice, (hG p _ _).1.2]
    · simp [Array3.slice, h]
  · apply Array2.eq_of_fields
    · simp [Array3.slice, (hG p _ _).2.1]
    · simp [Array3.slice, (hG p _ _).2.2]
    · simp [Array3.slice, h]

/-! ## The dimension checks -/

theorem assert_ok {a b : Int} (h : a = b) :
    assertSameDimensionLength a b = Except.ok () := by
  simp [assertSameDimensionLength, h]

theorem assert_error {a b : Int} (h : a ≠ b) :
    assertSameDimensionLength a b = Except.error (ShapeError.mismatch a b) := by
  simp [assertSameDimensionLength, h]

/-- The check of an unmasked 3D call, followed by the plane loop `run`. -/
theorem unmasked_check {σ : Type} (a b : Nat) (st : σ) (run : σ)
    (o : Outcome ShapeError σ)
    (ho : o = (match assertSameDimensionLength (a : Int) (b : Int) with
      | Except.error e => Outcome.threw e st
      | Except.ok _ => Outcome.returned run)) :
    (o.failed = true ↔ a ≠ b) ∧ ∀ e s, o = Outcome.threw e s → s = st := by
  subst ho
  by_cases h1 : (a : Int) = (b : Int)
  · rw [assert_ok h1]
    refine ⟨?_, ?_⟩
    · simp only [Outcome.failed, Bool.false_eq_true, false_iff, ne_eq, not_not]; omega
    · intro e s h; cases h
  · rw [assert_error h1]
    refine ⟨?_, ?_⟩
    · simp only [Outcome.failed, true_iff, ne_eq]; omega
    · intro e s h; cases h; rfl

/-- The three checks of a masked 3D call, followed by the plane loop `run`. -/
theorem masked_checks {σ : Type} (a b c d : Nat) (st : σ) (run : σ)
    (o : Outcome ShapeError σ)
    (ho : o = (match assertSameDimensionLength (a : Int) (b : Int) with
      | Except.error e => Outcome.threw e st
      | Except.ok _ =>
      match assertSameDimensionLength (a : Int) (c : Int) with
      | Except.error e => Outcome.threw e st
      | Except.ok _ =>
      match assertSameDimensionLength (c : Int) (d : Int) with
      | Except.error e => Outcome.threw e st
      | Except.ok _ => Outcome.returned run)) :
    (o.failed = true ↔ ¬ (a = b ∧ c = a ∧ d = a)) ∧ ∀ e s, o = Outcome.threw e s → s = st := by
  subst ho
  by_cases h1 : (a : Int) = (b : Int)
  · by_cases h2 : (a : Int) = (c : Int)
    · by_cases h3 : (c : Int) = (d : Int)
      · rw [assert_ok h1, assert_ok h2, assert_ok h3]
        refine ⟨?_, ?_⟩
        · simp only [Outcome.failed, Bool.false_eq_true, false_iff, not_not]; omega
        · intro e s h; cases h
      · rw [assert_ok h1, assert_ok h2, assert_error h3]
        refine ⟨?_, ?_⟩
        · simp only [Outcome.failed, true_iff]; omega
        · intro e s h; cases h; rfl
    · rw [assert_ok h1, assert_error h2]
      refine ⟨?_, ?_⟩
      · simp only [Outcome.failed, true_iff]; omega
      · intro e s h; cases h; rfl
  · rw [assert_error h1]
    refine ⟨?_, ?_⟩
    · simp only [Outcome.failed, true_iff]; omega
    · intro e s h; cases h; rfl

/-! ## Worked examples -/

/-- The exact real functions satisfy the two facts about angle `0` that the
scaling theorems assume of `Libm`. -/
theorem real_libm_at_zero :
    ({ M_PI := Real.pi, sin := Real.sin, cos := Real.cos } : Libm ℝ).sin 0 = 0 ∧
    ({ M_PI := Real.pi, sin := Real.sin, cos := Real.cos } : Libm ℝ).cos 0 = 1 :=
  ⟨Real.sin_zero, Real.cos_zero⟩

/-- Worked example: a `3 × 4 × 5` shape scaled by `3/2`. -/
theorem getScaledShape_example : getScaledShape [3, 4, 5] (3 / 2 : ℚ) = [3, 6, 8] := by
  simp only [getScaledShape, List.length_cons, List.length_nil]
  have h1 : ⌊((4 : Int) : ℚ) * (3 / 2) + 1 / 2⌋ = 6 := by
    rw [Int.floor_eq_iff]; norm_num
  have h2 : ⌊((5 : Int) : ℚ) * (3 / 2) + 1 / 2⌋ = 8 := by
    rw [Int.floor_eq_iff]; norm_num
  simp only [Nat.reduceAdd, Nat.reduceSub, List.getD_cons_succ, List.getD_cons_zero,
    List.set_cons_succ, List.set_cons_zero, h1, h2]

/-- Worked example: the `2 × 3` sample image scaled into `3 × 5`; pixel `(1,1)`
samples the source at `(1/2, 1/2)` and averages `1, 2, 11, 12`. -/
theorem scale_example :
    (scale taylorLibm sampleSource (blankTarget 3 5)).get (1 : Nat) (1 : Nat) = 13 / 2 := by
  rw [scale, transform_get _ _ _ _ _ _ _ _ _ _ 1 1 (by decide) (by decide),
    steps_scale taylorLibm (by norm_num [taylorLibm]) (by norm_num [taylorLibm])]
  have hf : ⌊(1 / 2 : ℚ)⌋ = 0 := by rw [Int.floor_eq_iff]; norm_num
  have e1 : sourceCoordinate
      ({ col_dy := 0
         col_dx := ((sampleSource.shape.2 : ℚ) - 1) / (((blankTarget 3 5).shape.2 : ℚ) - 1)
         row_dy := ((sampleSource.shape.1 : ℚ) - 1) / (((blankTarget 3 5).shape.1 : ℚ) - 1)
         row_dx := 0, origin_y := 0, origin_x := 0 } : Steps ℚ) ((1 : Nat) : ℚ) ((1 : Nat) : ℚ)
      = ((1 / 2 : ℚ), (1 / 2 : ℚ)) := by
    simp only [sourceCoordinate, Array2.shape, sampleSource, blankTarget]
    norm_num
  rw [e1]
  simp only [pixelValue, interpolate, hf, sampleSource]
  norm_num

/-! ## The resampler: values and masks -/

section Claims

variable {K : Type} [LinearOrderedField K] [FloorRing K]

/-- Claim C1. Unmasked transform over exact arithmetic: for every source,
destination and parameter set with non-zero scale factors, the running source
position at destination pixel `(y,x)` is the affine image of `(y,x)`, and the
value written there is the sum of weight times sample over those of the four
neighbours of that position that lie in `[0,h] × [0,w]`; out-of-bounds
neighbours contribute nothing and nothing is renormalised. -/
theorem transform_unmasked_bilinear (m : Libm K) (source : Array2 K)
    (source_mask : Array2 Bool) (source_center : K × K) (target : Array2 K)
    (target_mask : Array2 Bool) (target_center scaling_factor : K × K) (rotation_angle : K)
    (_hsy : scaling_factor.1 ≠ 0) (_hsx : scaling_factor.2 ≠ 0)
    (y x : Nat) (hy : y < target.extent0) (hx : x < target.extent1) :
    ((cursor m false source source_mask source_center target target_mask target_center
        scaling_factor rotation_angle y x).source_y,
     (cursor m false source source_mask source_center target target_mask target_center
        scaling_factor rotation_angle y x).source_x)
      = sourceCoordinate (steps m source_center target_center scaling_factor rotation_angle)
          y x ∧
    (transform m false source source_mask source_center target target_mask target_center
        scaling_factor rotation_angle).1.get y x
      = bilinearSum source
          (cursor m false source source_mask source_center target target_mask target_center
            scaling_factor rotation_angle y x).source_y
          (cursor m false source source_mask source_center target target_mask target_center
            scaling_factor rotation_angle y x).source_x := by
  have hc := cursor_source m false source source_mask source_center target target_mask
    target_center scaling_factor rotation_angle y x
  refine ⟨hc, ?_⟩
  rw [transform_get m false source source_mask source_center target target_mask target_center
    scaling_factor rotation_angle y x hy hx, ← hc]
  simp only [pixelValue, Bool.false_eq_true, if_false]
  exact interpolate_eq_bilinearSum source _ _

/-- Evaluation of C1 on the `2 × 3` sample image scaled into a `3 × 5`
buffer with factors `(2, 2)`, at pixel `(1, 2)`. -/
theorem transform_unmasked_bilinear_witness :
    ((2 : ℚ), (2 : ℚ)).1 ≠ 0 ∧ ((2 : ℚ), (2 : ℚ)).2 ≠ 0 ∧
    1 < (blankTarget 3 5).extent0 ∧ 2 < (blankTarget 3 5).extent1 ∧
    (((cursor taylorLibm false sampleSource Array2.emptyMask (0, 0) (blankTarget 3 5)
        Array2.emptyMask (0, 0) (2, 2) 0 1 2).source_y,
     (cursor taylorLibm false sampleSource Array2.emptyMask (0, 0) (blankTarget 3 5)
        Array2.emptyMask (0, 0) (2, 2) 0 1 2).source_x)
      = sourceCoordinate (steps taylorLibm (0, 0) (0, 0) (2, 2) 0) ((1 : Nat) : ℚ)
          ((2 : Nat) : ℚ) ∧
    (transform taylorLibm false sampleSource Array2.emptyMask (0, 0) (blankTarget 3 5)
        Array2.emptyMask (0, 0) (2, 2) 0).1.get (1 : Nat) (2 : Nat)
      = bilinearSum sampleSource
          (cursor taylorLibm false sampleSource Array2.emptyMask (0, 0) (blankTarget 3 5)
            Array2.emptyMask (0, 0) (2, 2) 0 1 2).source_y
          (cursor taylorLibm false sampleSource Array2.emptyMask (0, 0) (blankTarget 3 5)
            Array2.emptyMask (0, 0) (2, 2) 0 1 2).source_x) :=
  ⟨by norm_num, by norm_num, by decide, by decide,
    transform_unmasked_bilinear taylorLibm sampleSource Array2.emptyMask (0, 0)
      (blankTarget 3 5) Array2.emptyMask (0, 0) (2, 2) 0 (by norm_num) (by norm_num) 1 2
      (by decide) (by decide)⟩

/-- Claim C2. Masked transform: for every source, source mask of the same
extents and parameter set, the value written at destination pixel `(y,x)` is
the sum of weight times sample over exactly those of the four neighbours that
are in-bounds and have a true source mask bit; a pixel with no such neighbour
gets the value `0`. -/
theorem transform_masked_bilinear (m : Libm K) (source : Array2 K)
    (source_mask : Array2 Bool) (source_center : K × K) (target : Array2 K)
    (target_mask : Array2 Bool) (target_center scaling_factor : K × K) (rotation_angle : K)
    (_hm0 : source_mask.extent0 = source.extent0) (_hm1 : source_mask.extent1 = source.extent1)
    (y x : Nat) (hy : y < target.extent0) (hx : x < target.extent1) :
    (transform m true source source_mask source_center target target_mask target_center
        scaling_factor rotation_angle).1.get y x
      = maskedBilinearSum source source_mask
          (cursor m true source source_mask source_center target target_mask target_center
            scaling_factor rotation_angle y x).source_y
          (cursor m true source source_mask source_center target target_mask target_center
            scaling_factor rotation_angle y x).source_x ∧
    ((∀ n ∈ neighbours
          (cursor m true source source_mask source_center target target_mask target_center
            scaling_factor rotation_angle y x).source_y
          (cursor m true source source_mask source_center target target_mask target_center
            scaling_factor rotation_angle y x).source_x,
        ¬ validNeighbour source source_mask n.1.1 n.1.2) →
      (transform m true source source_mask source_center target target_mask target_center
        scaling_factor rotation_angle).1.get y x = 0) := by
  have hc := cursor_source m true source source_mask source_center target target_mask
    target_center scaling_factor rotation_angle y x
  have hv : (transform m true source source_mask source_center target target_mask
      target_center scaling_factor rotation_angle).1.get y x
      = maskedBilinearSum source source_mask
          (cursor m true source source_mask source_center target target_mask target_center
            scaling_factor rotation_angle y x).source_y
          (cursor m true source source_mask source_center target target_mask target_center
            scaling_factor rotation_angle y x).source_x := by
    rw [transform_get m true source source_mask source_center target target_mask target_center
      scaling_factor rotation_angle y x hy hx, ← hc]
    simp only [pixelValue, if_true]
    exact interpolateMasked_fst source source_mask _ _
  refine ⟨hv, ?_⟩
  intro hnone
  rw [hv, maskedBilinearSum]
  have hf : (neighbours
      (cursor m true source source_mask source_center target target_mask target_center
        scaling_factor rotation_angle y x).source_y
      (cursor m true source source_mask source_center target target_mask target_center
        scaling_factor rotation_angle y x).source_x).filter
      (fun n => decide (validNeighbour source source_mask n.1.1 n.1.2)) = [] := by
    rw [List.filter_eq_nil_iff]
    intro n hn
    simpa using hnone n hn
  rw [hf]
  simp

/-- Evaluation of C2 on the sample image and mask, scaled into a `3 × 5`
buffer with factors `(2, 2)`, at pixel `(1, 2)`. -/
theorem transform_masked_bilinear_witness :
    sampleMask.extent0 = sampleSource.extent0 ∧ sampleMask.extent1 = sampleSource.extent1 ∧
    1 < (blankTarget 3 5).extent0 ∧ 2 < (blankTarget 3 5).extent1 ∧
    ((transform taylorLibm true sampleSource sampleMask (0, 0) (blankTarget 3 5)
        (blankMask 3 5) (0, 0) (2, 2) 0).1.get (1 : Nat) (2 : Nat)
      = maskedBilinearSum sampleSource sampleMask
          (cursor taylorLibm true sampleSource sampleMask (0, 0) (blankTarget 3 5)
            (blankMask 3 5) (0, 0) (2, 2) 0 1 2).source_y
          (cursor taylorLibm true sampleSource sampleMask (0, 0) (blankTarget 3 5)
            (blankMask 3 5) (0, 0) (2, 2) 0 1 2).source_x ∧
    ((∀ n ∈ neighbours
          (cursor taylorLibm true sampleSource sampleMask (0, 0) (blankTarget 3 5)
            (blankMask 3 5) (0, 0) (2, 2) 0 1 2).source_y
          (cursor taylorLibm true sampleSource sampleMask (0, 0) (blankTarget 3 5)
            (blankMask 3 5) (0, 0) (2, 2) 0 1 2).source_x,
        ¬ validNeighbour sampleSource sampleMask n.1.1 n.1.2) →
      (transform taylorLibm true sampleSource sampleMask (0, 0) (blankTarget 3 5)
        (blankMask 3 5) (0, 0) (2, 2) 0).1.get (1 : Nat) (2 : Nat) = 0)) :=
  ⟨by decide, by decide, by decide, by decide,
    transform_masked_bilinear taylorLibm sampleSource sampleMask (0, 0) (blankTarget 3 5)
      (blankMask 3 5) (0, 0) (2, 2) 0 (by decide) (by decide) 1 2 (by decide) (by decide)⟩

/-- Claim C3. Mask conservativeness: for every input mask, the bit written to
`target_mask(y,x)` by the masked transform is true if and only if at least
one of the four neighbours of the source position is in-bounds with a true
source mask bit. -/
theorem transform_mask_conservative (m : Libm K) (source : Array2 K)
    (source_mask : Array2 Bool) (source_center : K × K) (target : Array2 K)
    (target_mask : Array2 Bool) (target_center scaling_factor : K × K) (rotation_angle : K)
    (y x : Nat) (hy : y < target.extent0) (hx : x < target.extent1) :
    (transform m true source source_mask source_center target target_mask target_center
        scaling_factor rotation_angle).2.get y x = true ↔
      ∃ n ∈ neighbours
          (cursor m true source source_mask source_center target target_mask target_center
            scaling_factor rotation_angle y x).source_y
          (cursor m true source source_mask source_center target target_mask target_center
            scaling_factor rotation_angle y x).source_x,
        validNeighbour source source_mask n.1.1 n.1.2 := by
  have hc := cursor_source m true source source_mask source_center target target_mask
    target_center scaling_factor rotation_angle y x
  rw [transform_mask_get m source source_mask source_center target target_mask target_center
    scaling_factor rotation_angle y x hy hx, ← hc]
  exact interpolateMasked_snd source source_mask _ _

/-- Evaluation of C3 on the sample image and mask, at pixel `(0, 0)` of a
`3 × 5` buffer. -/
theorem transform_mask_conservative_witness :
    0 < (blankTarget 3 5).extent0 ∧ 0 < (blankTarget 3 5).extent1 ∧
    ((transform taylorLibm true sampleSource sampleMask (0, 0) (blankTarget 3 5)
        (blankMask 3 5) (0, 0) (2, 2) 0).2.get (0 : Nat) (0 : Nat) = true ↔
      ∃ n ∈ neighbours
          (cursor taylorLibm true sampleSource sampleMask (0, 0) (blankTarget 3 5)
            (blankMask 3 5) (0, 0) (2, 2) 0 0 0).source_y
          (cursor taylorLibm true sampleSource sampleMask (0, 0) (blankTarget 3 5)
            (blankMask 3 5) (0, 0) (2, 2) 0 0 0).source_x,
        validNeighbour sampleSource sampleMask n.1.1 n.1.2) :=
  ⟨by decide, by decide,
    transform_mask_conservative taylorLibm sampleSource sampleMask (0, 0) (blankTarget 3 5)
      (blankMask 3 5) (0, 0) (2, 2) 0 0 0 (by decide) (by decide)⟩

/-! ## Scaling -/

/-- Claim C4. `scale` is `transform` with angle `0`, both centers `(0,0)` and
per-axis factor `(dstExtent-1)/(srcExtent-1)`; when all four extents are at
least `2`, the source position sampled for destination pixel `(y,x)` is
`(y*(srcRows-1)/(dstRows-1), x*(srcCols-1)/(dstCols-1))`. -/
theorem scale_source_coordinate (m : Libm K) (hsin : m.sin 0 = 0) (hcos : m.cos 0 = 1)
    (src dst : Array2 K) (_hs0 : 2 ≤ src.extent0) (_hs1 : 2 ≤ src.extent1)
    (_hd0 : 2 ≤ dst.extent0) (_hd1 : 2 ≤ dst.extent1)
    (y x : Nat) (_hy : y < dst.extent0) (_hx : x < dst.extent1) :
    scale m src dst
      = (transform m false src Array2.emptyMask (0, 0) dst Array2.emptyMask (0, 0)
          (((dst.extent0 : K) - 1) / ((src.extent0 : K) - 1),
           ((dst.extent1 : K) - 1) / ((src.extent1 : K) - 1)) 0).1 ∧
    ((cursor m false src Array2.emptyMask (0, 0) dst Array2.emptyMask (0, 0)
        (_get_scale_factor src.shape dst.shape) 0 y x).source_y,
     (cursor m false src Array2.emptyMask (0, 0) dst Array2.emptyMask (0, 0)
        (_get_scale_factor src.shape dst.shape) 0 y x).source_x)
      = ((y : K) * ((src.extent0 : K) - 1) / ((dst.extent0 : K) - 1),
         (x : K) * ((src.extent1 : K) - 1) / ((dst.extent1 : K) - 1)) := by
  constructor
  · simp [scale, _get_scale_factor, Array2.shape]
  · rw [cursor_source, steps_scale m hsin hcos]
    simp only [sourceCoordinate, Array2.shape, Int.cast_natCast]
    apply Prod.ext
    · simp only; ring
    · simp only; ring

/-- Evaluation of C4 for the `2 × 3` sample image and a `3 × 5` buffer, at
pixel `(1, 2)`. -/
theorem scale_source_coordinate_witness :
    taylorLibm.sin 0 = 0 ∧ taylorLibm.cos 0 = 1 ∧
    2 ≤ sampleSource.extent0 ∧ 2 ≤ sampleSource.extent1 ∧
    2 ≤ (blankTarget 3 5).extent0 ∧ 2 ≤ (blankTarget 3 5).extent1 ∧
    1 < (blankTarget 3 5).extent0 ∧ 2 < (blankTarget 3 5).extent1 ∧
    (scale taylorLibm sampleSource (blankTarget 3 5)
      = (transform taylorLibm false sampleSource Array2.emptyMask (0, 0) (blankTarget 3 5)
          Array2.emptyMask (0, 0)
          ((((blankTarget 3 5).extent0 : ℚ) - 1) / ((sampleSource.extent0 : ℚ) - 1),
           (((blankTarget 3 5).extent1 : ℚ) - 1) / ((sampleSource.extent1 : ℚ) - 1)) 0).1 ∧
    ((cursor taylorLibm false sampleSource Array2.emptyMask (0, 0) (blankTarget 3 5)
        Array2.emptyMask (0, 0)
        (_get_scale_factor sampleSource.shape (blankTarget 3 5).shape) 0 1 2).source_y,
     (cursor taylorLibm false sampleSource Array2.emptyMask (0, 0) (blankTarget 3 5)
        Array2.emptyMask (0, 0)
        (_get_scale_factor sampleSource.shape (blankTarget 3 5).shape) 0 1 2).source_x)
      = (((1 : Nat) : ℚ) * ((sampleSource.extent0 : ℚ) - 1)
            / (((blankTarget 3 5).extent0 : ℚ) - 1),
         ((2 : Nat) : ℚ) * ((sampleSource.extent1 : ℚ) - 1)
            / (((blankTarget 3 5).extent1 : ℚ) - 1))) :=
  ⟨by norm_num [taylorLibm], by norm_num [taylorLibm], by decide, by decide, by decide,
    by decide, by decide, by decide,
    scale_source_coordinate taylorLibm (by norm_num [taylorLibm]) (by norm_num [taylorLibm])
      sampleSource (blankTarget 3 5) (by decide) (by decide) (by decide) (by decide) 1 2
      (by decide) (by decide)⟩

/-- Claim C6. The inverse map places the source center at the destination
center: for every angle, non-zero scale factors and centers, the origin is
`source_center - R(target_center)` with `R` the linear map made of the row
and column steps, so the affine source position of the destination position
`target_center` is `source_center`; when `target_center` is a pixel `(y,x)`,
the running variables of `transform` hold `source_center` at that pixel. -/
theorem source_center_at_target_center (m : Libm K)
    (source_center target_center scaling_factor : K × K) (rotation_angle : K)
    (_hsy : scaling_factor.1 ≠ 0) (_hsx : scaling_factor.2 ≠ 0) :
    ((steps m source_center target_center scaling_factor rotation_angle).origin_y
        = source_center.1
          - (target_center.1
              * (steps m source_center target_center scaling_factor rotation_angle).row_dy
            + target_center.2
              * (steps m source_center target_center scaling_factor rotation_angle).col_dy) ∧
      (steps m source_center target_center scaling_factor rotation_angle).origin_x
        = source_center.2
          - (target_center.1
              * (steps m source_center target_center scaling_factor rotation_angle).row_dx
            + target_center.2
              * (steps m source_center target_center scaling_factor rotation_angle).col_dx)) ∧
    sourceCoordinate (steps m source_center target_center scaling_factor rotation_angle)
        target_center.1 target_center.2 = source_center ∧
    ∀ (mask : Bool) (source : Array2 K) (source_mask : Array2 Bool) (target : Array2 K)
      (target_mask : Array2 Bool) (y x : Nat), target_center = ((y : K), (x : K)) →
      ((cursor m mask source source_mask source_center target target_mask target_center
          scaling_factor rotation_angle y x).source_y,
       (cursor m mask source source_mask source_center target target_mask target_center
          scaling_factor rotation_angle y x).source_x) = source_center := by
  have hA : sourceCoordinate (steps m source_center target_center scaling_factor
      rotation_angle) target_center.1 target_center.2 = source_center := by
    apply Prod.ext
    · simp only [sourceCoordinate, steps]; ring
    · simp only [sourceCoordinate, steps]; ring
  refine ⟨⟨?_, ?_⟩, hA, ?_⟩
  · simp only [steps]; ring
  · simp only [steps]; ring
  · intro mask source source_mask target target_mask y x hc
    rw [cursor_source]
    have h1 : (y : K) = target_center.1 := by rw [hc]
    have h2 : (x : K) = target_center.2 := by rw [hc]
    rw [h1, h2]
    exact hA

/-- Evaluation of C6 with source center `(1/2, 1)`, destination center the
pixel `(1, 2)`, scale factors `(2, 3)` and angle `30`. -/
theorem source_center_at_target_center_witness :
    ((2 : ℚ), (3 : ℚ)).1 ≠ 0 ∧ ((2 : ℚ), (3 : ℚ)).2 ≠ 0 ∧
    sourceCoordinate (steps taylorLibm ((1 / 2 : ℚ), (1 : ℚ)) ((1 : ℚ), (2 : ℚ)) (2, 3) 30)
        ((1 : ℚ), (2 : ℚ)).1 ((1 : ℚ), (2 : ℚ)).2 = ((1 / 2 : ℚ), (1 : ℚ)) ∧
    ((cursor taylorLibm false sampleSource Array2.emptyMask ((1 / 2 : ℚ), (1 : ℚ))
          (blankTarget 3 5) Array2.emptyMask ((1 : ℚ), (2 : ℚ)) (2, 3) 30 1 2).source_y,
     (cursor taylorLibm false sampleSource Array2.emptyMask ((1 / 2 : ℚ), (1 : ℚ))
          (blankTarget 3 5) Array2.emptyMask ((1 : ℚ), (2 : ℚ)) (2, 3) 30 1 2).source_x)
      = ((1 / 2 : ℚ), (1 : ℚ)) :=
  ⟨by norm_num, by norm_num,
    (source_center_at_target_center taylorLibm ((1 / 2 : ℚ), (1 : ℚ)) ((1 : ℚ), (2 : ℚ))
      (2, 3) 30 (by norm_num) (by norm_num)).2.1,
    (source_center_at_target_center taylorLibm ((1 / 2 : ℚ), (1 : ℚ)) ((1 : ℚ), (2 : ℚ))
      (2, 3) 30 (by norm_num) (by norm_num)).2.2 false sampleSource Array2.emptyMask
      (blankTarget 3 5) Array2.emptyMask 1 2 (by norm_num)⟩

/-! ## Multi-plane images -/

/-- Claim C7. Multi-plane consistency: for every 3D source and destination
with equal plane counts, 3D `rotate` and 3D `scale`, unmasked or masked (the
masks then having the same plane count), return normally and leave in each
destination plane `p` (and destination mask plane `p`) exactly what the 2D
`rotate` (resp. `scale`) produces from source plane `p` (and source mask plane
`p`) alone with the same parameters. -/
theorem multi_plane_consistency (m : Libm K) (src dst : Array3 K) (rotation_angle : K)
    (hplanes : src.extent0 = dst.extent0) :
    (∃ out, rotate3D m src dst rotation_angle = Outcome.returned out ∧
      ∀ p : Nat, p < dst.extent0 →
        out.slice p = rotate m (src.slice p) (dst.slice p) rotation_angle) ∧
    (∃ out, scale3D m src dst = Outcome.returned out ∧
      ∀ p : Nat, p < dst.extent0 → out.slice p = scale m (src.slice p) (dst.slice p)) ∧
    (∀ src_mask dst_mask : Array3 Bool,
      src_mask.extent0 = src.extent0 → dst_mask.extent0 = src.extent0 →
      (∃ out, rotate3DMasked m src src_mask dst dst_mask rotation_angle = Outcome.returned out ∧
        ∀ p : Nat, p < dst.extent0 →
          (out.1.slice p, out.2.slice p) = rotateMasked m (src.slice p) (src_mask.slice p)
            (dst.slice p) (dst_mask.slice p) rotation_angle) ∧
      (∃ out, scale3DMasked m src src_mask dst dst_mask = Outcome.returned out ∧
        ∀ p : Nat, p < dst.extent0 →
          (out.1.slice p, out.2.slice p) = scaleMasked m (src.slice p) (src_mask.slice p)
            (dst.slice p) (dst_mask.slice p))) := by
  have hI : (src.extent0 : Int) = (dst.extent0 : Int) := by exact_mod_cast hplanes
  refine ⟨?_, ?_, ?_⟩
  · refine ⟨_, by rw [rotate3D, assert_ok hI], ?_⟩
    intro p hp
    exact plane_loop_slice (fun p s => rotate m (src.slice p) s rotation_angle)
      (fun p s => (transform_extents m false _ _ _ s _ _ _ _).1) dst _ p hp
  · refine ⟨_, by rw [scale3D, assert_ok hI], ?_⟩
    intro p hp
    exact plane_loop_slice (fun p s => scale m (src.slice p) s)
      (fun p s => (transform_extents m false _ _ _ s _ _ _ _).1) dst _ p hp
  · intro src_mask dst_mask h2 h3
    have hI2 : (src.extent0 : Int) = (src_mask.extent0 : Int) := by exact_mod_cast h2.symm
    have hI3 : (src_mask.extent0 : Int) = (dst_mask.extent0 : Int) := by
      exact_mod_cast h2.trans h3.symm
    constructor
    · refine ⟨_, by rw [rotate3DMasked, assert_ok hI, assert_ok hI2, assert_ok hI3], ?_⟩
      intro p hp
      exact plane_loop_masked_slice
        (fun p s t => rotateMasked m (src.slice p) (src_mask.slice p) s t rotation_angle)
        (fun p s t => transform_extents m true _ _ _ s t _ _ _) dst dst_mask _ p hp
    · refine ⟨_, by rw [scale3DMasked, assert_ok hI, assert_ok hI2, assert_ok hI3], ?_⟩
      intro p hp
      exact plane_loop_masked_slice
        (fun p s t => scaleMasked m (src.slice p) (src_mask.slice p) s t)
        (fun p s t => transform_extents m true _ _ _ s t _ _ _) dst dst_mask _ p hp

/-- Evaluation of C7 on the two-plane sample image rotated by `30` into a
`2 × 3 × 3` buffer, at plane `1`, unmasked and masked. -/
theorem multi_plane_consistency_witness :
    sampleSource3.extent0 = (blankTarget3 2 3 3).extent0 ∧
    sampleMask3.extent0 = sampleSource3.extent0 ∧
    (blankMask3 2 3 3).extent0 = sampleSource3.extent0 ∧
    1 < (blankTarget3 2 3 3).extent0 ∧
    (∃ out, rotate3D taylorLibm sampleSource3 (blankTarget3 2 3 3) 30 = Outcome.returned out ∧
      out.slice (1 : Nat)
        = rotate taylorLibm (sampleSource3.slice (1 : Nat))
            ((blankTarget3 2 3 3).slice (1 : Nat)) 30) ∧
    (∃ out, rotate3DMasked taylorLibm sampleSource3 sampleMask3 (blankTarget3 2 3 3)
        (blankMask3 2 3 3) 30 = Outcome.returned out ∧
      (out.1.slice (1 : Nat), out.2.slice (1 : Nat))
        = rotateMasked taylorLibm (sampleSource3.slice (1 : Nat))
            (sampleMask3.slice (1 : Nat)) ((blankTarget3 2 3 3).slice (1 : Nat))
            ((blankMask3 2 3 3).slice (1 : Nat)) 30) := by
  refine ⟨by decide, by decide, by decide, by decide, ?_, ?_⟩
  · obtain ⟨out, h1, h2⟩ :=
      (multi_plane_consistency taylorLibm sampleSource3 (blankTarget3 2 3 3) 30
        (by decide)).1
    exact ⟨out, h1, h2 1 (by decide)⟩
  · obtain ⟨out, h1, h2⟩ :=
      ((multi_plane_consistency taylorLibm sampleSource3 (blankTarget3 2 3 3) 30
        (by decide)).2.2 sampleMask3 (blankMask3 2 3 3) (by decide) (by decide)).1
    exact ⟨out, h1, h2 1 (by decide)⟩

/-- Claim C8. 3D `scale` and 3D `rotate` end by throwing the shape-mismatch
error exactly when the plane counts of source and destination (and, in masked
mode, of source mask and destination mask) are not all equal, and when they
throw the destination and the destination mask are as they were on entry. -/
theorem plane_count_check (m : Libm K) (src dst : Array3 K) (src_mask dst_mask : Array3 Bool)
    (rotation_angle : K) :
    (((scale3D m src dst).failed = true ↔ src.extent0 ≠ dst.extent0) ∧
      ∀ e s, scale3D m src dst = Outcome.threw e s → s = dst) ∧
    (((rotate3D m src dst rotation_angle).failed = true ↔ src.extent0 ≠ dst.extent0) ∧
      ∀ e s, rotate3D m src dst rotation_angle = Outcome.threw e s → s = dst) ∧
    (((scale3DMasked m src src_mask dst dst_mask).failed = true ↔
        ¬ (src.extent0 = dst.extent0 ∧ src_mask.extent0 = src.extent0
            ∧ dst_mask.extent0 = src.extent0)) ∧
      ∀ e s, scale3DMasked m src src_mask dst dst_mask = Outcome.threw e s →
        s = (dst, dst_mask)) ∧
    (((rotate3DMasked m src src_mask dst dst_mask rotation_angle).failed = true ↔
        ¬ (src.extent0 = dst.extent0 ∧ src_mask.extent0 = src.extent0
            ∧ dst_mask.extent0 = src.extent0)) ∧
      ∀ e s, rotate3DMasked m src src_mask dst dst_mask rotation_angle = Outcome.threw e s →
        s = (dst, dst_mask)) :=
  ⟨unmasked_check _ _ _ _ _ rfl, unmasked_check _ _ _ _ _ rfl,
    masked_checks _ _ _ _ _ _ _ rfl, masked_checks _ _ _ _ _ _ _ rfl⟩

/-! ## Shape predictors -/

/-- Claim C10. `getRotatedShape`: for every source shape and angle in degrees,
with `c = |cos|` and `s = |sin|` of the angle in radians, the result has rows
`floor(srcRow*c + srcCol*s + 0.5)` and columns
`floor(srcCol*c + srcRow*s + 0.5)`, and for a 3D shape the plane axis is
unchanged. -/
theorem getRotatedShape_spec (m : Libm K) (rotation_angle : K) :
    (∀ rows cols : Int, getRotatedShape m [rows, cols] rotation_angle =
      [⌊(rows : K) * |m.cos (rotation_angle * m.M_PI / 180)|
          + (cols : K) * |m.sin (rotation_angle * m.M_PI / 180)| + 1 / 2⌋,
       ⌊(cols : K) * |m.cos (rotation_angle * m.M_PI / 180)|
          + (rows : K) * |m.sin (rotation_angle * m.M_PI / 180)| + 1 / 2⌋]) ∧
    (∀ planes rows cols : Int, getRotatedShape m [planes, rows, cols] rotation_angle =
      [planes,
       ⌊(rows : K) * |m.cos (rotation_angle * m.M_PI / 180)|
          + (cols : K) * |m.sin (rotation_angle * m.M_PI / 180)| + 1 / 2⌋,
       ⌊(cols : K) * |m.cos (rotation_angle * m.M_PI / 180)|
          + (rows : K) * |m.sin (rotation_angle * m.M_PI / 180)| + 1 / 2⌋]) := by
  constructor
  · intro rows cols; simp [getRotatedShape]
  · intro planes rows cols; simp [getRotatedShape]

end Claims


/-! ## The rotated extent is a bounding box -/

section BoundingBox

variable {K : Type} [LinearOrderedField K]

/-- A linear form `y * a + x * b` on the centred rectangle takes exactly the
values of an interval of length `rows * |a| + cols * |b|`. -/
theorem linear_form_extent (rows cols a b : K) (hr : 0 ≤ rows) (hc : 0 ≤ cols) :
    boundingExtent (inRectangle rows cols) (fun p => p.1 * a + p.2 * b)
      (rows * |a| + cols * |b|) := by
  have key : ∀ p : K × K, inRectangle rows cols p →
      |p.1 * a + p.2 * b| ≤ (rows * |a| + cols * |b|) / 2 := by
    intro p hp
    have h1 : |p.1 * a| ≤ rows / 2 * |a| := by
      rw [abs_mul]; exact mul_le_mul_of_nonneg_right hp.1 (abs_nonneg a)
    have h2 : |p.2 * b| ≤ cols / 2 * |b| := by
      rw [abs_mul]; exact mul_le_mul_of_nonneg_right hp.2 (abs_nonneg b)
    have h3 := abs_add (p.1 * a) (p.2 * b)
    linarith
  -- the corner at which the form is largest
  obtain ⟨sa, hsa, hsa1⟩ : ∃ sa : K, sa * a = |a| ∧ |sa| = 1 := by
    rcases le_total 0 a with h | h
    · exact ⟨1, by rw [abs_of_nonneg h, one_mul], abs_one⟩
    · exact ⟨-1, by rw [abs_of_nonpos h]; ring, by rw [abs_neg, abs_one]⟩
  obtain ⟨sb, hsb, hsb1⟩ : ∃ sb : K, sb * b = |b| ∧ |sb| = 1 := by
    rcases le_total 0 b with h | h
    · exact ⟨1, by rw [abs_of_nonneg h, one_mul], abs_one⟩
    · exact ⟨-1, by rw [abs_of_nonpos h]; ring, by rw [abs_neg, abs_one]⟩
  have hr2 : |rows / 2| = rows / 2 := abs_of_nonneg (by linarith)
  have hc2 : |cols / 2| = cols / 2 := abs_of_nonneg (by linarith)
  refine ⟨-((rows * |a| + cols * |b|) / 2), (rows * |a| + cols * |b|) / 2, by ring, ?_, ?_, ?_⟩
  · intro p hp
    exact abs_le.mp (key p hp)
  · refine ⟨(-(sa * (rows / 2)), -(sb * (cols / 2))), ⟨?_, ?_⟩, ?_⟩
    · simp only [abs_neg, abs_mul, hsa1, hr2, one_mul, le_refl]
    · simp only [abs_neg, abs_mul, hsb1, hc2, one_mul, le_refl]
    · have e1 : -(sa * (rows / 2)) * a = -(rows / 2 * (sa * a)) := by ring
      have e2 : -(sb * (cols / 2)) * b = -(cols / 2 * (sb * b)) := by ring
      simp only [e1, e2, hsa, hsb]; ring
  · refine ⟨(sa * (rows / 2), sb * (cols / 2)), ⟨?_, ?_⟩, ?_⟩
    · simp only [abs_mul, hsa1, hr2, one_mul, le_refl]
    · simp only [abs_mul, hsb1, hc2, one_mul, le_refl]
    · have e1 : sa * (rows / 2) * a = rows / 2 * (sa * a) := by ring
      have e2 : sb * (cols / 2) * b = cols / 2 * (sb * b) := by ring
      simp only [e1, e2, hsa, hsb]; ring

end BoundingBox

section ClaimsGeometry

variable {K : Type} [LinearOrderedField K] [FloorRing K]

/-- Claim C11. The extents `getRotatedShape` rounds are those of the
axis-aligned bounding box of the rotated source rectangle: for rows `R ≥ 0`,
columns `C ≥ 0` and every angle, `getRotatedShape` returns
`floor(H + 0.5)` and `floor(W + 0.5)` with `H = R*|cos| + C*|sin|` and
`W = C*|cos| + R*|sin|`, and the `R`-by-`C` rectangle rotated by that angle
about its centre has vertical extent exactly `H` and horizontal extent exactly
`W` (all its points lie within, and both bounds are attained on each axis). -/
theorem rotated_extent_is_bounding_box (m : Libm K) (rotation_angle : K) (R C : Int)
    (hR : 0 ≤ R) (hC : 0 ≤ C) :
    getRotatedShape m [R, C] rotation_angle
      = [⌊(R : K) * |m.cos (rotation_angle * m.M_PI / 180)|
            + (C : K) * |m.sin (rotation_angle * m.M_PI / 180)| + 1 / 2⌋,
         ⌊(C : K) * |m.cos (rotation_angle * m.M_PI / 180)|
            + (R : K) * |m.sin (rotation_angle * m.M_PI / 180)| + 1 / 2⌋] ∧
    boundingExtent (inRectangle (R : K) (C : K))
      (fun p => (rotatePoint m rotation_angle p).1)
      ((R : K) * |m.cos (rotation_angle * m.M_PI / 180)|
        + (C : K) * |m.sin (rotation_angle * m.M_PI / 180)|) ∧
    boundingExtent (inRectangle (R : K) (C : K))
      (fun p => (rotatePoint m rotation_angle p).2)
      ((C : K) * |m.cos (rotation_angle * m.M_PI / 180)|
        + (R : K) * |m.sin (rotation_angle * m.M_PI / 180)|) := by
  have hR' : (0 : K) ≤ (R : K) := by exact_mod_cast hR
  have hC' : (0 : K) ≤ (C : K) := by exact_mod_cast hC
  refine ⟨by simp [getRotatedShape], ?_, ?_⟩
  · have h := linear_form_extent (R : K) (C : K)
      (m.cos (rotation_angle * m.M_PI / 180)) (-m.sin (rotation_angle * m.M_PI / 180)) hR' hC'
    rw [abs_neg] at h
    have e : (fun p : K × K => (rotatePoint m rotation_angle p).1)
        = fun p => p.1 * m.cos (rotation_angle * m.M_PI / 180)
            + p.2 * -m.sin (rotation_angle * m.M_PI / 180) := by
      funext p; simp only [rotatePoint]; ring
    rw [e]; exact h
  · have h := linear_form_extent (R : K) (C : K)
      (m.sin (rotation_angle * m.M_PI / 180)) (m.cos (rotation_angle * m.M_PI / 180)) hR' hC'
    have e : (fun p : K × K => (rotatePoint m rotation_angle p).2)
        = fun p => p.1 * m.sin (rotation_angle * m.M_PI / 180)
            + p.2 * m.cos (rotation_angle * m.M_PI / 180) := by
      funext p; simp only [rotatePoint]; ring
    rw [e]
    have e2 : (C : K) * |m.cos (rotation_angle * m.M_PI / 180)|
        + (R : K) * |m.sin (rotation_angle * m.M_PI / 180)|
        = (R : K) * |m.sin (rotation_angle * m.M_PI / 180)|
          + (C : K) * |m.cos (rotation_angle * m.M_PI / 180)| := by ring
    rw [e2]; exact h

/-- Evaluation of C11 for a `4 × 5` shape and angle `30`. -/
theorem rotated_extent_is_bounding_box_witness :
    (0 : Int) ≤ 4 ∧ (0 : Int) ≤ 5 ∧
    (getRotatedShape taylorLibm [4, 5] (30 : ℚ)
      = [⌊((4 : Int) : ℚ) * |taylorLibm.cos (30 * taylorLibm.M_PI / 180)|
            + ((5 : Int) : ℚ) * |taylorLibm.sin (30 * taylorLibm.M_PI / 180)| + 1 / 2⌋,
         ⌊((5 : Int) : ℚ) * |taylorLibm.cos (30 * taylorLibm.M_PI / 180)|
            + ((4 : Int) : ℚ) * |taylorLibm.sin (30 * taylorLibm.M_PI / 180)| + 1 / 2⌋] ∧
    boundingExtent (inRectangle ((4 : Int) : ℚ) ((5 : Int) : ℚ))
      (fun p => (rotatePoint taylorLibm 30 p).1)
      (((4 : Int) : ℚ) * |taylorLibm.cos (30 * taylorLibm.M_PI / 180)|
        + ((5 : Int) : ℚ) * |taylorLibm.sin (30 * taylorLibm.M_PI / 180)|) ∧
    boundingExtent (inRectangle ((4 : Int) : ℚ) ((5 : Int) : ℚ))
      (fun p => (rotatePoint taylorLibm 30 p).2)
      (((5 : Int) : ℚ) * |taylorLibm.cos (30 * taylorLibm.M_PI / 180)|
        + ((4 : Int) : ℚ) * |taylorLibm.sin (30 * taylorLibm.M_PI / 180)|)) :=
  ⟨by decide, by decide,
    rotated_extent_is_bounding_box taylorLibm 30 4 5 (by decide) (by decide)⟩

end ClaimsGeometry

/-! ## Rotation by a full turn -/

/-- With the exact real functions, the quantities `transform` derives for the
angles `0` and `360` coincide. -/
theorem steps_full_turn (source_center target_center scaling_factor : ℝ × ℝ) :
    steps ({ M_PI := Real.pi, sin := Real.sin, cos := Real.cos } : Libm ℝ)
        source_center target_center scaling_factor 360
      = steps ({ M_PI := Real.pi, sin := Real.sin, cos := Real.cos } : Libm ℝ)
        source_center target_center scaling_factor 0 := by
  have h : (360 : ℝ) * Real.pi / 180 = 2 * Real.pi := by ring
  simp only [steps, h, Real.sin_two_pi, Real.cos_two_pi, zero_mul, zero_div, Real.sin_zero,
    Real.cos_zero]

/-- The output of `transform` depends on the centers, the scale factors and the
angle only through the derived steps. -/
theorem transform_congr_steps {K : Type} [LinearOrderedField K] [FloorRing K] (m : Libm K)
    (mask : Bool) (source : Array2 K) (source_mask : Array2 Bool) (source_center : K × K)
    (target : Array2 K) (target_mask : Array2 Bool) (target_center scaling_factor : K × K)
    (angle1 angle2 : K)
    (h : steps m source_center target_center scaling_factor angle1
      = steps m source_center target_center scaling_factor angle2) :
    transform m mask source source_mask source_center target target_mask target_center
        scaling_factor angle1
      = transform m mask source source_mask source_center target target_mask target_center
        scaling_factor angle2 := by
  simp only [transform, h]

/-- Claim C12, as amended. Rotation periodicity: taking `sin` and `cos` as the
exact real functions and `M_PI` as the exact real number `π`, `rotate` by `0`
degrees and `rotate` by `360` degrees write identical destinations, and in
masked mode identical destination masks, for every source and destination (2D
and, plane by plane, 3D). -/
theorem rotate_full_turn (src dst : Array2 ℝ) (src_mask dst_mask : Array2 Bool)
    (src3 dst3 : Array3 ℝ) (src_mask3 dst_mask3 : Array3 Bool) :
    rotate ({ M_PI := Real.pi, sin := Real.sin, cos := Real.cos } : Libm ℝ) src dst 360
      = rotate ({ M_PI := Real.pi, sin := Real.sin, cos := Real.cos } : Libm ℝ) src dst 0 ∧
    rotateMasked ({ M_PI := Real.pi, sin := Real.sin, cos := Real.cos } : Libm ℝ)
        src src_mask dst dst_mask 360
      = rotateMasked ({ M_PI := Real.pi, sin := Real.sin, cos := Real.cos } : Libm ℝ)
        src src_mask dst dst_mask 0 ∧
    rotate3D ({ M_PI := Real.pi, sin := Real.sin, cos := Real.cos } : Libm ℝ) src3 dst3 360
      = rotate3D ({ M_PI := Real.pi, sin := Real.sin, cos := Real.cos } : Libm ℝ)
        src3 dst3 0 ∧
    rotate3DMasked ({ M_PI := Real.pi, sin := Real.sin, cos := Real.cos } : Libm ℝ)
        src3 src_mask3 dst3 dst_mask3 360
      = rotate3DMasked ({ M_PI := Real.pi, sin := Real.sin, cos := Real.cos } : Libm ℝ)
        src3 src_mask3 dst3 dst_mask3 0 := by
  have h2 : ∀ (s d : Array2 ℝ),
      rotate ({ M_PI := Real.pi, sin := Real.sin, cos := Real.cos } : Libm ℝ) s d 360
        = rotate ({ M_PI := Real.pi, sin := Real.sin, cos := Real.cos } : Libm ℝ) s d 0 := by
    intro s d
    simp only [rotate]
    rw [transform_congr_steps _ _ _ _ _ _ _ _ _ 360 0 (steps_full_turn _ _ _)]
  have h2m : ∀ (s : Array2 ℝ) (sm : Array2 Bool) (d : Array2 ℝ) (dm : Array2 Bool),
      rotateMasked ({ M_PI := Real.pi, sin := Real.sin, cos := Real.cos } : Libm ℝ)
          s sm d dm 360
        = rotateMasked ({ M_PI := Real.pi, sin := Real.sin, cos := Real.cos } : Libm ℝ)
          s sm d dm 0 := by
    intro s sm d dm
    simp only [rotateMasked]
    rw [transform_congr_steps _ _ _ _ _ _ _ _ _ 360 0 (steps_full_turn _ _ _)]
  refine ⟨h2 src dst, h2m src src_mask dst dst_mask, ?_, ?_⟩
  · simp only [rotate3D, h2]
  · simp only [rotate3DMasked, h2m]

/-! ## Boundary energy loss -/

/-- A sum of some of four non-negative numbers adding up to `1` lies in
`[0, 1]`. -/
theorem partial_sum_unit {K : Type} [LinearOrderedField K] (a b c d : K) (ha : 0 ≤ a)
    (hb : 0 ≤ b) (hc : 0 ≤ c) (hd : 0 ≤ d) (h1 : a + b + c + d = 1) (p q r s : Prop)
    [Decidable p] [Decidable q] [Decidable r] [Decidable s] :
    0 ≤ (if p then a else 0) + (if q then b else 0) + (if r then c else 0)
        + (if s then d else 0) ∧
    (if p then a else 0) + (if q then b else 0) + (if r then c else 0)
        + (if s then d else 0) ≤ 1 := by
  by_cases hp : p <;> by_cases hq : q <;> by_cases hr : r <;> by_cases hs : s <;>
    simp only [hp, hq, hr, hs, if_true, if_false] <;> constructor <;> linarith

section EnergyLemmas

variable {K : Type} [LinearOrderedField K] [FloorRing K]

/-- The four bilinear weights are non-negative and add up to `1`. -/
theorem weights_unit (source_y source_x : K) :
    0 ≤ (1 - (source_x - (⌊source_x⌋ : K))) * (1 - (source_y - (⌊source_y⌋ : K))) ∧
    0 ≤ (source_x - (⌊source_x⌋ : K)) * (1 - (source_y - (⌊source_y⌋ : K))) ∧
    0 ≤ (1 - (source_x - (⌊source_x⌋ : K))) * (source_y - (⌊source_y⌋ : K)) ∧
    0 ≤ (source_x - (⌊source_x⌋ : K)) * (source_y - (⌊source_y⌋ : K)) ∧
    (1 - (source_x - (⌊source_x⌋ : K))) * (1 - (source_y - (⌊source_y⌋ : K)))
      + (source_x - (⌊source_x⌋ : K)) * (1 - (source_y - (⌊source_y⌋ : K)))
      + (1 - (source_x - (⌊source_x⌋ : K))) * (source_y - (⌊source_y⌋ : K))
      + (source_x - (⌊source_x⌋ : K)) * (source_y - (⌊source_y⌋ : K)) = 1 := by
  have hx0 : 0 ≤ source_x - (⌊source_x⌋ : K) := sub_nonneg.mpr (Int.floor_le source_x)
  have hy0 : 0 ≤ source_y - (⌊source_y⌋ : K) := sub_nonneg.mpr (Int.floor_le source_y)
  have hx1 : 0 ≤ 1 - (source_x - (⌊source_x⌋ : K)) := by
    have := Int.lt_floor_add_one source_x; linarith
  have hy1 : 0 ≤ 1 - (source_y - (⌊source_y⌋ : K)) := by
    have := Int.lt_floor_add_one source_y; linarith
  exact ⟨mul_nonneg hx1 hy1, mul_nonneg hx0 hy1, mul_nonneg hx1 hy0, mul_nonneg hx0 hy0,
    by ring⟩

/-- On an image whose in-bounds samples are all `1` the unmasked accumulation
lies in `[0, 1]`. -/
theorem interpolate_unit (source : Array2 K)
    (hone : ∀ i j, source.inBounds i j → source.get i j = 1) (source_y source_x : K) :
    0 ≤ interpolate source source_y source_x ∧ interpolate source source_y source_x ≤ 1 := by
  obtain ⟨w1, w2, w3, w4, hsum⟩ := weights_unit source_y source_x
  have h := partial_sum_unit _ _ _ _ w1 w2 w3 w4 hsum
    (source.inBounds ⌊source_y⌋ ⌊source_x⌋) (source.inBounds ⌊source_y⌋ (⌊source_x⌋ + 1))
    (source.inBounds (⌊source_y⌋ + 1) ⌊source_x⌋)
    (source.inBounds (⌊source_y⌋ + 1) (⌊source_x⌋ + 1))
  have e : interpolate source source_y source_x
      = (if source.inBounds ⌊source_y⌋ ⌊source_x⌋ then
            (1 - (source_x - (⌊source_x⌋ : K))) * (1 - (source_y - (⌊source_y⌋ : K))) else 0)
        + (if source.inBounds ⌊source_y⌋ (⌊source_x⌋ + 1) then
            (source_x - (⌊source_x⌋ : K)) * (1 - (source_y - (⌊source_y⌋ : K))) else 0)
        + (if source.inBounds (⌊source_y⌋ + 1) ⌊source_x⌋ then
            (1 - (source_x - (⌊source_x⌋ : K))) * (source_y - (⌊source_y⌋ : K)) else 0)
        + (if source.inBounds (⌊source_y⌋ + 1) (⌊source_x⌋ + 1) then
            (source_x - (⌊source_x⌋ : K)) * (source_y - (⌊source_y⌋ : K)) else 0) := by
    simp only [interpolate, guard_upper_left, guard_upper_right, guard_lower_left,
      guard_lower_right]
    by_cases h1 : source.inBounds ⌊source_y⌋ ⌊source_x⌋ <;>
    by_cases h2 : source.inBounds ⌊source_y⌋ (⌊source_x⌋ + 1) <;>
    by_cases h3 : source.inBounds (⌊source_y⌋ + 1) ⌊source_x⌋ <;>
    by_cases h4 : source.inBounds (⌊source_y⌋ + 1) (⌊source_x⌋ + 1) <;>
    simp [h1, h2, h3, h4, hone]
  rw [e]; exact h

/-- On an image whose in-bounds samples are all `1` the masked accumulation lies
in `[0, 1]`, whatever the source mask. -/
theorem interpolateMasked_unit (source : Array2 K) (source_mask : Array2 Bool)
    (hone : ∀ i j, source.inBounds i j → source.get i j = 1) (source_y source_x : K) :
    0 ≤ (interpolateMasked source source_mask source_y source_x).1 ∧
      (interpolateMasked source source_mask source_y source_x).1 ≤ 1 := by
  obtain ⟨w1, w2, w3, w4, hsum⟩ := weights_unit source_y source_x
  have h := partial_sum_unit _ _ _ _ w1 w2 w3 w4 hsum
    (validNeighbour source source_mask ⌊source_y⌋ ⌊source_x⌋)
    (validNeighbour source source_mask ⌊source_y⌋ (⌊source_x⌋ + 1))
    (validNeighbour source source_mask (⌊source_y⌋ + 1) ⌊source_x⌋)
    (validNeighbour source source_mask (⌊source_y⌋ + 1) (⌊source_x⌋ + 1))
  have hv : ∀ i j, validNeighbour source source_mask i j → source.get i j = 1 :=
    fun i j hij => hone i j hij.1
  have e : (interpolateMasked source source_mask source_y source_x).1
      = (if validNeighbour source source_mask ⌊source_y⌋ ⌊source_x⌋ then
            (1 - (source_x - (⌊source_x⌋ : K))) * (1 - (source_y - (⌊source_y⌋ : K))) else 0)
        + (if validNeighbour source source_mask ⌊source_y⌋ (⌊source_x⌋ + 1) then
            (source_x - (⌊source_x⌋ : K)) * (1 - (source_y - (⌊source_y⌋ : K))) else 0)
        + (if validNeighbour source source_mask (⌊source_y⌋ + 1) ⌊source_x⌋ then
            (1 - (source_x - (⌊source_x⌋ : K))) * (source_y - (⌊source_y⌋ : K)) else 0)
        + (if validNeighbour source source_mask (⌊source_y⌋ + 1) (⌊source_x⌋ + 1) then
            (source_x - (⌊source_x⌋ : K)) * (source_y - (⌊source_y⌋ : K)) else 0) := by
    simp only [interpolateMasked, masked_guard_upper_left, masked_guard_upper_right,
      masked_guard_lower_left, masked_guard_lower_right]
    by_cases h1 : validNeighbour source source_mask ⌊source_y⌋ ⌊source_x⌋ <;>
    by_cases h2 : validNeighbour source source_mask ⌊source_y⌋ (⌊source_x⌋ + 1) <;>
    by_cases h3 : validNeighbour source source_mask (⌊source_y⌋ + 1) ⌊source_x⌋ <;>
    by_cases h4 : validNeighbour source source_mask (⌊source_y⌋ + 1) (⌊source_x⌋ + 1) <;>
    simp [h1, h2, h3, h4, hv]
  rw [e]; exact h

end EnergyLemmas

section ClaimsEnergy

variable {K : Type} [LinearOrderedField K] [FloorRing K]

/-- Claim C13, as amended. Boundary energy loss in exact arithmetic: for every
source whose samples are all `1` and every parameter set with non-zero scale
factors, every value written by the unmasked transform, and every value
written by the masked transform (for any source mask), lies in `[0, 1]` when
the arithmetic is exact: the four bilinear weights are non-negative and sum to
`1`, and dropped terms are not compensated. -/
theorem all_ones_values_in_unit_interval (m : Libm K) (mask : Bool) (source : Array2 K)
    (source_mask : Array2 Bool) (source_center : K × K) (target : Array2 K)
    (target_mask : Array2 Bool) (target_center scaling_factor : K × K) (rotation_angle : K)
    (hone : ∀ i j, source.inBounds i j → source.get i j = 1)
    (_hsy : scaling_factor.1 ≠ 0) (_hsx : scaling_factor.2 ≠ 0)
    (y x : Nat) (hy : y < target.extent0) (hx : x < target.extent1) :
    0 ≤ (transform m mask source source_mask source_center target target_mask target_center
          scaling_factor rotation_angle).1.get y x ∧
    (transform m mask source source_mask source_center target target_mask target_center
          scaling_factor rotation_angle).1.get y x ≤ 1 := by
  rw [transform_get m mask source source_mask source_center target target_mask target_center
    scaling_factor rotation_angle y x hy hx]
  cases mask
  · simp only [pixelValue, Bool.false_eq_true, if_false]
    exact interpolate_unit source hone _ _
  · simp only [pixelValue, if_true]
    exact interpolateMasked_unit source source_mask hone _ _

/-- Evaluation of C13 at the corner pixel `(0,0)` of a `4 × 4` all-ones image
scaled up by the non-integer factor `5/3` into a `6 × 6` buffer. -/
theorem all_ones_values_in_unit_interval_witness :
    (∀ i j, (allOnes 4 4).inBounds i j → (allOnes 4 4).get i j = 1) ∧
    ((5 / 3 : ℚ), (5 / 3 : ℚ)).1 ≠ 0 ∧ ((5 / 3 : ℚ), (5 / 3 : ℚ)).2 ≠ 0 ∧
    0 < (blankTarget 6 6).extent0 ∧ 0 < (blankTarget 6 6).extent1 ∧
    0 ≤ (transform taylorLibm false (allOnes 4 4) Array2.emptyMask (0, 0) (blankTarget 6 6)
          Array2.emptyMask (0, 0) ((5 / 3 : ℚ), (5 / 3 : ℚ)) 0).1.get (0 : Nat) (0 : Nat) ∧
    (transform taylorLibm false (allOnes 4 4) Array2.emptyMask (0, 0) (blankTarget 6 6)
          Array2.emptyMask (0, 0) ((5 / 3 : ℚ), (5 / 3 : ℚ)) 0).1.get (0 : Nat) (0 : Nat) ≤ 1 :=
  ⟨fun _ _ _ => rfl, by norm_num, by norm_num, by decide, by decide,
    all_ones_values_in_unit_interval taylorLibm false (allOnes 4 4) Array2.emptyMask (0, 0)
      (blankTarget 6 6) Array2.emptyMask (0, 0) ((5 / 3 : ℚ), (5 / 3 : ℚ)) 0
      (fun _ _ _ => rfl) (by norm_num) (by norm_num) 0 0 (by decide) (by decide)⟩

end ClaimsEnergy

/-! ## Every read is in range -/

/-- An in-bounds index passes the bounds check of the element access. -/
theorem checkedGet_inBounds {α : Type} (a : Array2 α) (i j : Int) (h : a.inBounds i j) :
    a.checkedGet i j = some (a.get i j) := by
  have h2 : 0 ≤ i ∧ i < (a.extent0 : Int) ∧ 0 ≤ j ∧ j < (a.extent1 : Int) := by
    unfold Array2.inBounds at h; omega
  simp [Array2.checkedGet, h2]

/-- In-bounds indices of an image are in-bounds indices of a mask of the same
extents. -/
theorem inBounds_of_same_extents {α β : Type} (a : Array2 α) (b : Array2 β)
    (h0 : b.extent0 = a.extent0) (h1 : b.extent1 = a.extent1) (i j : Int)
    (h : a.inBounds i j) : b.inBounds i j := by
  unfold Array2.inBounds at h ⊢
  rw [h0, h1]; exact h

/-- One guarded accumulation of the masked branch never reads out of range
when its guard implies that the index is in bounds. -/
theorem maskedTermChecked_eq {K : Type} [LinearOrderedField K] (source : Array2 K)
    (source_mask : Array2 Bool)
    (h0 : source_mask.extent0 = source.extent0) (h1 : source_mask.extent1 = source.extent1)
    (bounds : Prop) [Decidable bounds] (i j : Int) (hb : bounds ↔ source.inBounds i j)
    (weight : K) (acc : K × Bool) :
    maskedTermChecked source source_mask bounds i j weight acc
      = some (if bounds ∧ source_mask.get i j = true
          then (acc.1 + weight * source.get i j, true) else acc) := by
  unfold maskedTermChecked
  by_cases h : bounds
  · have hin := hb.mp h
    rw [if_pos h, checkedGet_inBounds source_mask i j
      (inBounds_of_same_extents source source_mask h0 h1 i j hin)]
    by_cases hm : source_mask.get i j = true
    · simp [h, hm, checkedGet_inBounds source i j hin]
    · simp [h, hm]
  · simp [h]

section ClaimsReads

variable {K : Type} [LinearOrderedField K] [FloorRing K]

/-- Claim C20. Bounds are checked against the neighbour index actually used:
each of the four guards (the same in both modes, the masked mode adding the
mask bit) holds if and only if the index it then reads lies in
`[0,h] × [0,w]`; hence for every source position the unmasked code with
bounds-checked reads never takes the out-of-range branch, and neither does the
masked code when the source mask has the extents of the source. -/
theorem reads_in_range (source : Array2 K) (source_mask : Array2 Bool)
    (hm0 : source_mask.extent0 = source.extent0) (hm1 : source_mask.extent1 = source.extent1)
    (source_y source_x : K) :
    (∀ oy ox : Int,
      ((ox ≥ 0 ∧ oy ≥ 0 ∧ ox ≤ (source.extent1 : Int) - 1 ∧ oy ≤ (source.extent0 : Int) - 1)
        ↔ source.inBounds oy ox) ∧
      ((ox ≥ -1 ∧ oy ≥ 0 ∧ ox < (source.extent1 : Int) - 1 ∧ oy ≤ (source.extent0 : Int) - 1)
        ↔ source.inBounds oy (ox + 1)) ∧
      ((ox ≥ 0 ∧ oy ≥ -1 ∧ ox ≤ (source.extent1 : Int) - 1 ∧ oy < (source.extent0 : Int) - 1)
        ↔ source.inBounds (oy + 1) ox) ∧
      ((ox ≥ -1 ∧ oy ≥ -1 ∧ ox < (source.extent1 : Int) - 1 ∧ oy < (source.extent0 : Int) - 1)
        ↔ source.inBounds (oy + 1) (ox + 1))) ∧
    interpolateChecked source source_y source_x
      = some (interpolate source source_y source_x) ∧
    interpolateMaskedChecked source source_mask source_y source_x
      = some (interpolateMasked source source_mask source_y source_x) := by
  refine ⟨fun oy ox => ⟨guard_upper_left source oy ox, guard_upper_right source oy ox,
    guard_lower_left source oy ox, guard_lower_right source oy ox⟩, ?_, ?_⟩
  · simp only [interpolateChecked, interpolate, guard_upper_left, guard_upper_right,
      guard_lower_left, guard_lower_right]
    by_cases h1 : source.inBounds ⌊source_y⌋ ⌊source_x⌋ <;>
    by_cases h2 : source.inBounds ⌊source_y⌋ (⌊source_x⌋ + 1) <;>
    by_cases h3 : source.inBounds (⌊source_y⌋ + 1) ⌊source_x⌋ <;>
    by_cases h4 : source.inBounds (⌊source_y⌋ + 1) (⌊source_x⌋ + 1) <;>
    simp [h1, h2, h3, h4, checkedGet_inBounds]
  · simp only [interpolateMaskedChecked, interpolateMasked]
    rw [maskedTermChecked_eq source source_mask hm0 hm1 _ _ _ (guard_upper_left source _ _)]
    simp only [Option.some_bind]
    rw [maskedTermChecked_eq source source_mask hm0 hm1 _ _ _ (guard_upper_right source _ _)]
    simp only [Option.some_bind]
    rw [maskedTermChecked_eq source source_mask hm0 hm1 _ _ _ (guard_lower_left source _ _)]
    simp only [Option.some_bind]
    rw [maskedTermChecked_eq source source_mask hm0 hm1 _ _ _ (guard_lower_right source _ _)]
    simp only [and_assoc]

/-- Evaluation of C20 on the sample image and mask at the source position
`(-1/2, 5/2)`, whose neighbours straddle the upper right corner. -/
theorem reads_in_range_witness :
    sampleMask.extent0 = sampleSource.extent0 ∧ sampleMask.extent1 = sampleSource.extent1 ∧
    interpolateChecked sampleSource (-1 / 2 : ℚ) (5 / 2 : ℚ)
      = some (interpolate sampleSource (-1 / 2 : ℚ) (5 / 2 : ℚ)) ∧
    interpolateMaskedChecked sampleSource sampleMask (-1 / 2 : ℚ) (5 / 2 : ℚ)
      = some (interpolateMasked sampleSource sampleMask (-1 / 2 : ℚ) (5 / 2 : ℚ)) :=
  ⟨by decide, by decide,
    (reads_in_range sampleSource sampleMask (by decide) (by decide) (-1 / 2) (5 / 2)).2.1,
    (reads_in_range sampleSource sampleMask (by decide) (by decide) (-1 / 2) (5 / 2)).2.2⟩

end ClaimsReads

/-! ## The scale factors handed to `transform` -/

section ClaimsFactors

variable {K : Type} [LinearOrderedField K] [FloorRing K]

/-- Claim C15, as amended. For every source and destination whose row and
column extents are all at least `2`, the two divisions of `_get_scale_factor`
have non-zero divisors and the two factors `scale` hands to `transform` are
non-zero (indeed positive). -/
theorem scale_factors_nonzero (m : Libm K) (src dst : Array2 K) (hs0 : 2 ≤ src.extent0)
    (hs1 : 2 ≤ src.extent1) (hd0 : 2 ≤ dst.extent0) (hd1 : 2 ≤ dst.extent1) :
    scale m src dst
      = (transform m false src Array2.emptyMask (0, 0) dst Array2.emptyMask (0, 0)
          (_get_scale_factor src.shape dst.shape) 0).1 ∧
    ((src.shape.1 : K) - 1 ≠ 0 ∧ (src.shape.2 : K) - 1 ≠ 0) ∧
    (0 < (_get_scale_factor src.shape dst.shape : K × K).1 ∧
      0 < (_get_scale_factor src.shape dst.shape : K × K).2) ∧
    ((_get_scale_factor src.shape dst.shape : K × K).1 ≠ 0 ∧
      (_get_scale_factor src.shape dst.shape : K × K).2 ≠ 0) := by
  have a0 : (0 : K) < (src.extent0 : K) - 1 := by
    have : (2 : K) ≤ (src.extent0 : K) := by exact_mod_cast hs0
    linarith
  have a1 : (0 : K) < (src.extent1 : K) - 1 := by
    have : (2 : K) ≤ (src.extent1 : K) := by exact_mod_cast hs1
    linarith
  have b0 : (0 : K) < (dst.extent0 : K) - 1 := by
    have : (2 : K) ≤ (dst.extent0 : K) := by exact_mod_cast hd0
    linarith
  have b1 : (0 : K) < (dst.extent1 : K) - 1 := by
    have : (2 : K) ≤ (dst.extent1 : K) := by exact_mod_cast hd1
    linarith
  have p0 : 0 < (_get_scale_factor src.shape dst.shape : K × K).1 := by
    simp only [_get_scale_factor, Array2.shape, Int.cast_natCast]
    exact div_pos b0 a0
  have p1 : 0 < (_get_scale_factor src.shape dst.shape : K × K).2 := by
    simp only [_get_scale_factor, Array2.shape, Int.cast_natCast]
    exact div_pos b1 a1
  refine ⟨rfl, ⟨?_, ?_⟩, ⟨p0, p1⟩, ⟨ne_of_gt p0, ne_of_gt p1⟩⟩
  · simp only [Array2.shape, Int.cast_natCast]; exact ne_of_gt a0
  · simp only [Array2.shape, Int.cast_natCast]; exact ne_of_gt a1

/-- Evaluation of the amended C15 for the `2 × 3` sample image and a `3 × 5`
buffer. -/
theorem scale_factors_nonzero_witness :
    2 ≤ sampleSource.extent0 ∧ 2 ≤ sampleSource.extent1 ∧
    2 ≤ (blankTarget 3 5).extent0 ∧ 2 ≤ (blankTarget 3 5).extent1 ∧
    ((_get_scale_factor sampleSource.shape (blankTarget 3 5).shape : ℚ × ℚ).1 ≠ 0 ∧
      (_get_scale_factor sampleSource.shape (blankTarget 3 5).shape : ℚ × ℚ).2 ≠ 0) :=
  ⟨by decide, by decide, by decide, by decide,
    (scale_factors_nonzero taylorLibm sampleSource (blankTarget 3 5) (by decide) (by decide)
      (by decide) (by decide)).2.2.2⟩

end ClaimsFactors

/-- Counterexample to C15 as stated. A `2 × 3` source and a `1 × 1` destination
have positive extents, yet `scale` hands the factors `(0, 0)` to `transform`;
and for a `1 × 1` source the divisor of `_get_scale_factor` is `0`. -/
theorem scale_factor_zero_counterexample :
    (0 < sampleSource.extent0 ∧ 0 < sampleSource.extent1 ∧
      0 < (blankTarget 1 1).extent0 ∧ 0 < (blankTarget 1 1).extent1) ∧
    (_get_scale_factor sampleSource.shape (blankTarget 1 1).shape : ℚ × ℚ) = (0, 0) ∧
    scale taylorLibm sampleSource (blankTarget 1 1)
      = (transform taylorLibm false sampleSource Array2.emptyMask (0, 0) (blankTarget 1 1)
          Array2.emptyMask (0, 0) (0, 0) 0).1 ∧
    (((blankTarget 1 1).shape.1 : ℚ) - 1 = 0 ∧ ((blankTarget 1 1).shape.2 : ℚ) - 1 = 0) := by
  have e : (_get_scale_factor sampleSource.shape (blankTarget 1 1).shape : ℚ × ℚ) = (0, 0) := by
    simp [_get_scale_factor, Array2.shape, sampleSource, blankTarget]
  refine ⟨⟨by decide, by decide, by decide, by decide⟩, e, ?_, ?_⟩
  · rw [scale, e]
  · simp [Array2.shape, blankTarget]

/-! ## The largest rectangle in a mask -/

theorem Rect.mem_candidates (height width : Nat) (r : Rect) :
    r ∈ Rect.candidates height width ↔
      r.top + r.height ≤ height ∧ r.left + r.width ≤ width := by
  simp only [Rect.candidates, List.mem_flatMap, List.mem_map, List.mem_reverse, List.mem_range]
  constructor
  · rintro ⟨t, ht, l, hl, h, hh, w, hw, rfl⟩
    simp only
    omega
  · rintro ⟨h1, h2⟩
    exact ⟨r.top, by omega, r.left, by omega, r.height, by omega, r.width, by omega, rfl⟩

theorem Rect.onlyTrue_iff (mask : Array2 Bool) (r : Rect) :
    r.onlyTrue mask = true ↔
      ∀ dy, dy < r.height → ∀ dx, dx < r.width →
        mask.get ((r.top + dy : Nat) : Int) ((r.left + dx : Nat) : Int) = true := by
  simp [Rect.onlyTrue, List.all_eq_true, List.mem_range]

theorem Rect.foldl_larger_mem (l : List Rect) (b : Rect) :
    l.foldl Rect.larger b = b ∨ l.foldl Rect.larger b ∈ l := by
  induction l generalizing b with
  | nil => exact Or.inl rfl
  | cons a l ih =>
    simp only [List.foldl_cons, List.mem_cons]
    rcases ih (Rect.larger b a) with h | h
    · rw [h]
      unfold Rect.larger
      split
      · exact Or.inr (Or.inl rfl)
      · exact Or.inl rfl
    · exact Or.inr (Or.inr h)

theorem Rect.foldl_larger_ge (l : List Rect) (b : Rect) :
    b.area ≤ (l.foldl Rect.larger b).area ∧
      ∀ r ∈ l, r.area ≤ (l.foldl Rect.larger b).area := by
  induction l generalizing b with
  | nil => exact ⟨le_refl _, fun r hr => absurd hr (List.not_mem_nil r)⟩
  | cons a l ih =>
    simp only [List.foldl_cons, List.mem_cons]
    obtain ⟨h1, h2⟩ := ih (Rect.larger b a)
    have hb : b.area ≤ (Rect.larger b a).area ∧ a.area ≤ (Rect.larger b a).area := by
      unfold Rect.larger
      split <;> constructor <;> omega
    refine ⟨le_trans hb.1 h1, ?_⟩
    rintro r (rfl | hr)
    · exact le_trans hb.2 h1
    · exact h2 r hr

theorem Rect.foldl_larger_eq_init (l : List Rect) (b : Rect)
    (h : ∀ r ∈ l, r.area ≤ b.area) : l.foldl Rect.larger b = b := by
  induction l generalizing b with
  | nil => rfl
  | cons a l ih =>
    have ha : Rect.larger b a = b := by
      unfold Rect.larger
      have := h a (List.mem_cons_self a l)
      rw [if_neg (by omega)]
    rw [List.foldl_cons, ha]
    exact ih b (fun r hr => h r (List.mem_cons_of_mem a hr))

/-- The rectangle the search ends with is one of the rectangles found or the
empty rectangle at the origin, and no rectangle found has a larger area. -/
theorem Rect.search_result (found : List Rect) :
    (found.foldl Rect.larger (found.headD { top := 0, left := 0, height := 0, width := 0 })
        ∈ found ∨
      found.foldl Rect.larger (found.headD { top := 0, left := 0, height := 0, width := 0 })
        = { top := 0, left := 0, height := 0, width := 0 }) ∧
    ∀ r ∈ found, r.area ≤
      (found.foldl Rect.larger
        (found.headD { top := 0, left := 0, height := 0, width := 0 })).area := by
  refine ⟨?_, (Rect.foldl_larger_ge found _).2⟩
  rcases Rect.foldl_larger_mem found
      (found.headD { top := 0, left := 0, height := 0, width := 0 }) with h | h
  · rw [h]
    cases found with
    | nil => exact Or.inr rfl
    | cons a l => exact Or.inl (List.mem_cons_self a l)
  · exact Or.inl h

theorem flatMap_head {α β : Type} {l : List α} {f : α → List β} {a : α} {b : β}
    (hl : ∃ t, l = a :: t) (hf : ∃ s, f a = b :: s) : ∃ rest, l.flatMap f = b :: rest := by
  obtain ⟨t, rfl⟩ := hl
  obtain ⟨s, hs⟩ := hf
  exact ⟨s ++ t.flatMap f, by rw [List.flatMap_cons, hs]; rfl⟩

/-- The largest candidate comes first. -/
theorem Rect.candidates_head (height width : Nat) :
    ∃ rest, Rect.candidates height width
      = { top := 0, left := 0, height := height, width := width } :: rest := by
  have hr : ∀ n : Nat, ∃ t, List.range (n + 1) = 0 :: t := fun n =>
    ⟨_, List.range_succ_eq_map n⟩
  have hrev : ∀ n : Nat, ∃ t, (List.range (n - 0 + 1)).reverse = n :: t := fun n =>
    ⟨_, by rw [Nat.sub_zero, List.range_succ, List.reverse_append]; rfl⟩
  unfold Rect.candidates
  refine flatMap_head (hr height) ?_
  refine flatMap_head (hr width) ?_
  refine flatMap_head (hrev height) ?_
  obtain ⟨t, ht⟩ := hrev width
  exact ⟨_, by rw [ht, List.map_cons]⟩

theorem withinMaskBounds_toVector (mask : Array2 Bool) (r : Rect)
    (h : r.top + r.height ≤ mask.extent0 ∧ r.left + r.width ≤ mask.extent1) :
    withinMaskBounds mask r.toVector := by
  simp only [withinMaskBounds, Rect.toVector]
  omega

theorem containsOnlyTrue_toVector (mask : Array2 Bool) (r : Rect)
    (h : r.onlyTrue mask = true) : containsOnlyTrue mask r.toVector := by
  rw [Rect.onlyTrue_iff] at h
  intro y x h1 h2 h3 h4
  simp only [Rect.toVector] at h1 h2 h3 h4
  have := h (y - r.top).toNat (by omega) (x - r.left).toNat (by omega)
  have ey : ((r.top + (y - r.top).toNat : Nat) : Int) = y := by omega
  have ex : ((r.left + (x - r.left).toNat : Nat) : Int) = x := by omega
  rw [ey, ex] at this
  exact this

/-- In a mask that is false everywhere only rectangles of zero area contain
only true values. -/
theorem Rect.area_zero_of_all_false (mask : Array2 Bool)
    (hnone : ∀ y x : Int, mask.inBounds y x → mask.get y x = false) (r : Rect)
    (hb : r.top + r.height ≤ mask.extent0 ∧ r.left + r.width ≤ mask.extent1)
    (ht : r.onlyTrue mask = true) : r.area = 0 := by
  rw [Rect.onlyTrue_iff] at ht
  by_contra hne
  have hpos : 0 < r.height ∧ 0 < r.width := by
    simp only [Rect.area, Nat.mul_eq_zero, not_or] at hne
    omega
  have htrue := ht 0 hpos.1 0 hpos.2
  have hfalse := hnone ((r.top + 0 : Nat) : Int) ((r.left + 0 : Nat) : Int)
    (by unfold Array2.inBounds; omega)
  rw [htrue] at hfalse
  cases hfalse

/-- Claim C18. `maxRectInMask` (modelled from the spec): for every 2D boolean
mask, and so in particular for every mask whose true region is convex, the
returned `(top, left, height, width)` is a rectangle inside the mask bounds
that contains only true values and whose area is maximal among all rectangles
inside the mask bounds containing only true values. -/
theorem maxRectInMask_maximal (mask : Array2 Bool) :
    withinMaskBounds mask (maxRectInMask mask) ∧
    containsOnlyTrue mask (maxRectInMask mask) ∧
    ∀ v : Int × Int × Int × Int, withinMaskBounds mask v → containsOnlyTrue mask v →
      v.2.2.1 * v.2.2.2 ≤ (maxRectInMask mask).2.2.1 * (maxRectInMask mask).2.2.2 := by
  obtain ⟨hmem, hmax⟩ := Rect.search_result
    ((Rect.candidates mask.extent0 mask.extent1).filter (Rect.onlyTrue mask))
  have hgood : withinMaskBounds mask (maxRectInMask mask) ∧
      containsOnlyTrue mask (maxRectInMask mask) := by
    rcases hmem with h | h
    · rw [List.mem_filter, Rect.mem_candidates] at h
      exact ⟨withinMaskBounds_toVector mask _ h.1, containsOnlyTrue_toVector mask _ h.2⟩
    · simp only [maxRectInMask, h]
      constructor
      · simp only [withinMaskBounds, Rect.toVector]; omega
      · intro y x h1 h2 h3 h4
        simp only [Rect.toVector] at h1 h2 h3 h4
        omega
  refine ⟨hgood.1, hgood.2, ?_⟩
  rintro ⟨t, l, h, w⟩ hb ht
  simp only [withinMaskBounds] at hb
  simp only [containsOnlyTrue] at ht
  have hin : ({ top := t.toNat, left := l.toNat, height := h.toNat, width := w.toNat } : Rect)
      ∈ (Rect.candidates mask.extent0 mask.extent1).filter (Rect.onlyTrue mask) := by
    rw [List.mem_filter, Rect.mem_candidates, Rect.onlyTrue_iff]
    refine ⟨by simp only; omega, ?_⟩
    intro dy hdy dx hdx
    simp only at hdy hdx ⊢
    exact ht _ _ (by omega) (by omega) (by omega) (by omega)
  have := hmax _ hin
  simp only [Rect.area] at this
  simp only [maxRectInMask, Rect.toVector]
  have e1 : h = (h.toNat : Int) := by omega
  have e2 : w = (w.toNat : Int) := by omega
  rw [e1, e2]
  exact_mod_cast this

/-- Claim C19. `maxRectInMask` (modelled from the spec), basic cases: for every
`H`-by-`W` mask that is true everywhere the result is exactly `(0, 0, H, W)`,
and for a mask that is false everywhere the result has zero area. -/
theorem maxRectInMask_basic (mask : Array2 Bool) :
    ((∀ y x : Int, mask.inBounds y x → mask.get y x = true) →
      maxRectInMask mask = (0, 0, (mask.extent0 : Int), (mask.extent1 : Int))) ∧
    ((∀ y x : Int, mask.inBounds y x → mask.get y x = false) →
      (maxRectInMask mask).2.2.1 * (maxRectInMask mask).2.2.2 = 0) := by
  constructor
  · intro hall
    obtain ⟨rest, hc⟩ := Rect.candidates_head mask.extent0 mask.extent1
    have hfull : Rect.onlyTrue mask
        { top := 0, left := 0, height := mask.extent0, width := mask.extent1 } = true := by
      rw [Rect.onlyTrue_iff]
      intro dy hdy dx hdx
      simp only at hdy hdx ⊢
      apply hall
      unfold Array2.inBounds
      omega
    have hle : ∀ r ∈ (Rect.candidates mask.extent0 mask.extent1).filter (Rect.onlyTrue mask),
        r.area ≤ ({ top := 0, left := 0, height := mask.extent0, width := mask.extent1 }
          : Rect).area := by
      intro r hr
      rw [List.mem_filter, Rect.mem_candidates] at hr
      simp only [Rect.area]
      exact Nat.mul_le_mul (by omega) (by omega)
    have hhead : ((Rect.candidates mask.extent0 mask.extent1).filter (Rect.onlyTrue mask)).headD
        { top := 0, left := 0, height := 0, width := 0 }
        = { top := 0, left := 0, height := mask.extent0, width := mask.extent1 } := by
      rw [hc, List.filter_cons, if_pos hfull]
      rfl
    simp only [maxRectInMask]
    rw [hhead, Rect.foldl_larger_eq_init _ _ hle]
    simp [Rect.toVector]
  · intro hnone
    obtain ⟨hmem, -⟩ := Rect.search_result
      ((Rect.candidates mask.extent0 mask.extent1).filter (Rect.onlyTrue mask))
    simp only [maxRectInMask, Rect.toVector]
    rcases hmem with h | h
    · rw [List.mem_filter, Rect.mem_candidates] at h
      have := Rect.area_zero_of_all_false mask hnone _ h.1 h.2
      simp only [Rect.area] at this
      exact_mod_cast this
    · rw [h]
      simp

/-- Evaluation of C18 on the sample mask (false in column `0`): the rectangle
`(0, 1, 1, 2)` is inside the bounds and all true, so its area is at most that
of the result. -/
theorem maxRectInMask_maximal_witness :
    withinMaskBounds sampleMask (0, 1, 1, 2) ∧ containsOnlyTrue sampleMask (0, 1, 1, 2) ∧
    withinMaskBounds sampleMask (maxRectInMask sampleMask) ∧
    containsOnlyTrue sampleMask (maxRectInMask sampleMask) ∧
    ((0, 1, 1, 2) : Int × Int × Int × Int).2.2.1 * ((0, 1, 1, 2) : Int × Int × Int × Int).2.2.2
      ≤ (maxRectInMask sampleMask).2.2.1 * (maxRectInMask sampleMask).2.2.2 := by
  have hb : withinMaskBounds sampleMask (0, 1, 1, 2) := by
    simp only [withinMaskBounds, sampleMask]; omega
  have ht : containsOnlyTrue sampleMask (0, 1, 1, 2) := by
    intro y x _ _ h3 _
    simp only [sampleMask, decide_eq_true_eq]
    simp only at h3
    omega
  exact ⟨hb, ht, (maxRectInMask_maximal sampleMask).1, (maxRectInMask_maximal sampleMask).2.1,
    (maxRectInMask_maximal sampleMask).2.2 (0, 1, 1, 2) hb ht⟩

/-- Evaluation of C19: a `10 × 20` mask that is true everywhere gives
`(0, 0, 10, 20)`, a `3 × 3` mask that is false everywhere a rectangle of zero
area. -/
theorem maxRectInMask_basic_witness :
    (∀ y x : Int, (fullMask 10 20).inBounds y x → (fullMask 10 20).get y x = true) ∧
    (∀ y x : Int, (blankMask 3 3).inBounds y x → (blankMask 3 3).get y x = false) ∧
    maxRectInMask (fullMask 10 20) = (0, 0, 10, 20) ∧
    (maxRectInMask (blankMask 3 3)).2.2.1 * (maxRectInMask (blankMask 3 3)).2.2.2 = 0 :=
  ⟨fun _ _ _ => rfl, fun _ _ _ => rfl,
    (maxRectInMask_basic (fullMask 10 20)).1 (fun _ _ _ => rfl),
    (maxRectInMask_basic (blankMask 3 3)).2 (fun _ _ _ => rfl)⟩

/-! ## The Python binding of `scale` -/

theorem shape_of_length_two (l : List Int) (h : l.length = 2) :
    [l.getD 0 0, l.getD 1 0] = l := by
  match l, h with
  | [_, _], _ => rfl

theorem shape_of_length_three (l : List Int) (h : l.length = 3) :
    [l.getD 0 0, l.getD 1 0, l.getD 2 0] = l := by
  match l, h with
  | [_, _, _], _ => rfl

section BindingLemmas

variable {K : Type} [LinearOrderedField K] [FloorRing K]

/-- The function `getScaledShape` keeps the length of the shape and, for a shape of length
`3`, its first entry. -/
theorem getScaledShape_length (src_shape : List Int) (scale_factor : K) :
    (getScaledShape src_shape scale_factor).length = src_shape.length := by
  simp [getScaledShape]

theorem getScaledShape_planes (src_shape : List Int) (scale_factor : K)
    (h : src_shape.length = 3) :
    (getScaledShape src_shape scale_factor).getD 0 0 = src_shape.getD 0 0 := by
  match src_shape, h with
  | [_, _, _], _ => simp [getScaledShape]

/-- The unmasked dispatch on a two-dimensional source of a supported type. -/
theorem scaleDispatch_unmasked_2d (m : Libm K) (src dst : PyBlitzArrayObject K)
    (return_dst : Bool)
    (hty : src.type_num = TypeNum.NPY_UINT8 ∨ src.type_num = TypeNum.NPY_UINT16
      ∨ src.type_num = TypeNum.NPY_FLOAT64) (hnd : src.ndim = 2) :
    scaleDispatch m src none dst none return_dst
      = if return_dst = true
        then PyReturn.returnedArray (dst.written2 (scale m src.asBlitz2 dst.asBlitz2))
        else PyReturn.returnedNone (dst.written2 (scale m src.asBlitz2 dst.asBlitz2)) none := by
  simp [scaleDispatch, scale_inner, hty, hnd]

/-- The unmasked dispatch on a three-dimensional source of a supported type,
when source and destination have the same number of planes. -/
theorem scaleDispatch_unmasked_3d (m : Libm K) (src dst : PyBlitzArrayObject K)
    (return_dst : Bool)
    (hty : src.type_num = TypeNum.NPY_UINT8 ∨ src.type_num = TypeNum.NPY_UINT16
      ∨ src.type_num = TypeNum.NPY_FLOAT64) (hnd : src.ndim = 3)
    (hplanes : src.asBlitz3.extent0 = dst.asBlitz3.extent0) :
    scaleDispatch m src none dst none return_dst
      = if return_dst = true
        then PyReturn.returnedArray (dst.written3 (forLoop dst.asBlitz3.extent0
          (fun d p => d.setSlice p (scale m (src.asBlitz3.slice p) (d.slice p))) dst.asBlitz3))
        else PyReturn.returnedNone (dst.written3 (forLoop dst.asBlitz3.extent0
          (fun d p => d.setSlice p (scale m (src.asBlitz3.slice p) (d.slice p))) dst.asBlitz3))
          none := by
  have hI : (src.asBlitz3.extent0 : Int) = (dst.asBlitz3.extent0 : Int) := by
    exact_mod_cast hplanes
  simp [scaleDispatch, scale_inner, hty, hnd, scale3D, assert_ok hI]

/-- The call `scale(src, scaling_factor)` on a two-dimensional source. -/
theorem scale_factor_call_2d (m : Libm K)
    (PyBlitzArray_SimpleNew : Nat → List Int → PyBlitzArrayObject K)
    (src : PyBlitzArrayObject K) (scaling_factor : K) (hnd : src.ndim = 2)
    (hlen : src.shape.length = 2)
    (hty : src.type_num = TypeNum.NPY_UINT8 ∨ src.type_num = TypeNum.NPY_UINT16
      ∨ src.type_num = TypeNum.NPY_FLOAT64) :
    PyBobIpBase_scale m PyBlitzArray_SimpleNew (ScaleArgs.factor src scaling_factor)
      = PyReturn.returnedArray
          ((PyBlitzArray_SimpleNew 2 (getScaledShape src.shape scaling_factor)).written2
            (scale m src.asBlitz2
              (PyBlitzArray_SimpleNew 2 (getScaledShape src.shape scaling_factor)).asBlitz2)) := by
  simp only [PyBobIpBase_scale, hnd, shape_of_length_two src.shape hlen]
  rw [scaleDispatch_unmasked_2d m src _ true hty hnd]
  simp

/-- The call `scale(src, scaling_factor)` on a three-dimensional source. -/
theorem scale_factor_call_3d (m : Libm K)
    (PyBlitzArray_SimpleNew : Nat → List Int → PyBlitzArrayObject K)
    (src : PyBlitzArrayObject K) (scaling_factor : K) (hnd : src.ndim = 3)
    (hlen : src.shape.length = 3)
    (hty : src.type_num = TypeNum.NPY_UINT8 ∨ src.type_num = TypeNum.NPY_UINT16
      ∨ src.type_num = TypeNum.NPY_FLOAT64)
    (halloc : (PyBlitzArray_SimpleNew 3 (getScaledShape src.shape scaling_factor)).shape
      = getScaledShape src.shape scaling_factor) :
    PyBobIpBase_scale m PyBlitzArray_SimpleNew (ScaleArgs.factor src scaling_factor)
      = PyReturn.returnedArray
          ((PyBlitzArray_SimpleNew 3 (getScaledShape src.shape scaling_factor)).written3
            (forLoop
              (PyBlitzArray_SimpleNew 3 (getScaledShape src.shape scaling_factor)).asBlitz3.extent0
              (fun d p => d.setSlice p (scale m (src.asBlitz3.slice p) (d.slice p)))
              (PyBlitzArray_SimpleNew 3
                (getScaledShape src.shape scaling_factor)).asBlitz3)) := by
  have hplanes : src.asBlitz3.extent0
      = (PyBlitzArray_SimpleNew 3 (getScaledShape src.shape scaling_factor)).asBlitz3.extent0 := by
    simp only [PyBlitzArrayObject.asBlitz3, halloc,
      getScaledShape_planes src.shape scaling_factor hlen]
  simp only [PyBobIpBase_scale, hnd, shape_of_length_three src.shape hlen]
  simp only [show ¬ ((3 : Nat) = 2) by decide, if_false]
  rw [scaleDispatch_unmasked_3d m src _ true hty hnd hplanes]
  simp

/-- The call `scale(src, dst)` on two-dimensional arrays. -/
theorem scale_pair_call_2d (m : Libm K)
    (PyBlitzArray_SimpleNew : Nat → List Int → PyBlitzArrayObject K)
    (src dst : PyBlitzArrayObject K) (hnd : src.ndim = 2)
    (hty : src.type_num = TypeNum.NPY_UINT8 ∨ src.type_num = TypeNum.NPY_UINT16
      ∨ src.type_num = TypeNum.NPY_FLOAT64)
    (hdn : dst.ndim = src.ndim) (hdt : dst.type_num = TypeNum.NPY_FLOAT64) :
    PyBobIpBase_scale m PyBlitzArray_SimpleNew (ScaleArgs.pair src dst)
      = PyReturn.returnedNone (dst.written2 (scale m src.asBlitz2 dst.asBlitz2)) none := by
  simp only [PyBobIpBase_scale, hdn, hdt]
  rw [scaleDispatch_unmasked_2d m src _ false hty hnd]
  simp [hnd]

/-- The call `scale(src, dst)` on three-dimensional arrays with the same number
of planes. -/
theorem scale_pair_call_3d (m : Libm K)
    (PyBlitzArray_SimpleNew : Nat → List Int → PyBlitzArrayObject K)
    (src dst : PyBlitzArrayObject K) (hnd : src.ndim = 3)
    (hty : src.type_num = TypeNum.NPY_UINT8 ∨ src.type_num = TypeNum.NPY_UINT16
      ∨ src.type_num = TypeNum.NPY_FLOAT64)
    (hdn : dst.ndim = src.ndim) (hdt : dst.type_num = TypeNum.NPY_FLOAT64)
    (hplanes : src.asBlitz3.extent0 = dst.asBlitz3.extent0) :
    PyBobIpBase_scale m PyBlitzArray_SimpleNew (ScaleArgs.pair src dst)
      = PyReturn.returnedNone (dst.written3 (forLoop dst.asBlitz3.extent0
          (fun d p => d.setSlice p (scale m (src.asBlitz3.slice p) (d.slice p))) dst.asBlitz3))
          none := by
  simp only [PyBobIpBase_scale, hdn, hdt]
  rw [scaleDispatch_unmasked_3d m src _ false hty hnd hplanes]
  simp [hnd]

end BindingLemmas

section ClaimsBinding

variable {K : Type} [LinearOrderedField K] [FloorRing K]

/-- Claim C17. Shape round-trip: for every 2D or 3D source of a supported
element type and every scale factor, the call `scale(src, scaling_factor)`
returns a destination whose shape is `getScaledShape(src.shape,
scaling_factor)` (the allocator returning an array of the shape it is asked
for), and `scale(src, dst)` into any `float64` buffer of that shape raises no
error; for 3D arrays the predicted shape keeps the plane count, so the
plane-count check of the 3D `scale` passes. -/
theorem scale_shape_round_trip (m : Libm K)
    (PyBlitzArray_SimpleNew : Nat → List Int → PyBlitzArrayObject K)
    (src : PyBlitzArrayObject K) (scaling_factor : K)
    (hnd : src.ndim = 2 ∨ src.ndim = 3) (hlen : src.shape.length = src.ndim)
    (hty : src.type_num = TypeNum.NPY_UINT8 ∨ src.type_num = TypeNum.NPY_UINT16
      ∨ src.type_num = TypeNum.NPY_FLOAT64)
    (halloc : (PyBlitzArray_SimpleNew src.ndim (getScaledShape src.shape scaling_factor)).shape
      = getScaledShape src.shape scaling_factor) :
    (∃ d, PyBobIpBase_scale m PyBlitzArray_SimpleNew (ScaleArgs.factor src scaling_factor)
        = PyReturn.returnedArray d ∧ d.shape = getScaledShape src.shape scaling_factor) ∧
    (∀ dst : PyBlitzArrayObject K, dst.ndim = src.ndim → dst.type_num = TypeNum.NPY_FLOAT64 →
      dst.shape = getScaledShape src.shape scaling_factor →
      ∃ d, PyBobIpBase_scale m PyBlitzArray_SimpleNew (ScaleArgs.pair src dst)
        = PyReturn.returnedNone d none ∧ d.shape = getScaledShape src.shape scaling_factor) ∧
    (src.ndim = 3 → ∀ dst : PyBlitzArrayObject K,
      dst.shape = getScaledShape src.shape scaling_factor →
      (scale3D m src.asBlitz3 dst.asBlitz3).failed = false) := by
  have hplanes : src.ndim = 3 → ∀ dst : PyBlitzArrayObject K,
      dst.shape = getScaledShape src.shape scaling_factor →
      src.asBlitz3.extent0 = dst.asBlitz3.extent0 := by
    intro h3 dst hd
    simp only [PyBlitzArrayObject.asBlitz3, hd,
      getScaledShape_planes src.shape scaling_factor (hlen.trans h3)]
  refine ⟨?_, ?_, ?_⟩
  · rcases hnd with h2 | h3
    · rw [h2] at hlen
      exact ⟨_, scale_factor_call_2d m PyBlitzArray_SimpleNew src scaling_factor h2 hlen hty,
        by rw [h2] at halloc; simp only [PyBlitzArrayObject.written2, halloc]⟩
    · rw [h3] at hlen halloc
      exact ⟨_, scale_factor_call_3d m PyBlitzArray_SimpleNew src scaling_factor h3 hlen hty
        halloc, by simp only [PyBlitzArrayObject.written3, halloc]⟩
  · intro dst hdn hdt hds
    rcases hnd with h2 | h3
    · exact ⟨_, scale_pair_call_2d m PyBlitzArray_SimpleNew src dst h2 hty hdn hdt,
        by simp only [PyBlitzArrayObject.written2, hds]⟩
    · exact ⟨_, scale_pair_call_3d m PyBlitzArray_SimpleNew src dst h3 hty hdn hdt
        (hplanes h3 dst hds), by simp only [PyBlitzArrayObject.written3, hds]⟩
  · intro h3 dst hds
    have hI : (src.asBlitz3.extent0 : Int) = (dst.asBlitz3.extent0 : Int) := by
      exact_mod_cast hplanes h3 dst hds
    simp [scale3D, assert_ok hI, Outcome.failed]

end ClaimsBinding

section ClaimsFactorCall

variable {K : Type} [LinearOrderedField K] [FloorRing K]

end ClaimsFactorCall

/-! ## The binding on concrete arrays -/

theorem getScaledShape_sample : getScaledShape [2, 3] (3 / 2 : ℚ) = [3, 5] := by
  have h1 : ⌊((2 : Int) : ℚ) * (3 / 2) + 1 / 2⌋ = 3 := by
    rw [Int.floor_eq_iff]; norm_num
  have h2 : ⌊((3 : Int) : ℚ) * (3 / 2) + 1 / 2⌋ = 5 := by
    rw [Int.floor_eq_iff]; norm_num
  simp only [getScaledShape, List.length_cons, List.length_nil, Nat.reduceAdd, Nat.reduceSub,
    List.getD_cons_succ, List.getD_cons_zero, List.set_cons_succ, List.set_cons_zero, h1, h2]

/-- Evaluation of C17 on the `2 × 3` sample image with the factor `3/2`: the
call with the factor returns a `3 × 5` array, and the call into a `3 × 5`
buffer returns `None`. -/
theorem scale_shape_round_trip_witness :
    (sampleImage.ndim = 2 ∨ sampleImage.ndim = 3) ∧
    sampleImage.shape.length = sampleImage.ndim ∧
    (sampleImage.type_num = TypeNum.NPY_UINT8 ∨ sampleImage.type_num = TypeNum.NPY_UINT16
      ∨ sampleImage.type_num = TypeNum.NPY_FLOAT64) ∧
    (zeroAlloc sampleImage.ndim (getScaledShape sampleImage.shape (3 / 2 : ℚ))).shape
      = getScaledShape sampleImage.shape (3 / 2 : ℚ) ∧
    (∃ d, PyBobIpBase_scale taylorLibm zeroAlloc (ScaleArgs.factor sampleImage (3 / 2))
        = PyReturn.returnedArray d ∧ d.shape = getScaledShape sampleImage.shape (3 / 2 : ℚ)) ∧
    (zeroAlloc 2 [3, 5]).ndim = sampleImage.ndim ∧
    (zeroAlloc 2 [3, 5]).type_num = TypeNum.NPY_FLOAT64 ∧
    (zeroAlloc 2 [3, 5]).shape = getScaledShape sampleImage.shape (3 / 2 : ℚ) ∧
    (∃ d, PyBobIpBase_scale taylorLibm zeroAlloc
        (ScaleArgs.pair sampleImage (zeroAlloc 2 [3, 5]))
        = PyReturn.returnedNone d none ∧
        d.shape = getScaledShape sampleImage.shape (3 / 2 : ℚ)) :=
  ⟨Or.inl rfl, rfl, Or.inr (Or.inr rfl), rfl,
    (scale_shape_round_trip taylorLibm zeroAlloc sampleImage (3 / 2) (Or.inl rfl) rfl
      (Or.inr (Or.inr rfl)) rfl).1,
    rfl, rfl, getScaledShape_sample.symm,
    (scale_shape_round_trip taylorLibm zeroAlloc sampleImage (3 / 2) (Or.inl rfl) rfl
      (Or.inr (Or.inr rfl)) rfl).2.1 (zeroAlloc 2 [3, 5]) rfl rfl getScaledShape_sample.symm⟩

/-- Evaluation for C14. `scale(src, src_mask, dst, dst_mask)` with a `2 × 3`
image and a `1 × 1` source mask passes every check of the binding and returns
`None` after resampling; at target pixel `(0, 1)` the transform is at source
position `(0, 1)`, where the bounds-checked masked code reads the mask out of
range.  Likewise the 3D masked `scale` does not throw for a `2 × 1 × 1` mask on
a `2 × 2 × 3` image: only the plane counts are compared. -/
theorem scale_mask_extents_unchecked :
    (trueMask 1 1).shape ≠ sampleImage.shape ∧
    (∃ d dm, PyBobIpBase_scale taylorLibm zeroAlloc
        (ScaleArgs.masked sampleImage (trueMask 1 1) (zeroAlloc 2 [2, 3]) (trueMask 2 3))
        = PyReturn.returnedNone d dm) ∧
    ((cursor taylorLibm true sampleImage.asBlitz2 (trueMask 1 1).asBlitz2 (0, 0)
          (zeroAlloc 2 [2, 3]).asBlitz2 (trueMask 2 3).asBlitz2 (0, 0)
          (_get_scale_factor sampleImage.asBlitz2.shape (zeroAlloc 2 [2, 3]).asBlitz2.shape)
          0 0 1).source_y,
     (cursor taylorLibm true sampleImage.asBlitz2 (trueMask 1 1).asBlitz2 (0, 0)
          (zeroAlloc 2 [2, 3]).asBlitz2 (trueMask 2 3).asBlitz2 (0, 0)
          (_get_scale_factor sampleImage.asBlitz2.shape (zeroAlloc 2 [2, 3]).asBlitz2.shape)
          0 0 1).source_x) = ((0 : ℚ), (1 : ℚ)) ∧
    interpolateMaskedChecked sampleImage.asBlitz2 (trueMask 1 1).asBlitz2 (0 : ℚ) (1 : ℚ)
      = none ∧
    (scale3DMasked taylorLibm sampleSource3 smallMask3 (blankTarget3 2 3 3)
      (blankMask3 2 3 3)).failed = false := by
  refine ⟨by decide, ?_, ?_, ?_, ?_⟩
  · simp [PyBobIpBase_scale, scaleDispatch, scale_inner, sampleImage, trueMask, zeroAlloc]
  · rw [cursor_source, steps_scale taylorLibm (by norm_num [taylorLibm])
      (by norm_num [taylorLibm])]
    simp only [sourceCoordinate, Array2.shape, PyBlitzArrayObject.asBlitz2, sampleImage,
      zeroAlloc]
    norm_num
  · simp only [interpolateMaskedChecked, maskedTermChecked, Array2.checkedGet,
      PyBlitzArrayObject.asBlitz2, sampleImage, trueMask, Int.floor_zero, Int.floor_one]
    norm_num
  · have h1 : ((sampleSource3.extent0 : Nat) : Int) = ((blankTarget3 2 3 3).extent0 : Int) := rfl
    have h2 : ((sampleSource3.extent0 : Nat) : Int) = (smallMask3.extent0 : Int) := rfl
    have h3 : ((smallMask3.extent0 : Nat) : Int) = ((blankMask3 2 3 3).extent0 : Int) := rfl
    rw [scale3DMasked, assert_ok h1, assert_ok h2, assert_ok h3]
    rfl


/-! ## The incremental stepping is an affine map -/

section ClaimsStepping

variable {K : Type} [LinearOrderedField K] [FloorRing K]

/-- Claim C21. The incremental stepping computes an affine map: in either mode,
the source position held by the running variables when destination pixel
`(y,x)` is interpolated is `origin + y*(row_dy,row_dx) + x*(col_dy,col_dx)`,
where `col_dy = -sin'/s_y`, `col_dx = cos'/s_x`, `row_dy = cos'/s_y`,
`row_dx = sin'/s_x`, `sin' = -sin(angle)` and `cos' = cos(angle)` (the angle
converted to radians). -/
theorem stepping_is_affine (m : Libm K) (mask : Bool) (source : Array2 K)
    (source_mask : Array2 Bool) (source_center : K × K) (target : Array2 K)
    (target_mask : Array2 Bool) (target_center scaling_factor : K × K) (rotation_angle : K)
    (y x : Nat) (_hy : y < target.extent0) (_hx : x < target.extent1) :
    ((cursor m mask source source_mask source_center target target_mask target_center
        scaling_factor rotation_angle y x).source_y
      = (steps m source_center target_center scaling_factor rotation_angle).origin_y
        + (y : K) * (steps m source_center target_center scaling_factor rotation_angle).row_dy
        + (x : K) * (steps m source_center target_center scaling_factor rotation_angle).col_dy ∧
     (cursor m mask source source_mask source_center target target_mask target_center
        scaling_factor rotation_angle y x).source_x
      = (steps m source_center target_center scaling_factor rotation_angle).origin_x
        + (y : K) * (steps m source_center target_center scaling_factor rotation_angle).row_dx
        + (x : K) * (steps m source_center target_center scaling_factor rotation_angle).col_dx) ∧
    ((steps m source_center target_center scaling_factor rotation_angle).col_dy
        = -(-m.sin (rotation_angle * m.M_PI / 180)) / scaling_factor.1 ∧
     (steps m source_center target_center scaling_factor rotation_angle).col_dx
        = m.cos (rotation_angle * m.M_PI / 180) / scaling_factor.2 ∧
     (steps m source_center target_center scaling_factor rotation_angle).row_dy
        = m.cos (rotation_angle * m.M_PI / 180) / scaling_factor.1 ∧
     (steps m source_center target_center scaling_factor rotation_angle).row_dx
        = -m.sin (rotation_angle * m.M_PI / 180) / scaling_factor.2) := by
  have h := cursor_source m mask source source_mask source_center target target_mask
    target_center scaling_factor rotation_angle y x
  simp only [sourceCoordinate, Prod.mk.injEq] at h
  exact ⟨h, rfl, rfl, rfl, rfl⟩

/-- Evaluation of C21 for the sample image, a `3 × 5` buffer, factors `(2, 3)`,
angle `30` and pixel `(2, 4)`. -/
theorem stepping_is_affine_witness :
    2 < (blankTarget 3 5).extent0 ∧ 4 < (blankTarget 3 5).extent1 ∧
    (cursor taylorLibm false sampleSource Array2.emptyMask ((1 / 2 : ℚ), (1 : ℚ))
        (blankTarget 3 5) Array2.emptyMask ((1 : ℚ), (2 : ℚ)) ((2 : ℚ), (3 : ℚ)) 30 2 4).source_y
      = (steps taylorLibm ((1 / 2 : ℚ), (1 : ℚ)) ((1 : ℚ), (2 : ℚ)) ((2 : ℚ), (3 : ℚ))
            30).origin_y
        + ((2 : Nat) : ℚ) * (steps taylorLibm ((1 / 2 : ℚ), (1 : ℚ)) ((1 : ℚ), (2 : ℚ))
            ((2 : ℚ), (3 : ℚ)) 30).row_dy
        + ((4 : Nat) : ℚ) * (steps taylorLibm ((1 / 2 : ℚ), (1 : ℚ)) ((1 : ℚ), (2 : ℚ))
            ((2 : ℚ), (3 : ℚ)) 30).col_dy :=
  ⟨by decide, by decide,
    (stepping_is_affine taylorLibm false sampleSource Array2.emptyMask ((1 / 2 : ℚ), (1 : ℚ))
      (blankTarget 3 5) Array2.emptyMask ((1 : ℚ), (2 : ℚ)) ((2 : ℚ), (3 : ℚ)) 30 2 4
      (by decide) (by decide)).1.1⟩

end ClaimsStepping

/-! ## No division by zero in `scale` -/

/-- For extents of at least `2` both divisors of `_get_scale_factor` and both
of its results are positive. -/
theorem get_scale_factor_pos {K : Type} [LinearOrderedField K] (s0 s1 d0 d1 : Nat)
    (hs0 : 2 ≤ s0) (hs1 : 2 ≤ s1) (hd0 : 2 ≤ d0) (hd1 : 2 ≤ d1) :
    (0 < (((s0 : Int) : K) - 1) ∧ 0 < (((s1 : Int) : K) - 1)) ∧
    0 < (_get_scale_factor ((s0 : Int), (s1 : Int)) ((d0 : Int), (d1 : Int)) : K × K).1 ∧
    0 < (_get_scale_factor ((s0 : Int), (s1 : Int)) ((d0 : Int), (d1 : Int)) : K × K).2 := by
  have c : ∀ n : Nat, 2 ≤ n → (0 : K) < ((n : Int) : K) - 1 := by
    intro n hn
    have : (2 : K) ≤ ((n : Int) : K) := by exact_mod_cast hn
    linarith
  exact ⟨⟨c s0 hs0, c s1 hs1⟩, div_pos (c d0 hd0) (c s0 hs0), div_pos (c d1 hd1) (c s1 hs1)⟩

section ClaimsDivision

variable {K : Type} [LinearOrderedField K] [FloorRing K]

/-- Claim C26. No division by zero under the extent precondition: for every
source and destination whose row and column extents are all at least `2`,
`_get_scale_factor` divides by non-zero numbers and returns two strictly
positive factors; these are the scale factors `scale` (unmasked and masked)
passes to `transform`, so every division by `scaling_factor[0]` or
`scaling_factor[1]` in `transform` has a non-zero divisor. -/
theorem scale_divisions_defined (m : Libm K) (src dst : Array2 K) (src_mask dst_mask : Array2 Bool)
    (hs0 : 2 ≤ src.extent0) (hs1 : 2 ≤ src.extent1) (hd0 : 2 ≤ dst.extent0)
    (hd1 : 2 ≤ dst.extent1) :
    ((src.shape.1 : K) - 1 ≠ 0 ∧ (src.shape.2 : K) - 1 ≠ 0) ∧
    (0 < (_get_scale_factor src.shape dst.shape : K × K).1 ∧
      0 < (_get_scale_factor src.shape dst.shape : K × K).2) ∧
    (∃ scaling_factor : K × K, scaling_factor.1 ≠ 0 ∧ scaling_factor.2 ≠ 0 ∧
      scale m src dst
        = (transform m false src Array2.emptyMask (0, 0) dst Array2.emptyMask (0, 0)
            scaling_factor 0).1 ∧
      scaleMasked m src src_mask dst dst_mask
        = transform m true src src_mask (0, 0) dst dst_mask (0, 0) scaling_factor 0) := by
  obtain ⟨⟨a0, a1⟩, p0, p1⟩ := get_scale_factor_pos (K := K) src.extent0 src.extent1
    dst.extent0 dst.extent1 hs0 hs1 hd0 hd1
  exact ⟨⟨ne_of_gt a0, ne_of_gt a1⟩, ⟨p0, p1⟩,
    ⟨_get_scale_factor src.shape dst.shape, ne_of_gt p0, ne_of_gt p1, rfl, rfl⟩⟩

/-- Evaluation of C26 for the `2 × 3` sample image and a `3 × 5` buffer. -/
theorem scale_divisions_defined_witness :
    2 ≤ sampleSource.extent0 ∧ 2 ≤ sampleSource.extent1 ∧
    2 ≤ (blankTarget 3 5).extent0 ∧ 2 ≤ (blankTarget 3 5).extent1 ∧
    (0 < (_get_scale_factor sampleSource.shape (blankTarget 3 5).shape : ℚ × ℚ).1 ∧
      0 < (_get_scale_factor sampleSource.shape (blankTarget 3 5).shape : ℚ × ℚ).2) :=
  ⟨by decide, by decide, by decide, by decide,
    (scale_divisions_defined taylorLibm sampleSource (blankTarget 3 5) sampleMask
      (blankMask 3 5) (by decide) (by decide) (by decide) (by decide)).2.1⟩

end ClaimsDivision

/-! ## The two origin formulas -/

/-- Claim C27. The shipped origin formula and the commented-out alternate
formula give the same origin whenever a single scale is used
(`scale_y = scale_x`) or there is no rotation (the sine of the angle is `0`),
for every source center and destination center. -/
theorem origin_formulas_agree {K : Type} [LinearOrderedField K] (m : Libm K)
    (source_center target_center scaling_factor : K × K) (rotation_angle : K)
    (h : scaling_factor.1 = scaling_factor.2 ∨ m.sin (rotation_angle * m.M_PI / 180) = 0) :
    ((steps m source_center target_center scaling_factor rotation_angle).origin_y,
      (steps m source_center target_center scaling_factor rotation_angle).origin_x)
      = alternateOrigin m source_center target_center scaling_factor rotation_angle := by
  simp only [steps, alternateOrigin]
  rcases h with h | h
  · rw [h]
    apply Prod.ext <;> simp only <;> ring
  · rw [h]
    apply Prod.ext <;> simp only <;> ring

/-- Evaluation of C27 with the single scale `2`, angle `30` and centers
`(1/2, 1)` and `(1, 2)`. -/
theorem origin_formulas_agree_witness :
    (((2 : ℚ), (2 : ℚ)).1 = ((2 : ℚ), (2 : ℚ)).2
      ∨ taylorLibm.sin (30 * taylorLibm.M_PI / 180) = 0) ∧
    ((steps taylorLibm ((1 / 2 : ℚ), (1 : ℚ)) ((1 : ℚ), (2 : ℚ)) ((2 : ℚ), (2 : ℚ)) 30).origin_y,
      (steps taylorLibm ((1 / 2 : ℚ), (1 : ℚ)) ((1 : ℚ), (2 : ℚ)) ((2 : ℚ), (2 : ℚ))
        30).origin_x)
      = alternateOrigin taylorLibm ((1 / 2 : ℚ), (1 : ℚ)) ((1 : ℚ), (2 : ℚ))
          ((2 : ℚ), (2 : ℚ)) 30 :=
  ⟨Or.inl rfl,
    origin_formulas_agree taylorLibm ((1 / 2 : ℚ), (1 : ℚ)) ((1 : ℚ), (2 : ℚ))
      ((2 : ℚ), (2 : ℚ)) 30 (Or.inl rfl)⟩

/-! ## The whole output is overwritten -/

section ClaimsFrame

variable {K : Type} [LinearOrderedField K] [FloorRing K]

/-- Claim C28. The resampler `transform` overwrites its whole output: started
on two destination buffers (and two destination masks) of the same extents
but arbitrary initial contents, it leaves the same value at every destination
pixel and, in masked mode, the same bit at every destination-mask pixel, and
the extents of the results agree; so the result depends only on the source,
the source mask, the parameters and the destination extents. -/
theorem transform_overwrites_output (m : Libm K) (mask : Bool) (source : Array2 K)
    (source_mask : Array2 Bool) (source_center : K × K) (target target2 : Array2 K)
    (target_mask target_mask2 : Array2 Bool) (target_center scaling_factor : K × K)
    (rotation_angle : K)
    (h0 : target2.extent0 = target.extent0) (h1 : target2.extent1 = target.extent1)
    (hm0 : target_mask2.extent0 = target_mask.extent0)
    (hm1 : target_mask2.extent1 = target_mask.extent1) :
    (∀ y x : Nat, y < target.extent0 → x < target.extent1 →
      (transform m mask source source_mask source_center target target_mask target_center
          scaling_factor rotation_angle).1.get y x
        = (transform m mask source source_mask source_center target2 target_mask2
          target_center scaling_factor rotation_angle).1.get y x) ∧
    (mask = true → ∀ y x : Nat, y < target.extent0 → x < target.extent1 →
      (transform m mask source source_mask source_center target target_mask target_center
          scaling_factor rotation_angle).2.get y x
        = (transform m mask source source_mask source_center target2 target_mask2
          target_center scaling_factor rotation_angle).2.get y x) ∧
    ((transform m mask source source_mask source_center target target_mask target_center
          scaling_factor rotation_angle).1.shape
        = (transform m mask source source_mask source_center target2 target_mask2
          target_center scaling_factor rotation_angle).1.shape ∧
     (transform m mask source source_mask source_center target target_mask target_center
          scaling_factor rotation_angle).2.shape
        = (transform m mask source source_mask source_center target2 target_mask2
          target_center scaling_factor rotation_angle).2.shape) := by
  refine ⟨?_, ?_, ?_⟩
  · intro y x hy hx
    rw [transform_get m mask source source_mask source_center target target_mask target_center
        scaling_factor rotation_angle y x hy hx,
      transform_get m mask source source_mask source_center target2 target_mask2 target_center
        scaling_factor rotation_angle y x (h0 ▸ hy) (h1 ▸ hx)]
  · intro hmask y x hy hx
    subst hmask
    rw [transform_mask_get m source source_mask source_center target target_mask target_center
        scaling_factor rotation_angle y x hy hx,
      transform_mask_get m source source_mask source_center target2 target_mask2 target_center
        scaling_factor rotation_angle y x (h0 ▸ hy) (h1 ▸ hx)]
  · obtain ⟨⟨a0, a1⟩, b0, b1⟩ := transform_extents m mask source source_mask source_center
      target target_mask target_center scaling_factor rotation_angle
    obtain ⟨⟨c0, c1⟩, d0, d1⟩ := transform_extents m mask source source_mask source_center
      target2 target_mask2 target_center scaling_factor rotation_angle
    simp only [Array2.shape, a0, a1, b0, b1, c0, c1, d0, d1, h0, h1, hm0, hm1, and_self]

/-- Evaluation of C28: masked resampling of the sample image into a blank
`3 × 5` buffer and into one filled with ones gives the same value and the same
mask bit at pixel `(2, 4)`. -/
theorem transform_overwrites_output_witness :
    (allOnes 3 5).extent0 = (blankTarget 3 5).extent0 ∧
    (allOnes 3 5).extent1 = (blankTarget 3 5).extent1 ∧
    (fullMask 3 5).extent0 = (blankMask 3 5).extent0 ∧
    (fullMask 3 5).extent1 = (blankMask 3 5).extent1 ∧
    (transform taylorLibm true sampleSource sampleMask ((1 / 2 : ℚ), (1 : ℚ)) (blankTarget 3 5)
        (blankMask 3 5) ((1 : ℚ), (2 : ℚ)) ((2 : ℚ), (3 : ℚ)) 30).1.get (2 : Nat) (4 : Nat)
      = (transform taylorLibm true sampleSource sampleMask ((1 / 2 : ℚ), (1 : ℚ)) (allOnes 3 5)
        (fullMask 3 5) ((1 : ℚ), (2 : ℚ)) ((2 : ℚ), (3 : ℚ)) 30).1.get (2 : Nat) (4 : Nat) ∧
    (transform taylorLibm true sampleSource sampleMask ((1 / 2 : ℚ), (1 : ℚ)) (blankTarget 3 5)
        (blankMask 3 5) ((1 : ℚ), (2 : ℚ)) ((2 : ℚ), (3 : ℚ)) 30).2.get (2 : Nat) (4 : Nat)
      = (transform taylorLibm true sampleSource sampleMask ((1 / 2 : ℚ), (1 : ℚ)) (allOnes 3 5)
        (fullMask 3 5) ((1 : ℚ), (2 : ℚ)) ((2 : ℚ), (3 : ℚ)) 30).2.get (2 : Nat) (4 : Nat) :=
  ⟨rfl, rfl, rfl, rfl,
    (transform_overwrites_output taylorLibm true sampleSource sampleMask ((1 / 2 : ℚ), (1 : ℚ))
      (blankTarget 3 5) (allOnes 3 5) (blankMask 3 5) (fullMask 3 5) ((1 : ℚ), (2 : ℚ))
      ((2 : ℚ), (3 : ℚ)) 30 rfl rfl rfl rfl).1 2 4 (by decide) (by decide),
    (transform_overwrites_output taylorLibm true sampleSource sampleMask ((1 / 2 : ℚ), (1 : ℚ))
      (blankTarget 3 5) (allOnes 3 5) (blankMask 3 5) (fullMask 3 5) ((1 : ℚ), (2 : ℚ))
      ((2 : ℚ), (3 : ℚ)) 30 rfl rfl rfl rfl).2.1 rfl 2 4 (by decide) (by decide)⟩

end ClaimsFrame

/-! ## Masked mode refines unmasked mode -/

section ClaimsRefinement

variable {K : Type} [LinearOrderedField K] [FloorRing K]

/-- Under a source mask that is true at every in-bounds index, the valid
neighbours are the in-bounds ones. -/
theorem validNeighbour_of_all_true {α : Type} (source : Array2 α) (source_mask : Array2 Bool)
    (hall : ∀ i j, source.inBounds i j → source_mask.get i j = true) (i j : Int) :
    validNeighbour source source_mask i j ↔ source.inBounds i j :=
  ⟨fun h => h.1, fun h => ⟨h, hall i j h⟩⟩

/-- Under an all-true source mask the masked accumulation returns the
unmasked value, and its flag says whether some neighbour is in-bounds. -/
theorem interpolateMasked_all_true (source : Array2 K) (source_mask : Array2 Bool)
    (hall : ∀ i j, source.inBounds i j → source_mask.get i j = true) (source_y source_x : K) :
    (interpolateMasked source source_mask source_y source_x).1
        = interpolate source source_y source_x ∧
    ((interpolateMasked source source_mask source_y source_x).2 = true ↔
      ∃ n ∈ neighbours source_y source_x, source.inBounds n.1.1 n.1.2) := by
  constructor
  · rw [interpolateMasked_fst, interpolate_eq_bilinearSum]
    simp only [maskedBilinearSum, bilinearSum, validNeighbour_of_all_true source source_mask hall]
  · rw [interpolateMasked_snd]
    simp only [validNeighbour_of_all_true source source_mask hall]

/-- Claim C23. Masked mode refines unmasked mode: for every source and
parameter set, the masked `transform` run with a source mask of the source's
extents that is true everywhere writes the same destination values as the
unmasked `transform`, and the bit it writes to the destination mask at pixel
`(y,x)` is true exactly when at least one of the four neighbours of the
source position of `(y,x)` is in-bounds. -/
theorem masked_refines_unmasked (m : Libm K) (source : Array2 K)
    (source_mask : Array2 Bool) (source_center : K × K) (target : Array2 K)
    (target_mask : Array2 Bool) (target_center scaling_factor : K × K) (rotation_angle : K)
    (unused_mask unused_target_mask : Array2 Bool)
    (_hm0 : source_mask.extent0 = source.extent0) (_hm1 : source_mask.extent1 = source.extent1)
    (hall : ∀ i j, source.inBounds i j → source_mask.get i j = true)
    (y x : Nat) (hy : y < target.extent0) (hx : x < target.extent1) :
    (transform m true source source_mask source_center target target_mask target_center
        scaling_factor rotation_angle).1.get y x
      = (transform m false source unused_mask source_center target unused_target_mask
          target_center scaling_factor rotation_angle).1.get y x ∧
    ((transform m true source source_mask source_center target target_mask target_center
        scaling_factor rotation_angle).2.get y x = true ↔
      ∃ n ∈ neighbours
          (cursor m true source source_mask source_center target target_mask target_center
            scaling_factor rotation_angle y x).source_y
          (cursor m true source source_mask source_center target target_mask target_center
            scaling_factor rotation_angle y x).source_x,
        source.inBounds n.1.1 n.1.2) := by
  have hc := cursor_source m true source source_mask source_center target target_mask
    target_center scaling_factor rotation_angle y x
  have hcy : (cursor m true source source_mask source_center target target_mask target_center
      scaling_factor rotation_angle y x).source_y
      = (sourceCoordinate (steps m source_center target_center scaling_factor rotation_angle)
          y x).1 := congrArg Prod.fst hc
  have hcx : (cursor m true source source_mask source_center target target_mask target_center
      scaling_factor rotation_angle y x).source_x
      = (sourceCoordinate (steps m source_center target_center scaling_factor rotation_angle)
          y x).2 := congrArg Prod.snd hc
  rw [hcy, hcx, transform_get _ _ _ _ _ _ _ _ _ _ _ _ hy hx,
    transform_get _ _ _ _ _ _ _ _ _ _ _ _ hy hx, transform_mask_get _ _ _ _ _ _ _ _ _ _ _ hy hx]
  simp only [pixelValue, if_true, Bool.false_eq_true, if_false]
  exact interpolateMasked_all_true source source_mask hall _ _

/-- Evaluation of C23 for the `2 × 3` sample image under the all-true `2 × 3`
mask, resampled into a `3 × 5` buffer, at pixel `(2, 4)`. -/
theorem masked_refines_unmasked_witness :
    (fullMask 2 3).extent0 = sampleSource.extent0 ∧
    (fullMask 2 3).extent1 = sampleSource.extent1 ∧
    (∀ i j, sampleSource.inBounds i j → (fullMask 2 3).get i j = true) ∧
    2 < (blankTarget 3 5).extent0 ∧ 4 < (blankTarget 3 5).extent1 ∧
    (transform taylorLibm true sampleSource (fullMask 2 3) ((1 / 2 : ℚ), (1 : ℚ))
        (blankTarget 3 5) (blankMask 3 5) ((1 : ℚ), (2 : ℚ)) ((2 : ℚ), (3 : ℚ))
        30).1.get (2 : Nat) (4 : Nat)
      = (transform taylorLibm false sampleSource Array2.emptyMask ((1 / 2 : ℚ), (1 : ℚ))
          (blankTarget 3 5) Array2.emptyMask ((1 : ℚ), (2 : ℚ)) ((2 : ℚ), (3 : ℚ))
          30).1.get (2 : Nat) (4 : Nat) :=
  ⟨rfl, rfl, fun _ _ _ => rfl, by decide, by decide,
    (masked_refines_unmasked taylorLibm sampleSource (fullMask 2 3) ((1 / 2 : ℚ), (1 : ℚ))
      (blankTarget 3 5) (blankMask 3 5) ((1 : ℚ), (2 : ℚ)) ((2 : ℚ), (3 : ℚ)) 30
      Array2.emptyMask Array2.emptyMask rfl rfl (fun _ _ _ => rfl) 2 4 (by decide)
      (by decide)).1⟩

end ClaimsRefinement

/-! ## No energy is lost at the border by `scale` -/

/-- A destination index scaled by `(s-1)/(d-1)` stays in `[0, s-1]`. -/
theorem scaled_in_range {K : Type} [LinearOrderedField K] (s d y : Nat) (hs : 1 ≤ s)
    (hd : 2 ≤ d) (hy : y < d) :
    0 ≤ (y : K) * ((s : K) - 1) / ((d : K) - 1) ∧
    (y : K) * ((s : K) - 1) / ((d : K) - 1) ≤ (s : K) - 1 := by
  have hd2 : (2 : K) ≤ (d : K) := by exact_mod_cast hd
  have hd1 : (0 : K) < (d : K) - 1 := by linarith
  have hs1 : (0 : K) ≤ (s : K) - 1 := by
    have : (1 : K) ≤ (s : K) := by exact_mod_cast hs
    linarith
  have hy1 : (y : K) ≤ (d : K) - 1 := by
    have : ((y + 1 : Nat) : K) ≤ (d : K) := by exact_mod_cast hy
    push_cast at this
    linarith
  constructor
  · exact div_nonneg (mul_nonneg (Nat.cast_nonneg y) hs1) hd1.le
  · rw [div_le_iff₀ hd1]
    exact mul_comm ((d : K) - 1) ((s : K) - 1) ▸ mul_le_mul_of_nonneg_right hy1 hs1

/-- The source position `scale` assigns to destination pixel `(y,x)`. -/
theorem scale_coordinate {K : Type} [LinearOrderedField K] (m : Libm K) (hsin : m.sin 0 = 0) (hcos : m.cos 0 = 1)
    (src dst : Array2 K) (y x : K) :
    sourceCoordinate (steps m (0, 0) (0, 0) (_get_scale_factor src.shape dst.shape) 0) y x
      = (y * ((src.extent0 : K) - 1) / ((dst.extent0 : K) - 1),
         x * ((src.extent1 : K) - 1) / ((dst.extent1 : K) - 1)) := by
  rw [steps_scale m hsin hcos]
  simp only [sourceCoordinate, Array2.shape, Int.cast_natCast]
  apply Prod.ext
  · simp only; ring
  · simp only; ring

section BorderLemmas

variable {K : Type} [LinearOrderedField K] [FloorRing K]

/-- The value `scale` leaves at destination pixel `(y,x)`. -/
theorem scale_get (m : Libm K) (hsin : m.sin 0 = 0) (hcos : m.cos 0 = 1)
    (src dst : Array2 K) (y x : Nat) (hy : y < dst.extent0) (hx : x < dst.extent1) :
    (scale m src dst).get y x
      = interpolate src ((y : K) * ((src.extent0 : K) - 1) / ((dst.extent0 : K) - 1))
          ((x : K) * ((src.extent1 : K) - 1) / ((dst.extent1 : K) - 1)) := by
  rw [scale, transform_get _ _ _ _ _ _ _ _ _ _ y x hy hx, scale_coordinate m hsin hcos]
  simp only [pixelValue, Bool.false_eq_true, if_false]

/-- At a source position inside `[0,h] × [0,w]` every neighbour with a
non-zero weight is in-bounds. -/
theorem inside_neighbours (source : Array2 K) (source_y source_x : K)
    (hy0 : 0 ≤ source_y) (hy1 : source_y ≤ (source.extent0 : K) - 1)
    (hx0 : 0 ≤ source_x) (hx1 : source_x ≤ (source.extent1 : K) - 1) :
    ∀ n ∈ neighbours source_y source_x, n.2 ≠ 0 → source.inBounds n.1.1 n.1.2 := by
  have oy0 : (0 : Int) ≤ ⌊source_y⌋ := Int.floor_nonneg.mpr hy0
  have ox0 : (0 : Int) ≤ ⌊source_x⌋ := Int.floor_nonneg.mpr hx0
  have oy1 : ⌊source_y⌋ ≤ (source.extent0 : Int) - 1 := by
    have : ((⌊source_y⌋ : Int) : K) ≤ (((source.extent0 : Int) - 1 : Int) : K) := by
      push_cast
      exact le_trans (Int.floor_le source_y) hy1
    exact_mod_cast this
  have ox1 : ⌊source_x⌋ ≤ (source.extent1 : Int) - 1 := by
    have : ((⌊source_x⌋ : Int) : K) ≤ (((source.extent1 : Int) - 1 : Int) : K) := by
      push_cast
      exact le_trans (Int.floor_le source_x) hx1
    exact_mod_cast this
  have oy2 : source_y - (⌊source_y⌋ : K) ≠ 0 → ⌊source_y⌋ + 1 ≤ (source.extent0 : Int) - 1 := by
    intro hne
    have hlt : ((⌊source_y⌋ : Int) : K) < (((source.extent0 : Int) - 1 : Int) : K) := by
      push_cast
      have h1 := Int.floor_le source_y
      have h2 : ((⌊source_y⌋ : Int) : K) ≠ source_y := fun h => hne (by rw [h]; ring)
      exact lt_of_lt_of_le (lt_of_le_of_ne h1 h2) hy1
    have : ⌊source_y⌋ < (source.extent0 : Int) - 1 := by exact_mod_cast hlt
    omega
  have ox2 : source_x - (⌊source_x⌋ : K) ≠ 0 → ⌊source_x⌋ + 1 ≤ (source.extent1 : Int) - 1 := by
    intro hne
    have hlt : ((⌊source_x⌋ : Int) : K) < (((source.extent1 : Int) - 1 : Int) : K) := by
      push_cast
      have h1 := Int.floor_le source_x
      have h2 : ((⌊source_x⌋ : Int) : K) ≠ source_x := fun h => hne (by rw [h]; ring)
      exact lt_of_lt_of_le (lt_of_le_of_ne h1 h2) hx1
    have : ⌊source_x⌋ < (source.extent1 : Int) - 1 := by exact_mod_cast hlt
    omega
  intro n hn hw
  simp only [neighbours, List.mem_cons, List.mem_singleton, List.not_mem_nil, or_false] at hn
  rcases hn with rfl | rfl | rfl | rfl <;> simp only at hw ⊢
  · exact ⟨oy0, oy1, ox0, ox1⟩
  · have hm := (mul_ne_zero_iff.mp hw).1
    exact ⟨oy0, oy1, by omega, ox2 hm⟩
  · have hm := (mul_ne_zero_iff.mp hw).2
    exact ⟨by omega, oy2 hm, ox0, ox1⟩
  · have hm := mul_ne_zero_iff.mp hw
    exact ⟨by omega, oy2 hm.2, by omega, ox2 hm.1⟩

/-- At a source position inside `[0,h] × [0,w]` the weights of the in-bounds
neighbours add up to `1`. -/
theorem inside_weights_sum (source : Array2 K) (source_y source_x : K)
    (hy0 : 0 ≤ source_y) (hy1 : source_y ≤ (source.extent0 : K) - 1)
    (hx0 : 0 ≤ source_x) (hx1 : source_x ≤ (source.extent1 : K) - 1) :
    (((neighbours source_y source_x).filter
        (fun n => decide (source.inBounds n.1.1 n.1.2))).map (fun n => n.2)).sum = 1 := by
  have hin := inside_neighbours source source_y source_x hy0 hy1 hx0 hx1
  obtain ⟨-, -, -, -, hsum⟩ := weights_unit source_y source_x
  have z1 : ¬ source.inBounds ⌊source_y⌋ ⌊source_x⌋ →
      (1 - (source_x - (⌊source_x⌋ : K))) * (1 - (source_y - (⌊source_y⌋ : K))) = 0 :=
    fun h => by_contra fun hne => h (hin ((⌊source_y⌋, ⌊source_x⌋), _) (by simp [neighbours]) hne)
  have z2 : ¬ source.inBounds ⌊source_y⌋ (⌊source_x⌋ + 1) →
      (source_x - (⌊source_x⌋ : K)) * (1 - (source_y - (⌊source_y⌋ : K))) = 0 :=
    fun h => by_contra fun hne =>
      h (hin ((⌊source_y⌋, ⌊source_x⌋ + 1), _) (by simp [neighbours]) hne)
  have z3 : ¬ source.inBounds (⌊source_y⌋ + 1) ⌊source_x⌋ →
      (1 - (source_x - (⌊source_x⌋ : K))) * (source_y - (⌊source_y⌋ : K)) = 0 :=
    fun h => by_contra fun hne =>
      h (hin ((⌊source_y⌋ + 1, ⌊source_x⌋), _) (by simp [neighbours]) hne)
  have z4 : ¬ source.inBounds (⌊source_y⌋ + 1) (⌊source_x⌋ + 1) →
      (source_x - (⌊source_x⌋ : K)) * (source_y - (⌊source_y⌋ : K)) = 0 :=
    fun h => by_contra fun hne =>
      h (hin ((⌊source_y⌋ + 1, ⌊source_x⌋ + 1), _) (by simp [neighbours]) hne)
  simp only [neighbours]
  by_cases h1 : source.inBounds ⌊source_y⌋ ⌊source_x⌋ <;>
  by_cases h2 : source.inBounds ⌊source_y⌋ (⌊source_x⌋ + 1) <;>
  by_cases h3 : source.inBounds (⌊source_y⌋ + 1) ⌊source_x⌋ <;>
  by_cases h4 : source.inBounds (⌊source_y⌋ + 1) (⌊source_x⌋ + 1) <;>
  simp only [List.filter_cons, List.filter_nil, h1, h2, h3, h4, decide_True, decide_False,
    if_true, if_false, List.map_cons, List.map_nil, List.sum_cons, List.sum_nil,
    Bool.false_eq_true] <;>
  first
    | (have e1 := z1 h1; have e2 := z2 h2; have e3 := z3 h3; have e4 := z4 h4; linarith)
    | (have e1 := z1 h1; have e2 := z2 h2; have e3 := z3 h3; linarith)
    | (have e1 := z1 h1; have e2 := z2 h2; have e4 := z4 h4; linarith)
    | (have e1 := z1 h1; have e3 := z3 h3; have e4 := z4 h4; linarith)
    | (have e2 := z2 h2; have e3 := z3 h3; have e4 := z4 h4; linarith)
    | (have e1 := z1 h1; have e2 := z2 h2; linarith)
    | (have e1 := z1 h1; have e3 := z3 h3; linarith)
    | (have e1 := z1 h1; have e4 := z4 h4; linarith)
    | (have e2 := z2 h2; have e3 := z3 h3; linarith)
    | (have e2 := z2 h2; have e4 := z4 h4; linarith)
    | (have e3 := z3 h3; have e4 := z4 h4; linarith)
    | (have e1 := z1 h1; linarith)
    | (have e2 := z2 h2; linarith)
    | (have e3 := z3 h3; linarith)
    | (have e4 := z4 h4; linarith)
    | linarith

/-- At a source position inside `[0,h] × [0,w]` a constant image is
interpolated to its constant. -/
theorem interpolate_constant (source : Array2 K) (c : K)
    (hc : ∀ i j, source.inBounds i j → source.get i j = c) (source_y source_x : K)
    (hy0 : 0 ≤ source_y) (hy1 : source_y ≤ (source.extent0 : K) - 1)
    (hx0 : 0 ≤ source_x) (hx1 : source_x ≤ (source.extent1 : K) - 1) :
    interpolate source source_y source_x = c := by
  rw [interpolate_eq_bilinearSum, bilinearSum]
  have e : ((neighbours source_y source_x).filter
        (fun n => decide (source.inBounds n.1.1 n.1.2))).map
          (fun n => n.2 * source.get n.1.1 n.1.2)
      = ((neighbours source_y source_x).filter
        (fun n => decide (source.inBounds n.1.1 n.1.2))).map (fun n => n.2 * c) := by
    apply List.map_congr_left
    intro n hn
    have hb := (List.mem_filter.mp hn).2
    rw [hc n.1.1 n.1.2 (of_decide_eq_true hb)]
  rw [e, List.sum_map_mul_right,
    inside_weights_sum source source_y source_x hy0 hy1 hx0 hx1, one_mul]

end BorderLemmas

/-- The last destination index is scaled to the last source index. -/
theorem grid_end {K : Type} [LinearOrderedField K] (s d : Nat) (hs : 1 ≤ s) (hd : 2 ≤ d) :
    ((d - 1 : Nat) : K) * ((s : K) - 1) / ((d : K) - 1) = ((s - 1 : Nat) : K) := by
  have hd2 : (2 : K) ≤ (d : K) := by exact_mod_cast hd
  have hd1 : (d : K) - 1 ≠ 0 := by intro h; linarith
  rw [Nat.cast_sub (by omega : 1 ≤ d), Nat.cast_sub hs, Nat.cast_one]
  field_simp

/-- The first destination index is scaled to the first source index. -/
theorem grid_start {K : Type} [LinearOrderedField K] (a b : K) :
    ((0 : Nat) : K) * a / b = ((0 : Nat) : K) := by
  simp

section ClaimsBorder

variable {K : Type} [LinearOrderedField K] [FloorRing K]

/-- A destination pixel whose source position is the integer position `(a,b)`
inside the source receives the sample `src(a,b)`. -/
theorem scale_get_grid (m : Libm K) (hsin : m.sin 0 = 0) (hcos : m.cos 0 = 1)
    (src dst : Array2 K) (y x a b : Nat) (hy : y < dst.extent0) (hx : x < dst.extent1)
    (ha : a < src.extent0) (hb : b < src.extent1)
    (ey : (y : K) * ((src.extent0 : K) - 1) / ((dst.extent0 : K) - 1) = (a : K))
    (ex : (x : K) * ((src.extent1 : K) - 1) / ((dst.extent1 : K) - 1) = (b : K)) :
    (scale m src dst).get y x = src.get a b := by
  rw [scale_get m hsin hcos src dst y x hy hx, ey, ex]
  exact interpolate_at_pixel src a b ha hb

/-- Claim C22. No energy is lost at the border by `scale`: for every source
and destination whose row and column extents are all at least `2`, the source
position `scale` samples for a destination pixel lies in `[0,h] × [0,w]`,
every neighbour with a non-zero weight is in-bounds, and the weights of the
in-bounds neighbours add up to exactly `1`; hence a constant source image
gives the same constant at the destination pixel, and the four destination
corners equal the four source corners. -/
theorem scale_border_energy (m : Libm K) (hsin : m.sin 0 = 0) (hcos : m.cos 0 = 1)
    (src dst : Array2 K) (hs0 : 2 ≤ src.extent0) (hs1 : 2 ≤ src.extent1)
    (hd0 : 2 ≤ dst.extent0) (hd1 : 2 ≤ dst.extent1)
    (y x : Nat) (hy : y < dst.extent0) (hx : x < dst.extent1) :
    ((0 ≤ (cursor m false src Array2.emptyMask (0, 0) dst Array2.emptyMask (0, 0)
          (_get_scale_factor src.shape dst.shape) 0 y x).source_y ∧
      (cursor m false src Array2.emptyMask (0, 0) dst Array2.emptyMask (0, 0)
          (_get_scale_factor src.shape dst.shape) 0 y x).source_y ≤ (src.extent0 : K) - 1) ∧
     (0 ≤ (cursor m false src Array2.emptyMask (0, 0) dst Array2.emptyMask (0, 0)
          (_get_scale_factor src.shape dst.shape) 0 y x).source_x ∧
      (cursor m false src Array2.emptyMask (0, 0) dst Array2.emptyMask (0, 0)
          (_get_scale_factor src.shape dst.shape) 0 y x).source_x ≤ (src.extent1 : K) - 1)) ∧
    (∀ n ∈ neighbours
        (cursor m false src Array2.emptyMask (0, 0) dst Array2.emptyMask (0, 0)
          (_get_scale_factor src.shape dst.shape) 0 y x).source_y
        (cursor m false src Array2.emptyMask (0, 0) dst Array2.emptyMask (0, 0)
          (_get_scale_factor src.shape dst.shape) 0 y x).source_x,
      n.2 ≠ 0 → src.inBounds n.1.1 n.1.2) ∧
    (((neighbours
        (cursor m false src Array2.emptyMask (0, 0) dst Array2.emptyMask (0, 0)
          (_get_scale_factor src.shape dst.shape) 0 y x).source_y
        (cursor m false src Array2.emptyMask (0, 0) dst Array2.emptyMask (0, 0)
          (_get_scale_factor src.shape dst.shape) 0 y x).source_x).filter
        (fun n => decide (src.inBounds n.1.1 n.1.2))).map (fun n => n.2)).sum = 1 ∧
    (∀ c : K, (∀ i j, src.inBounds i j → src.get i j = c) → (scale m src dst).get y x = c) ∧
    ((scale m src dst).get 0 0 = src.get 0 0 ∧
     (scale m src dst).get 0 ((dst.extent1 : Int) - 1) = src.get 0 ((src.extent1 : Int) - 1) ∧
     (scale m src dst).get ((dst.extent0 : Int) - 1) 0 = src.get ((src.extent0 : Int) - 1) 0 ∧
     (scale m src dst).get ((dst.extent0 : Int) - 1) ((dst.extent1 : Int) - 1)
        = src.get ((src.extent0 : Int) - 1) ((src.extent1 : Int) - 1)) := by
  have hc := cursor_source m false src Array2.emptyMask (0, 0) dst Array2.emptyMask (0, 0)
    (_get_scale_factor src.shape dst.shape) 0 y x
  rw [scale_coordinate m hsin hcos] at hc
  have hcy := congrArg Prod.fst hc
  have hcx := congrArg Prod.snd hc
  simp only at hcy hcx
  rw [hcy, hcx]
  obtain ⟨y0, y1⟩ := scaled_in_range (K := K) src.extent0 dst.extent0 y (by omega) hd0 hy
  obtain ⟨x0, x1⟩ := scaled_in_range (K := K) src.extent1 dst.extent1 x (by omega) hd1 hx
  have ed0 : ((dst.extent0 : Int) - 1) = ((dst.extent0 - 1 : Nat) : Int) := by omega
  have ed1 : ((dst.extent1 : Int) - 1) = ((dst.extent1 - 1 : Nat) : Int) := by omega
  have es0 : ((src.extent0 : Int) - 1) = ((src.extent0 - 1 : Nat) : Int) := by omega
  have es1 : ((src.extent1 : Int) - 1) = ((src.extent1 - 1 : Nat) : Int) := by omega
  have z : (0 : Int) = ((0 : Nat) : Int) := rfl
  refine ⟨⟨⟨y0, y1⟩, x0, x1⟩, inside_neighbours src _ _ y0 y1 x0 x1,
    inside_weights_sum src _ _ y0 y1 x0 x1, ?_, ?_, ?_, ?_, ?_⟩
  · intro c hconst
    rw [scale_get m hsin hcos src dst y x hy hx]
    exact interpolate_constant src c hconst _ _ y0 y1 x0 x1
  · rw [z]
    exact scale_get_grid m hsin hcos src dst 0 0 0 0 (by omega) (by omega) (by omega) (by omega)
      (grid_start _ _) (grid_start _ _)
  · rw [z, ed1, es1]
    exact scale_get_grid m hsin hcos src dst 0 (dst.extent1 - 1) 0 (src.extent1 - 1)
      (by omega) (by omega) (by omega) (by omega) (grid_start _ _)
      (grid_end src.extent1 dst.extent1 (by omega) hd1)
  · rw [z, ed0, es0]
    exact scale_get_grid m hsin hcos src dst (dst.extent0 - 1) 0 (src.extent0 - 1) 0
      (by omega) (by omega) (by omega) (by omega)
      (grid_end src.extent0 dst.extent0 (by omega) hd0) (grid_start _ _)
  · rw [ed0, ed1, es0, es1]
    exact scale_get_grid m hsin hcos src dst (dst.extent0 - 1) (dst.extent1 - 1)
      (src.extent0 - 1) (src.extent1 - 1) (by omega) (by omega) (by omega) (by omega)
      (grid_end src.extent0 dst.extent0 (by omega) hd0)
      (grid_end src.extent1 dst.extent1 (by omega) hd1)

/-- Evaluation of C22 for the constant `2 × 3` image of ones scaled into a
`3 × 5` buffer, at pixel `(1, 3)`. -/
theorem scale_border_energy_witness :
    taylorLibm.sin 0 = 0 ∧ taylorLibm.cos 0 = 1 ∧
    2 ≤ (allOnes 2 3).extent0 ∧ 2 ≤ (allOnes 2 3).extent1 ∧
    2 ≤ (blankTarget 3 5).extent0 ∧ 2 ≤ (blankTarget 3 5).extent1 ∧
    1 < (blankTarget 3 5).extent0 ∧ 3 < (blankTarget 3 5).extent1 ∧
    (scale taylorLibm (allOnes 2 3) (blankTarget 3 5)).get (1 : Nat) (3 : Nat) = 1 :=
  ⟨by norm_num [taylorLibm], by norm_num [taylorLibm], by decide, by decide, by decide,
    by decide, by decide, by decide,
    (scale_border_energy taylorLibm (by norm_num [taylorLibm]) (by norm_num [taylorLibm])
      (allOnes 2 3) (blankTarget 3 5) (by decide) (by decide) (by decide) (by decide) 1 3
      (by decide) (by decide)).2.2.2.1 1 (fun _ _ _ => rfl)⟩

end ClaimsBorder

/-! ## Masked identity scale -/

section ClaimsDilation

variable {K : Type} [LinearOrderedField K] [FloorRing K]

end ClaimsDilation

/-! ## Rotation by a right angle -/

/-- What `transform` derives when `rotate` calls it with an angle of `90`
degrees and a destination of the transposed shape. -/
theorem steps_right_angle {K : Type} [LinearOrderedField K] (m : Libm K)
    (hsin : m.sin (90 * m.M_PI / 180) = 1) (hcos : m.cos (90 * m.M_PI / 180) = 0)
    (src dst : Array2 K) (e0 : dst.extent0 = src.extent1) (e1 : dst.extent1 = src.extent0) :
    steps m (((src.extent0 : K) - 1) / 2, ((src.extent1 : K) - 1) / 2)
        (((dst.extent0 : K) - 1) / 2, ((dst.extent1 : K) - 1) / 2) (1, 1) 90 =
      { col_dy := 1
        col_dx := 0
        row_dy := 0
        row_dx := -1
        origin_y := 0
        origin_x := (src.extent1 : K) - 1 } := by
  simp only [steps, hsin, hcos, e0, e1, Steps.mk.injEq]
  refine ⟨?_, ?_, ?_, ?_, ?_, ?_⟩ <;> ring

section RightAngleLemmas

variable {K : Type} [LinearOrderedField K] [FloorRing K]

/-- Rounding an integer plus one half down gives the integer. -/
theorem floor_add_half (n : Int) : ⌊((n : Int) : K) + 1 / 2⌋ = n := by
  rw [Int.floor_eq_iff]
  constructor <;> linarith

/-- At an integer source position inside the image the bounds-checked
accumulation succeeds and returns the sample at that position. -/
theorem interpolateChecked_at_pixel (source : Array2 K) (y x : Nat) (hy : y < source.extent0)
    (hx : x < source.extent1) :
    interpolateChecked source (y : K) (x : K) = some (source.get y x) := by
  have g1 : ((x : Int) ≥ 0 ∧ (y : Int) ≥ 0 ∧ (x : Int) ≤ (source.extent1 : Int) - 1
      ∧ (y : Int) ≤ (source.extent0 : Int) - 1) := by omega
  have c1 : (0 : Int) ≤ (y : Int) ∧ (y : Int) < (source.extent0 : Int) ∧ (0 : Int) ≤ (x : Int)
      ∧ (x : Int) < (source.extent1 : Int) := by omega
  by_cases b2 : (x : Int) < (source.extent1 : Int) - 1 <;>
  by_cases b3 : (y : Int) < (source.extent0 : Int) - 1
  · have c2 : (0 : Int) ≤ (x : Int) + 1 ∧ (x : Int) + 1 < (source.extent1 : Int) := by omega
    have c3 : (0 : Int) ≤ (y : Int) + 1 ∧ (y : Int) + 1 < (source.extent0 : Int) := by omega
    simp [interpolateChecked, Array2.checkedGet, g1, c1, c2, c3, b2, b3]
  · have c2 : (0 : Int) ≤ (x : Int) + 1 ∧ (x : Int) + 1 < (source.extent1 : Int) := by omega
    simp [interpolateChecked, Array2.checkedGet, g1, c1, c2, b2, b3]
  · have c3 : (0 : Int) ≤ (y : Int) + 1 ∧ (y : Int) + 1 < (source.extent0 : Int) := by omega
    simp [interpolateChecked, Array2.checkedGet, g1, c1, c3, b2, b3]
  · simp [interpolateChecked, Array2.checkedGet, g1, c1, b2, b3]

end RightAngleLemmas

/-- The real sine and cosine take the values `1` and `0` at the radian measure
of `90` degrees. -/
theorem real_libm_at_right_angle :
    Real.sin (90 * Real.pi / 180) = 1 ∧ Real.cos (90 * Real.pi / 180) = 0 := by
  have e : (90 * Real.pi / 180) = Real.pi / 2 := by ring
  rw [e]
  exact ⟨Real.sin_pi_div_two, Real.cos_pi_div_two⟩

section ClaimsRightAngle

variable {K : Type} [LinearOrderedField K] [FloorRing K]

/-- Claim C24. Rotation by a right angle is an exact pixel permutation: with
`sin 90° = 1` and `cos 90° = 0` taken exactly, for every `R × C` source
`getRotatedShape` returns `(C, R)`, and `rotate` by `90` degrees into a
destination of that shape reaches destination pixel `(y,x)` at the source
position `(x, C-1-y)`, an in-bounds index whose bounds-checked accumulation
succeeds, and leaves `dst(y,x) = src(x, C-1-y)`. -/
theorem rotate_right_angle (m : Libm K) (hsin : m.sin (90 * m.M_PI / 180) = 1)
    (hcos : m.cos (90 * m.M_PI / 180) = 0) (src dst : Array2 K)
    (e0 : dst.extent0 = src.extent1) (e1 : dst.extent1 = src.extent0)
    (y x : Nat) (hy : y < dst.extent0) (hx : x < dst.extent1) :
    getRotatedShape m [(src.extent0 : Int), (src.extent1 : Int)] 90
        = [(src.extent1 : Int), (src.extent0 : Int)] ∧
    ((cursor m false src Array2.emptyMask
          (((src.extent0 : K) - 1) / 2, ((src.extent1 : K) - 1) / 2) dst Array2.emptyMask
          (((dst.extent0 : K) - 1) / 2, ((dst.extent1 : K) - 1) / 2) (1, 1) 90 y x).source_y,
     (cursor m false src Array2.emptyMask
          (((src.extent0 : K) - 1) / 2, ((src.extent1 : K) - 1) / 2) dst Array2.emptyMask
          (((dst.extent0 : K) - 1) / 2, ((dst.extent1 : K) - 1) / 2) (1, 1) 90 y x).source_x)
        = ((x : K), (src.extent1 : K) - 1 - (y : K)) ∧
    src.inBounds (x : Int) ((src.extent1 : Int) - 1 - (y : Int)) ∧
    interpolateChecked src (x : K) ((src.extent1 : K) - 1 - (y : K))
        = some (src.get (x : Int) ((src.extent1 : Int) - 1 - (y : Int))) ∧
    (rotate m src dst 90).get y x = src.get (x : Int) ((src.extent1 : Int) - 1 - (y : Int)) := by
  have hyC : y < src.extent1 := e0 ▸ hy
  have hxR : x < src.extent0 := e1 ▸ hx
  have ei : ((src.extent1 : Int) - 1 - (y : Int)) = ((src.extent1 - 1 - y : Nat) : Int) := by
    omega
  have ek : ((src.extent1 : K) - 1 - (y : K)) = ((src.extent1 - 1 - y : Nat) : K) := by
    rw [Nat.cast_sub (by omega : y ≤ src.extent1 - 1), Nat.cast_sub (by omega : 1 ≤ src.extent1),
      Nat.cast_one]
  have hcoord : sourceCoordinate
      (steps m (((src.extent0 : K) - 1) / 2, ((src.extent1 : K) - 1) / 2)
        (((dst.extent0 : K) - 1) / 2, ((dst.extent1 : K) - 1) / 2) (1, 1) 90) (y : K) (x : K)
      = ((x : K), (src.extent1 : K) - 1 - (y : K)) := by
    rw [steps_right_angle m hsin hcos src dst e0 e1]
    simp only [sourceCoordinate]
    apply Prod.ext
    · simp only; ring
    · simp only; ring
  refine ⟨?_, ?_, ?_, ?_, ?_⟩
  · simp only [getRotatedShape, hsin, hcos, List.length_cons, List.length_nil, List.getD_cons_zero,
      List.getD_cons_succ, abs_zero, abs_one, mul_zero, mul_one, zero_add, add_zero]
    rw [floor_add_half, floor_add_half]
    rfl
  · rw [cursor_source, hcoord]
  · unfold Array2.inBounds; omega
  · rw [ek, ei]
    exact interpolateChecked_at_pixel src x (src.extent1 - 1 - y) hxR (by omega)
  · rw [rotate, transform_get _ _ _ _ _ _ _ _ _ _ y x hy hx, hcoord]
    simp only [pixelValue, Bool.false_eq_true, if_false]
    rw [ek, ei]
    exact interpolate_at_pixel src x (src.extent1 - 1 - y) hxR (by omega)

/-- Evaluation of C24 for the `2 × 3` sample image rotated into a `3 × 2`
buffer: destination pixel `(2, 1)` receives the source sample at `(1, 0)`. -/
theorem rotate_right_angle_witness :
    rightAngleLibm.sin (90 * rightAngleLibm.M_PI / 180) = 1 ∧
    rightAngleLibm.cos (90 * rightAngleLibm.M_PI / 180) = 0 ∧
    (blankTarget 3 2).extent0 = sampleSource.extent1 ∧
    (blankTarget 3 2).extent1 = sampleSource.extent0 ∧
    2 < (blankTarget 3 2).extent0 ∧ 1 < (blankTarget 3 2).extent1 ∧
    (rotate rightAngleLibm sampleSource (blankTarget 3 2) 90).get (2 : Nat) (1 : Nat)
      = sampleSource.get ((1 : Nat) : Int)
          ((sampleSource.extent1 : Int) - 1 - ((2 : Nat) : Int)) :=
  ⟨by norm_num [rightAngleLibm], by norm_num [rightAngleLibm], rfl, rfl, by decide, by decide,
    (rotate_right_angle rightAngleLibm (by norm_num [rightAngleLibm])
      (by norm_num [rightAngleLibm]) sampleSource (blankTarget 3 2) rfl rfl 2 1 (by decide)
      (by decide)).2.2.2.2⟩

end ClaimsRightAngle


/-! ## The full turn with the binary64 constant `M_PI` -/

/-- The binary64 value of `M_PI` lies strictly between `3` and `π`. -/
theorem binary64_pi_bounds :
    (3 : ℝ) < ((M_PI_binary64 : ℚ) : ℝ) ∧ ((M_PI_binary64 : ℚ) : ℝ) < Real.pi := by
  have h := Real.pi_gt_d20
  constructor
  · norm_num [M_PI_binary64]
  · refine lt_trans ?_ h
    norm_num [M_PI_binary64]

/-- With the binary64 value of `M_PI`, the exact sine of the radian measure of
`360` degrees is negative and the exact cosine is positive. -/
theorem binary64_full_turn_sin_cos :
    Real.sin (360 * ((M_PI_binary64 : ℚ) : ℝ) / 180) < 0 ∧
    0 < Real.cos (360 * ((M_PI_binary64 : ℚ) : ℝ) / 180) := by
  obtain ⟨h3, hlt⟩ := binary64_pi_bounds
  have hpi4 := Real.pi_le_four
  have e : 360 * ((M_PI_binary64 : ℚ) : ℝ) / 180 = 2 * ((M_PI_binary64 : ℚ) : ℝ) := by ring
  rw [e]
  constructor
  · rw [← Real.sin_sub_two_pi]
    exact Real.sin_neg_of_neg_of_neg_pi_lt (by linarith) (by linarith)
  · rw [← Real.cos_sub_two_pi]
    exact Real.cos_pos_of_mem_Ioo ⟨by linarith, by linarith [Real.pi_pos]⟩

/-- Counterexample to C12 as stated: with the exact real `sin` and `cos` but
the binary64 value of `M_PI` that the program uses, `rotate` by `360` degrees
and `rotate` by `0` degrees write different destinations.  For the `1 × 2`
image of ones rotated into a `1 × 2` buffer, pixel `(0,0)` is `1` at `0`
degrees and less than `1` at `360` degrees. -/
theorem rotate_full_turn_counterexample :
    rotate ({ M_PI := ((M_PI_binary64 : ℚ) : ℝ), sin := Real.sin, cos := Real.cos } : Libm ℝ)
        (constantImage 1 1 2) (constantImage 0 1 2) 360
      ≠ rotate ({ M_PI := ((M_PI_binary64 : ℚ) : ℝ), sin := Real.sin, cos := Real.cos } : Libm ℝ)
        (constantImage 1 1 2) (constantImage 0 1 2) 0 ∧
    (rotate ({ M_PI := ((M_PI_binary64 : ℚ) : ℝ), sin := Real.sin, cos := Real.cos } : Libm ℝ)
        (constantImage 1 1 2) (constantImage 0 1 2) 360).get 0 0 < 1 ∧
    (rotate ({ M_PI := ((M_PI_binary64 : ℚ) : ℝ), sin := Real.sin, cos := Real.cos } : Libm ℝ)
        (constantImage 1 1 2) (constantImage 0 1 2) 0).get 0 0 = 1 := by
  obtain ⟨hs, hc⟩ := binary64_full_turn_sin_cos
  have hs1 := Real.neg_one_le_sin (360 * ((M_PI_binary64 : ℚ) : ℝ) / 180)
  have hc1 := Real.cos_le_one (360 * ((M_PI_binary64 : ℚ) : ℝ) / 180)
  have z : (0 : Int) = ((0 : Nat) : Int) := rfl
  have v360 : (rotate
        ({ M_PI := ((M_PI_binary64 : ℚ) : ℝ), sin := Real.sin, cos := Real.cos } : Libm ℝ)
        (constantImage 1 1 2) (constantImage 0 1 2) 360).get 0 0
      = 1 - (-Real.sin (360 * ((M_PI_binary64 : ℚ) : ℝ) / 180)) / 2 := by
    have fy : ⌊(-Real.sin (360 * ((M_PI_binary64 : ℚ) : ℝ) / 180)) / 2⌋ = 0 := by
      rw [Int.floor_eq_zero_iff]
      constructor <;> linarith
    have fx : ⌊(1 - Real.cos (360 * ((M_PI_binary64 : ℚ) : ℝ) / 180)) / 2⌋ = 0 := by
      rw [Int.floor_eq_zero_iff]
      constructor <;> linarith
    have hy : (sourceCoordinate (steps
          ({ M_PI := ((M_PI_binary64 : ℚ) : ℝ), sin := Real.sin, cos := Real.cos } : Libm ℝ)
          ((((constantImage (1 : ℝ) 1 2).extent0 : ℝ) - 1) / 2,
            (((constantImage (1 : ℝ) 1 2).extent1 : ℝ) - 1) / 2)
          ((((constantImage (0 : ℝ) 1 2).extent0 : ℝ) - 1) / 2,
            (((constantImage (0 : ℝ) 1 2).extent1 : ℝ) - 1) / 2) (1, 1) 360)
          ((0 : Nat) : ℝ) ((0 : Nat) : ℝ))
        = ((-Real.sin (360 * ((M_PI_binary64 : ℚ) : ℝ) / 180)) / 2,
           (1 - Real.cos (360 * ((M_PI_binary64 : ℚ) : ℝ) / 180)) / 2) := by
      simp only [sourceCoordinate, steps, constantImage]
      apply Prod.ext <;> simp only <;> push_cast <;> ring
    rw [z, rotate, transform_get _ _ _ _ _ _ _ _ _ _ 0 0 (by decide) (by decide), hy]
    simp only [pixelValue, Bool.false_eq_true, if_false, interpolate, fy, fx, constantImage]
    norm_num
    ring
  have v0 : (rotate
        ({ M_PI := ((M_PI_binary64 : ℚ) : ℝ), sin := Real.sin, cos := Real.cos } : Libm ℝ)
        (constantImage 1 1 2) (constantImage 0 1 2) 0).get 0 0 = 1 := by
    have hy : (sourceCoordinate (steps
          ({ M_PI := ((M_PI_binary64 : ℚ) : ℝ), sin := Real.sin, cos := Real.cos } : Libm ℝ)
          ((((constantImage (1 : ℝ) 1 2).extent0 : ℝ) - 1) / 2,
            (((constantImage (1 : ℝ) 1 2).extent1 : ℝ) - 1) / 2)
          ((((constantImage (0 : ℝ) 1 2).extent0 : ℝ) - 1) / 2,
            (((constantImage (0 : ℝ) 1 2).extent1 : ℝ) - 1) / 2) (1, 1) 0)
          ((0 : Nat) : ℝ) ((0 : Nat) : ℝ))
        = (((0 : Nat) : ℝ), ((0 : Nat) : ℝ)) := by
      simp [sourceCoordinate, steps, constantImage]
    rw [z, rotate, transform_get _ _ _ _ _ _ _ _ _ _ 0 0 (by decide) (by decide), hy]
    simp only [pixelValue, Bool.false_eq_true, if_false]
    rw [interpolate_at_pixel _ 0 0 (by decide) (by decide)]
    rfl
  refine ⟨?_, ?_, v0⟩
  · intro h
    have h1 := v360
    rw [h, v0] at h1
    linarith
  · rw [v360]
    linarith

/-! ## Boundary energy loss in binary64 arithmetic -/

set_option maxRecDepth 4000 in
/-- Worked examples of the binary64 rounding: `1/5`, `1 - 1/5` (a tie, resolved
to the even significand), `1/10 + 1/5`, `1/3`, `5/3`, and the conversion of
`2^53 + 1` (a tie again) agree with the IEEE 754 results
`0x1.999999999999ap-3`, `0x1.999999999999ap-1`, `0x1.3333333333334p-2`,
`0x1.5555555555555p-2`, `0x1.aaaaaaaaaaaabp+0` and `2^53`. -/
theorem binary64_rounding_examples :
    (1 : Double) / 5 = { mantissa := 7205759403792794, exponent := -55 } ∧
    (1 : Double) - 1 / 5 = { mantissa := 7205759403792794, exponent := -53 } ∧
    (1 : Double) / 10 + 1 / 5 = { mantissa := 5404319552844596, exponent := -54 } ∧
    (1 : Double) / 3 = { mantissa := 6004799503160661, exponent := -54 } ∧
    (5 : Double) / 3 = { mantissa := 7505999378950827, exponent := -52 } ∧
    Double.ofInt 9007199254740993 = { mantissa := 4503599627370496, exponent := 1 } := by
  decide

set_option maxRecDepth 4000 in
/-- The run of `scale` from the `2 × 2` image of ones into a `6 × 6` buffer,
step by step in binary64 arithmetic: both scale factors are `5`, a column step
and a row step are the binary64 number `1/5`, and the accumulation at the
source position `(1/5, 1/5)` of pixel `(1,1)` gives `1 + 2^-52`. -/
theorem binary64_scale_trace :
    Binary64._get_scale_factor (constantImage (1 : Double) 2 2).shape
        (constantImage (0 : Double) 6 6).shape = (5, 5) ∧
    (Binary64.steps Binary64.taylorLibm (0, 0) (0, 0) (5, 5) 0).col_dy = 0 ∧
    (Binary64.steps Binary64.taylorLibm (0, 0) (0, 0) (5, 5) 0).col_dx = 1 / 5 ∧
    (Binary64.steps Binary64.taylorLibm (0, 0) (0, 0) (5, 5) 0).row_dy = 1 / 5 ∧
    (Binary64.steps Binary64.taylorLibm (0, 0) (0, 0) (5, 5) 0).row_dx = 0 ∧
    (Binary64.steps Binary64.taylorLibm (0, 0) (0, 0) (5, 5) 0).origin_y = 0 ∧
    (Binary64.steps Binary64.taylorLibm (0, 0) (0, 0) (5, 5) 0).origin_x = 0 ∧
    (0 : Double) + 1 / 5 = 1 / 5 ∧
    Binary64.interpolate (constantImage (1 : Double) 2 2) (1 / 5) (1 / 5)
      = { mantissa := 4503599627370497, exponent := -52 } := by
  decide

set_option maxRecDepth 4000 in
/-- Counterexample to C13 as stated: with every operation rounded as binary64
arithmetic rounds it, `scale` of the `2 × 2` image whose samples are all `1`
into a `6 × 6` buffer (scale factors `5` and `5`) writes `1 + 2^-52`, a value
above `1`, at pixel `(1,1)`. -/
theorem all_ones_binary64_counterexample :
    (∀ i j : Int, (constantImage (1 : Double) 2 2).get i j = 1) ∧
    (Binary64.scale Binary64.taylorLibm (constantImage 1 2 2) (constantImage 0 6 6)).get 1 1
      = { mantissa := 4503599627370497, exponent := -52 } ∧
    (1 : ℚ) < ((Binary64.scale Binary64.taylorLibm (constantImage 1 2 2)
        (constantImage 0 6 6)).get 1 1).toRat := by
  have h : (Binary64.scale Binary64.taylorLibm (constantImage 1 2 2)
      (constantImage 0 6 6)).get 1 1
      = { mantissa := 4503599627370497, exponent := -52 } := by decide
  refine ⟨fun _ _ => rfl, h, ?_⟩
  rw [h]
  norm_num [Double.toRat]

end Affine
